import Mathlib

/-!
# Employee directory: client-side list filtering and form validation, and the REST handlers

A shallow embedding of the pure logic of the React pages
`frontend/src/pages/EmployeeList.jsx`, `AddEmployee.jsx` and `EditEmployee.jsx`, and of the
route handlers of `backend/routes/employees.js` over the schema of
`backend/models/Employee.js`.

JavaScript strings are sequences of UTF-16 code units; they are modelled as lists of
natural numbers (one entry per code unit), so that `includes`, `trim`, the regular
expression test and `split` work on exactly the units the engine sees.
-/

namespace EmployeeApp

/-! ## Definitions -/

/-- A JavaScript string: its UTF-16 code units, in order. -/
abbrev JSString := List Nat

/-- The code units of a literal whose characters all lie in the Basic Multilingual Plane. -/
def js (s : String) : JSString := s.toList.map Char.toNat

/-- Code units that ECMAScript counts as `WhiteSpace` or `LineTerminator`: the set removed by
`String.prototype.trim` and matched by the regular-expression class `\s`. -/
def isWhiteSpace (c : Nat) : Bool :=
  c == 0x09 || c == 0x0A || c == 0x0B || c == 0x0C || c == 0x0D || c == 0x20 ||
  c == 0xA0 || c == 0x1680 || (0x2000 ≤ c && c ≤ 0x200A) || c == 0x2028 || c == 0x2029 ||
  c == 0x202F || c == 0x205F || c == 0x3000 || c == 0xFEFF

/-- `String.prototype.trim`: strips white space from both ends. -/
def trim (s : JSString) : JSString :=
  ((s.dropWhile isWhiteSpace).reverse.dropWhile isWhiteSpace).reverse

/-! ### Letter case

The case mappings of the Unicode Character Database, version 14.0, as tables. A row
`(first, last, step, image)` of a range table says that the code points `first`,
`first + step`, … up to `last` go to `image`, `image + step`, …; a row of a table of
expansions gives the code points that one code point goes to. -/

/-- Code points with a one-to-one lower-case mapping. -/
def lowerRanges : List (Nat × Nat × Nat × Nat) :=
  [(65, 90, 1, 97), (192, 214, 1, 224), (216, 222, 1, 248), (256, 302, 2, 257),
   (306, 310, 2, 307), (313, 327, 2, 314), (330, 374, 2, 331), (376, 376, 1, 255),
   (377, 381, 2, 378), (385, 385, 1, 595), (386, 388, 2, 387), (390, 390, 1, 596),
   (391, 391, 1, 392), (393, 394, 1, 598), (395, 395, 1, 396), (398, 398, 1, 477),
   (399, 399, 1, 601), (400, 400, 1, 603), (401, 401, 1, 402), (403, 403, 1, 608),
   (404, 404, 1, 611), (406, 406, 1, 617), (407, 407, 1, 616), (408, 408, 1, 409),
   (412, 412, 1, 623), (413, 413, 1, 626), (415, 415, 1, 629), (416, 420, 2, 417),
   (422, 422, 1, 640), (423, 423, 1, 424), (425, 425, 1, 643), (428, 428, 1, 429),
   (430, 430, 1, 648), (431, 431, 1, 432), (433, 434, 1, 650), (435, 437, 2, 436),
   (439, 439, 1, 658), (440, 440, 1, 441), (444, 444, 1, 445), (452, 452, 1, 454),
   (453, 453, 1, 454), (455, 455, 1, 457), (456, 456, 1, 457), (458, 458, 1, 460),
   (459, 475, 2, 460), (478, 494, 2, 479), (497, 497, 1, 499), (498, 500, 2, 499),
   (502, 502, 1, 405), (503, 503, 1, 447), (504, 542, 2, 505), (544, 544, 1, 414),
   (546, 562, 2, 547), (570, 570, 1, 11365), (571, 571, 1, 572), (573, 573, 1, 410),
   (574, 574, 1, 11366), (577, 577, 1, 578), (579, 579, 1, 384), (580, 580, 1, 649),
   (581, 581, 1, 652), (582, 590, 2, 583), (880, 882, 2, 881), (886, 886, 1, 887),
   (895, 895, 1, 1011), (902, 902, 1, 940), (904, 906, 1, 941), (908, 908, 1, 972),
   (910, 911, 1, 973), (913, 929, 1, 945), (931, 939, 1, 963), (975, 975, 1, 983),
   (984, 1006, 2, 985), (1012, 1012, 1, 952), (1015, 1015, 1, 1016), (1017, 1017, 1, 1010),
   (1018, 1018, 1, 1019), (1021, 1023, 1, 891), (1024, 1039, 1, 1104), (1040, 1071, 1, 1072),
   (1120, 1152, 2, 1121), (1162, 1214, 2, 1163), (1216, 1216, 1, 1231), (1217, 1229, 2, 1218),
   (1232, 1326, 2, 1233), (1329, 1366, 1, 1377), (4256, 4293, 1, 11520),
   (4295, 4295, 1, 11559), (4301, 4301, 1, 11565), (5024, 5103, 1, 43888),
   (5104, 5109, 1, 5112), (7312, 7354, 1, 4304), (7357, 7359, 1, 4349), (7680, 7828, 2, 7681),
   (7838, 7838, 1, 223), (7840, 7934, 2, 7841), (7944, 7951, 1, 7936), (7960, 7965, 1, 7952),
   (7976, 7983, 1, 7968), (7992, 7999, 1, 7984), (8008, 8013, 1, 8000), (8025, 8031, 2, 8017),
   (8040, 8047, 1, 8032), (8072, 8079, 1, 8064), (8088, 8095, 1, 8080), (8104, 8111, 1, 8096),
   (8120, 8121, 1, 8112), (8122, 8123, 1, 8048), (8124, 8124, 1, 8115), (8136, 8139, 1, 8050),
   (8140, 8140, 1, 8131), (8152, 8153, 1, 8144), (8154, 8155, 1, 8054), (8168, 8169, 1, 8160),
   (8170, 8171, 1, 8058), (8172, 8172, 1, 8165), (8184, 8185, 1, 8056), (8186, 8187, 1, 8060),
   (8188, 8188, 1, 8179), (8486, 8486, 1, 969), (8490, 8490, 1, 107), (8491, 8491, 1, 229),
   (8498, 8498, 1, 8526), (8544, 8559, 1, 8560), (8579, 8579, 1, 8580), (9398, 9423, 1, 9424),
   (11264, 11311, 1, 11312), (11360, 11360, 1, 11361), (11362, 11362, 1, 619),
   (11363, 11363, 1, 7549), (11364, 11364, 1, 637), (11367, 11371, 2, 11368),
   (11373, 11373, 1, 593), (11374, 11374, 1, 625), (11375, 11375, 1, 592),
   (11376, 11376, 1, 594), (11378, 11378, 1, 11379), (11381, 11381, 1, 11382),
   (11390, 11391, 1, 575), (11392, 11490, 2, 11393), (11499, 11501, 2, 11500),
   (11506, 11506, 1, 11507), (42560, 42604, 2, 42561), (42624, 42650, 2, 42625),
   (42786, 42798, 2, 42787), (42802, 42862, 2, 42803), (42873, 42875, 2, 42874),
   (42877, 42877, 1, 7545), (42878, 42886, 2, 42879), (42891, 42891, 1, 42892),
   (42893, 42893, 1, 613), (42896, 42898, 2, 42897), (42902, 42920, 2, 42903),
   (42922, 42922, 1, 614), (42923, 42923, 1, 604), (42924, 42924, 1, 609),
   (42925, 42925, 1, 620), (42926, 42926, 1, 618), (42928, 42928, 1, 670),
   (42929, 42929, 1, 647), (42930, 42930, 1, 669), (42931, 42931, 1, 43859),
   (42932, 42946, 2, 42933), (42948, 42948, 1, 42900), (42949, 42949, 1, 642),
   (42950, 42950, 1, 7566), (42951, 42953, 2, 42952), (42960, 42960, 1, 42961),
   (42966, 42968, 2, 42967), (42997, 42997, 1, 42998), (65313, 65338, 1, 65345),
   (66560, 66599, 1, 66600), (66736, 66771, 1, 66776), (66928, 66938, 1, 66967),
   (66940, 66954, 1, 66979), (66956, 66962, 1, 66995), (66964, 66965, 1, 67003),
   (68736, 68786, 1, 68800), (71840, 71871, 1, 71872), (93760, 93791, 1, 93792),
   (125184, 125217, 1, 125218)]

/-- Code points whose lower-case form has several code points. -/
def lowerExpansions : List (Nat × List Nat) :=
  [(304, [105, 775])]

/-- Code points with a one-to-one upper-case mapping. -/
def upperRanges : List (Nat × Nat × Nat × Nat) :=
  [(97, 122, 1, 65), (181, 181, 1, 924), (224, 246, 1, 192), (248, 254, 1, 216),
   (255, 255, 1, 376), (257, 303, 2, 256), (305, 305, 1, 73), (307, 311, 2, 306),
   (314, 328, 2, 313), (331, 375, 2, 330), (378, 382, 2, 377), (383, 383, 1, 83),
   (384, 384, 1, 579), (387, 389, 2, 386), (392, 392, 1, 391), (396, 396, 1, 395),
   (402, 402, 1, 401), (405, 405, 1, 502), (409, 409, 1, 408), (410, 410, 1, 573),
   (414, 414, 1, 544), (417, 421, 2, 416), (424, 424, 1, 423), (429, 429, 1, 428),
   (432, 432, 1, 431), (436, 438, 2, 435), (441, 441, 1, 440), (445, 445, 1, 444),
   (447, 447, 1, 503), (453, 453, 1, 452), (454, 454, 1, 452), (456, 456, 1, 455),
   (457, 457, 1, 455), (459, 459, 1, 458), (460, 460, 1, 458), (462, 476, 2, 461),
   (477, 477, 1, 398), (479, 495, 2, 478), (498, 498, 1, 497), (499, 499, 1, 497),
   (501, 501, 1, 500), (505, 543, 2, 504), (547, 563, 2, 546), (572, 572, 1, 571),
   (575, 576, 1, 11390), (578, 578, 1, 577), (583, 591, 2, 582), (592, 592, 1, 11375),
   (593, 593, 1, 11373), (594, 594, 1, 11376), (595, 595, 1, 385), (596, 596, 1, 390),
   (598, 599, 1, 393), (601, 601, 1, 399), (603, 603, 1, 400), (604, 604, 1, 42923),
   (608, 608, 1, 403), (609, 609, 1, 42924), (611, 611, 1, 404), (613, 613, 1, 42893),
   (614, 614, 1, 42922), (616, 616, 1, 407), (617, 617, 1, 406), (618, 618, 1, 42926),
   (619, 619, 1, 11362), (620, 620, 1, 42925), (623, 623, 1, 412), (625, 625, 1, 11374),
   (626, 626, 1, 413), (629, 629, 1, 415), (637, 637, 1, 11364), (640, 640, 1, 422),
   (642, 642, 1, 42949), (643, 643, 1, 425), (647, 647, 1, 42929), (648, 648, 1, 430),
   (649, 649, 1, 580), (650, 651, 1, 433), (652, 652, 1, 581), (658, 658, 1, 439),
   (669, 669, 1, 42930), (670, 670, 1, 42928), (837, 837, 1, 921), (881, 883, 2, 880),
   (887, 887, 1, 886), (891, 893, 1, 1021), (940, 940, 1, 902), (941, 943, 1, 904),
   (945, 961, 1, 913), (962, 962, 1, 931), (963, 971, 1, 931), (972, 972, 1, 908),
   (973, 974, 1, 910), (976, 976, 1, 914), (977, 977, 1, 920), (981, 981, 1, 934),
   (982, 982, 1, 928), (983, 983, 1, 975), (985, 1007, 2, 984), (1008, 1008, 1, 922),
   (1009, 1009, 1, 929), (1010, 1010, 1, 1017), (1011, 1011, 1, 895), (1013, 1013, 1, 917),
   (1016, 1016, 1, 1015), (1019, 1019, 1, 1018), (1072, 1103, 1, 1040), (1104, 1119, 1, 1024),
   (1121, 1153, 2, 1120), (1163, 1215, 2, 1162), (1218, 1230, 2, 1217), (1231, 1231, 1, 1216),
   (1233, 1327, 2, 1232), (1377, 1414, 1, 1329), (4304, 4346, 1, 7312), (4349, 4351, 1, 7357),
   (5112, 5117, 1, 5104), (7296, 7296, 1, 1042), (7297, 7297, 1, 1044), (7298, 7298, 1, 1054),
   (7299, 7300, 1, 1057), (7301, 7301, 1, 1058), (7302, 7302, 1, 1066), (7303, 7303, 1, 1122),
   (7304, 7304, 1, 42570), (7545, 7545, 1, 42877), (7549, 7549, 1, 11363),
   (7566, 7566, 1, 42950), (7681, 7829, 2, 7680), (7835, 7835, 1, 7776), (7841, 7935, 2, 7840),
   (7936, 7943, 1, 7944), (7952, 7957, 1, 7960), (7968, 7975, 1, 7976), (7984, 7991, 1, 7992),
   (8000, 8005, 1, 8008), (8017, 8023, 2, 8025), (8032, 8039, 1, 8040), (8048, 8049, 1, 8122),
   (8050, 8053, 1, 8136), (8054, 8055, 1, 8154), (8056, 8057, 1, 8184), (8058, 8059, 1, 8170),
   (8060, 8061, 1, 8186), (8112, 8113, 1, 8120), (8126, 8126, 1, 921), (8144, 8145, 1, 8152),
   (8160, 8161, 1, 8168), (8165, 8165, 1, 8172), (8526, 8526, 1, 8498), (8560, 8575, 1, 8544),
   (8580, 8580, 1, 8579), (9424, 9449, 1, 9398), (11312, 11359, 1, 11264),
   (11361, 11361, 1, 11360), (11365, 11365, 1, 570), (11366, 11366, 1, 574),
   (11368, 11372, 2, 11367), (11379, 11379, 1, 11378), (11382, 11382, 1, 11381),
   (11393, 11491, 2, 11392), (11500, 11502, 2, 11499), (11507, 11507, 1, 11506),
   (11520, 11557, 1, 4256), (11559, 11559, 1, 4295), (11565, 11565, 1, 4301),
   (42561, 42605, 2, 42560), (42625, 42651, 2, 42624), (42787, 42799, 2, 42786),
   (42803, 42863, 2, 42802), (42874, 42876, 2, 42873), (42879, 42887, 2, 42878),
   (42892, 42892, 1, 42891), (42897, 42899, 2, 42896), (42900, 42900, 1, 42948),
   (42903, 42921, 2, 42902), (42933, 42947, 2, 42932), (42952, 42954, 2, 42951),
   (42961, 42961, 1, 42960), (42967, 42969, 2, 42966), (42998, 42998, 1, 42997),
   (43859, 43859, 1, 42931), (43888, 43967, 1, 5024), (65345, 65370, 1, 65313),
   (66600, 66639, 1, 66560), (66776, 66811, 1, 66736), (66967, 66977, 1, 66928),
   (66979, 66993, 1, 66940), (66995, 67001, 1, 66956), (67003, 67004, 1, 66964),
   (68800, 68850, 1, 68736), (71872, 71903, 1, 71840), (93792, 93823, 1, 93760),
   (125218, 125251, 1, 125184)]

/-- Code points whose upper-case form has several code points. -/
def upperExpansions : List (Nat × List Nat) :=
  [(223, [83, 83]), (329, [700, 78]), (496, [74, 780]), (912, [921, 776, 769]),
   (944, [933, 776, 769]), (1415, [1333, 1362]), (7830, [72, 817]), (7831, [84, 776]),
   (7832, [87, 778]), (7833, [89, 778]), (7834, [65, 702]), (8016, [933, 787]),
   (8018, [933, 787, 768]), (8020, [933, 787, 769]), (8022, [933, 787, 834]),
   (8064, [7944, 921]), (8065, [7945, 921]), (8066, [7946, 921]), (8067, [7947, 921]),
   (8068, [7948, 921]), (8069, [7949, 921]), (8070, [7950, 921]), (8071, [7951, 921]),
   (8072, [7944, 921]), (8073, [7945, 921]), (8074, [7946, 921]), (8075, [7947, 921]),
   (8076, [7948, 921]), (8077, [7949, 921]), (8078, [7950, 921]), (8079, [7951, 921]),
   (8080, [7976, 921]), (8081, [7977, 921]), (8082, [7978, 921]), (8083, [7979, 921]),
   (8084, [7980, 921]), (8085, [7981, 921]), (8086, [7982, 921]), (8087, [7983, 921]),
   (8088, [7976, 921]), (8089, [7977, 921]), (8090, [7978, 921]), (8091, [7979, 921]),
   (8092, [7980, 921]), (8093, [7981, 921]), (8094, [7982, 921]), (8095, [7983, 921]),
   (8096, [8040, 921]), (8097, [8041, 921]), (8098, [8042, 921]), (8099, [8043, 921]),
   (8100, [8044, 921]), (8101, [8045, 921]), (8102, [8046, 921]), (8103, [8047, 921]),
   (8104, [8040, 921]), (8105, [8041, 921]), (8106, [8042, 921]), (8107, [8043, 921]),
   (8108, [8044, 921]), (8109, [8045, 921]), (8110, [8046, 921]), (8111, [8047, 921]),
   (8114, [8122, 921]), (8115, [913, 921]), (8116, [902, 921]), (8118, [913, 834]),
   (8119, [913, 834, 921]), (8124, [913, 921]), (8130, [8138, 921]), (8131, [919, 921]),
   (8132, [905, 921]), (8134, [919, 834]), (8135, [919, 834, 921]), (8140, [919, 921]),
   (8146, [921, 776, 768]), (8147, [921, 776, 769]), (8150, [921, 834]),
   (8151, [921, 776, 834]), (8162, [933, 776, 768]), (8163, [933, 776, 769]),
   (8164, [929, 787]), (8166, [933, 834]), (8167, [933, 776, 834]), (8178, [8186, 921]),
   (8179, [937, 921]), (8180, [911, 921]), (8182, [937, 834]), (8183, [937, 834, 921]),
   (8188, [937, 921]), (64256, [70, 70]), (64257, [70, 73]), (64258, [70, 76]),
   (64259, [70, 70, 73]), (64260, [70, 70, 76]), (64261, [83, 84]), (64262, [83, 84]),
   (64275, [1348, 1350]), (64276, [1348, 1333]), (64277, [1348, 1339]), (64278, [1358, 1350]),
   (64279, [1348, 1341])]

/-- The case-ignorable code points, as intervals. -/
def caseIgnorable : List (Nat × Nat) :=
  [(39, 39), (46, 46), (58, 58), (94, 94), (96, 96), (168, 168), (173, 173), (175, 175),
   (180, 180), (183, 184), (688, 879), (884, 885), (890, 890), (900, 901), (903, 903),
   (1155, 1161), (1369, 1369), (1375, 1375), (1425, 1469), (1471, 1471), (1473, 1474),
   (1476, 1477), (1479, 1479), (1524, 1524), (1536, 1541), (1552, 1562), (1564, 1564),
   (1600, 1600), (1611, 1631), (1648, 1648), (1750, 1757), (1759, 1768), (1770, 1773),
   (1807, 1807), (1809, 1809), (1840, 1866), (1958, 1968), (2027, 2037), (2042, 2042),
   (2045, 2045), (2070, 2093), (2137, 2139), (2184, 2184), (2192, 2193), (2200, 2207),
   (2249, 2306), (2362, 2362), (2364, 2364), (2369, 2376), (2381, 2381), (2385, 2391),
   (2402, 2403), (2417, 2417), (2433, 2433), (2492, 2492), (2497, 2500), (2509, 2509),
   (2530, 2531), (2558, 2558), (2561, 2562), (2620, 2620), (2625, 2626), (2631, 2632),
   (2635, 2637), (2641, 2641), (2672, 2673), (2677, 2677), (2689, 2690), (2748, 2748),
   (2753, 2757), (2759, 2760), (2765, 2765), (2786, 2787), (2810, 2815), (2817, 2817),
   (2876, 2876), (2879, 2879), (2881, 2884), (2893, 2893), (2901, 2902), (2914, 2915),
   (2946, 2946), (3008, 3008), (3021, 3021), (3072, 3072), (3076, 3076), (3132, 3132),
   (3134, 3136), (3142, 3144), (3146, 3149), (3157, 3158), (3170, 3171), (3201, 3201),
   (3260, 3260), (3263, 3263), (3270, 3270), (3276, 3277), (3298, 3299), (3328, 3329),
   (3387, 3388), (3393, 3396), (3405, 3405), (3426, 3427), (3457, 3457), (3530, 3530),
   (3538, 3540), (3542, 3542), (3633, 3633), (3636, 3642), (3654, 3662), (3761, 3761),
   (3764, 3772), (3782, 3782), (3784, 3789), (3864, 3865), (3893, 3893), (3895, 3895),
   (3897, 3897), (3953, 3966), (3968, 3972), (3974, 3975), (3981, 3991), (3993, 4028),
   (4038, 4038), (4141, 4144), (4146, 4151), (4153, 4154), (4157, 4158), (4184, 4185),
   (4190, 4192), (4209, 4212), (4226, 4226), (4229, 4230), (4237, 4237), (4253, 4253),
   (4348, 4348), (4957, 4959), (5906, 5908), (5938, 5939), (5970, 5971), (6002, 6003),
   (6068, 6069), (6071, 6077), (6086, 6086), (6089, 6099), (6103, 6103), (6109, 6109),
   (6155, 6159), (6211, 6211), (6277, 6278), (6313, 6313), (6432, 6434), (6439, 6440),
   (6450, 6450), (6457, 6459), (6679, 6680), (6683, 6683), (6742, 6742), (6744, 6750),
   (6752, 6752), (6754, 6754), (6757, 6764), (6771, 6780), (6783, 6783), (6823, 6823),
   (6832, 6862), (6912, 6915), (6964, 6964), (6966, 6970), (6972, 6972), (6978, 6978),
   (7019, 7027), (7040, 7041), (7074, 7077), (7080, 7081), (7083, 7085), (7142, 7142),
   (7144, 7145), (7149, 7149), (7151, 7153), (7212, 7219), (7222, 7223), (7288, 7293),
   (7376, 7378), (7380, 7392), (7394, 7400), (7405, 7405), (7412, 7412), (7416, 7417),
   (7468, 7530), (7544, 7544), (7579, 7679), (8125, 8125), (8127, 8129), (8141, 8143),
   (8157, 8159), (8173, 8175), (8189, 8190), (8203, 8207), (8216, 8217), (8228, 8228),
   (8231, 8231), (8234, 8238), (8288, 8292), (8294, 8303), (8305, 8305), (8319, 8319),
   (8336, 8348), (8400, 8432), (11388, 11389), (11503, 11505), (11631, 11631), (11647, 11647),
   (11744, 11775), (11823, 11823), (12293, 12293), (12330, 12333), (12337, 12341),
   (12347, 12347), (12441, 12446), (12540, 12542), (40981, 40981), (42232, 42237),
   (42508, 42508), (42607, 42610), (42612, 42621), (42623, 42623), (42652, 42655),
   (42736, 42737), (42752, 42785), (42864, 42864), (42888, 42890), (42994, 42996),
   (43000, 43001), (43010, 43010), (43014, 43014), (43019, 43019), (43045, 43046),
   (43052, 43052), (43204, 43205), (43232, 43249), (43263, 43263), (43302, 43309),
   (43335, 43345), (43392, 43394), (43443, 43443), (43446, 43449), (43452, 43453),
   (43471, 43471), (43493, 43494), (43561, 43566), (43569, 43570), (43573, 43574),
   (43587, 43587), (43596, 43596), (43632, 43632), (43644, 43644), (43696, 43696),
   (43698, 43700), (43703, 43704), (43710, 43711), (43713, 43713), (43741, 43741),
   (43756, 43757), (43763, 43764), (43766, 43766), (43867, 43871), (43881, 43883),
   (44005, 44005), (44008, 44008), (44013, 44013), (64286, 64286), (64434, 64450),
   (65024, 65039), (65043, 65043), (65056, 65071), (65106, 65106), (65109, 65109),
   (65279, 65279), (65287, 65287), (65294, 65294), (65306, 65306), (65342, 65342),
   (65344, 65344), (65392, 65392), (65438, 65439), (65507, 65507), (65529, 65531),
   (66045, 66045), (66272, 66272), (66422, 66426), (67456, 67461), (67463, 67504),
   (67506, 67514), (68097, 68099), (68101, 68102), (68108, 68111), (68152, 68154),
   (68159, 68159), (68325, 68326), (68900, 68903), (69291, 69292), (69446, 69456),
   (69506, 69509), (69633, 69633), (69688, 69702), (69744, 69744), (69747, 69748),
   (69759, 69761), (69811, 69814), (69817, 69818), (69821, 69821), (69826, 69826),
   (69837, 69837), (69888, 69890), (69927, 69931), (69933, 69940), (70003, 70003),
   (70016, 70017), (70070, 70078), (70089, 70092), (70095, 70095), (70191, 70193),
   (70196, 70196), (70198, 70199), (70206, 70206), (70367, 70367), (70371, 70378),
   (70400, 70401), (70459, 70460), (70464, 70464), (70502, 70508), (70512, 70516),
   (70712, 70719), (70722, 70724), (70726, 70726), (70750, 70750), (70835, 70840),
   (70842, 70842), (70847, 70848), (70850, 70851), (71090, 71093), (71100, 71101),
   (71103, 71104), (71132, 71133), (71219, 71226), (71229, 71229), (71231, 71232),
   (71339, 71339), (71341, 71341), (71344, 71349), (71351, 71351), (71453, 71455),
   (71458, 71461), (71463, 71467), (71727, 71735), (71737, 71738), (71995, 71996),
   (71998, 71998), (72003, 72003), (72148, 72151), (72154, 72155), (72160, 72160),
   (72193, 72202), (72243, 72248), (72251, 72254), (72263, 72263), (72273, 72278),
   (72281, 72283), (72330, 72342), (72344, 72345), (72752, 72758), (72760, 72765),
   (72767, 72767), (72850, 72871), (72874, 72880), (72882, 72883), (72885, 72886),
   (73009, 73014), (73018, 73018), (73020, 73021), (73023, 73029), (73031, 73031),
   (73104, 73105), (73109, 73109), (73111, 73111), (73459, 73460), (78896, 78904),
   (92912, 92916), (92976, 92982), (92992, 92995), (94031, 94031), (94095, 94111),
   (94176, 94177), (94179, 94180), (110576, 110579), (110581, 110587), (110589, 110590),
   (113821, 113822), (113824, 113827), (118528, 118573), (118576, 118598), (119143, 119145),
   (119155, 119170), (119173, 119179), (119210, 119213), (119362, 119364), (121344, 121398),
   (121403, 121452), (121461, 121461), (121476, 121476), (121499, 121503), (121505, 121519),
   (122880, 122886), (122888, 122904), (122907, 122913), (122915, 122916), (122918, 122922),
   (123184, 123197), (123566, 123566), (123628, 123631), (125136, 125142), (125252, 125259),
   (127995, 127999), (917505, 917505), (917536, 917631), (917760, 917999)]

/-- The cased code points that are not case-ignorable, as intervals. -/
def casedLetters : List (Nat × Nat) :=
  [(65, 90), (97, 122), (170, 170), (181, 181), (186, 186), (192, 214), (216, 246), (248, 442),
   (444, 447), (452, 659), (661, 687), (880, 883), (886, 887), (891, 893), (895, 895),
   (902, 902), (904, 906), (908, 908), (910, 929), (931, 1013), (1015, 1153), (1162, 1327),
   (1329, 1366), (1376, 1416), (4256, 4293), (4295, 4295), (4301, 4301), (4304, 4346),
   (4349, 4351), (5024, 5109), (5112, 5117), (7296, 7304), (7312, 7354), (7357, 7359),
   (7424, 7467), (7531, 7543), (7545, 7578), (7680, 7957), (7960, 7965), (7968, 8005),
   (8008, 8013), (8016, 8023), (8025, 8025), (8027, 8027), (8029, 8029), (8031, 8061),
   (8064, 8116), (8118, 8124), (8126, 8126), (8130, 8132), (8134, 8140), (8144, 8147),
   (8150, 8155), (8160, 8172), (8178, 8180), (8182, 8188), (8450, 8450), (8455, 8455),
   (8458, 8467), (8469, 8469), (8473, 8477), (8484, 8484), (8486, 8486), (8488, 8488),
   (8490, 8493), (8495, 8500), (8505, 8505), (8508, 8511), (8517, 8521), (8526, 8526),
   (8544, 8575), (8579, 8580), (9398, 9449), (11264, 11387), (11390, 11492), (11499, 11502),
   (11506, 11507), (11520, 11557), (11559, 11559), (11565, 11565), (42560, 42605),
   (42624, 42651), (42786, 42863), (42865, 42887), (42891, 42894), (42896, 42954),
   (42960, 42961), (42963, 42963), (42965, 42969), (42997, 42998), (43002, 43002),
   (43824, 43866), (43872, 43880), (43888, 43967), (64256, 64262), (64275, 64279),
   (65313, 65338), (65345, 65370), (66560, 66639), (66736, 66771), (66776, 66811),
   (66928, 66938), (66940, 66954), (66956, 66962), (66964, 66965), (66967, 66977),
   (66979, 66993), (66995, 67001), (67003, 67004), (68736, 68786), (68800, 68850),
   (71840, 71903), (93760, 93823), (119808, 119892), (119894, 119964), (119966, 119967),
   (119970, 119970), (119973, 119974), (119977, 119980), (119982, 119993), (119995, 119995),
   (119997, 120003), (120005, 120069), (120071, 120074), (120077, 120084), (120086, 120092),
   (120094, 120121), (120123, 120126), (120128, 120132), (120134, 120134), (120138, 120144),
   (120146, 120485), (120488, 120512), (120514, 120538), (120540, 120570), (120572, 120596),
   (120598, 120628), (120630, 120654), (120656, 120686), (120688, 120712), (120714, 120744),
   (120746, 120770), (120772, 120779), (122624, 122633), (122635, 122654), (125184, 125251),
   (127280, 127305), (127312, 127337), (127344, 127369)]

/-- The image of a code point under a range table whose rows are in ascending order of their
first code point, if a row holds it. -/
def lookupRange : List (Nat × Nat × Nat × Nat) → Nat → Option Nat
  | [], _ => none
  | (first, last, step, image) :: rows, c =>
    if c < first then none
    else if c ≤ last ∧ (c - first) % step = 0 then some (image + (c - first))
    else lookupRange rows c

/-- Membership in a list of intervals in ascending order. -/
def inIntervals : List (Nat × Nat) → Nat → Bool
  | [], _ => false
  | (first, last) :: rows, c =>
    if c < first then false
    else if c ≤ last then true
    else inIntervals rows c

/-- The lower-case form of one code point, context apart. -/
def lowerCodePoint (c : Nat) : List Nat :=
  match lowerExpansions.lookup c with
  | some l => l
  | none =>
    match lookupRange lowerRanges c with
    | some u => [u]
    | none => [c]

/-- The upper-case form of one code point. -/
def upperCodePoint (c : Nat) : List Nat :=
  match upperExpansions.lookup c with
  | some l => l
  | none =>
    match lookupRange upperRanges c with
    | some u => [u]
    | none => [c]

/-- A leading surrogate code unit. -/
def isHighSurrogate (u : Nat) : Bool := 0xD800 ≤ u && u ≤ 0xDBFF

/-- A trailing surrogate code unit. -/
def isLowSurrogate (u : Nat) : Bool := 0xDC00 ≤ u && u ≤ 0xDFFF

/-- `StringToCodePoints`: a high surrogate followed by a low surrogate is one code point, every
other code unit is a code point by itself. -/
def codePoints : JSString → List Nat
  | [] => []
  | [a] => [a]
  | a :: b :: t =>
    if isHighSurrogate a && isLowSurrogate b then
      (0x10000 + (a - 0xD800) * 0x400 + (b - 0xDC00)) :: codePoints t
    else a :: codePoints (b :: t)

/-- `CodePointsToString`: a code point above the Basic Multilingual Plane is a surrogate
pair. -/
def codeUnits : List Nat → JSString
  | [] => []
  | c :: cs =>
    (if 0x10000 ≤ c ∧ c < 0x110000 then
      [0xD800 + (c - 0x10000) / 0x400, 0xDC00 + (c - 0x10000) % 0x400]
    else [c]) ++ codeUnits cs

/-- The `Final_Sigma` condition: a cased letter comes before, with only case-ignorable code
points in between, and none comes after in the same way. A code point that is both cased and
case-ignorable is passed over as case-ignorable, as the ICU library does. `before` is the text
before the sigma, nearest code point first. -/
def isFinalSigma (before after : List Nat) : Bool :=
  (match before.dropWhile (inIntervals caseIgnorable) with
    | c :: _ => inIntervals casedLetters c
    | [] => false) &&
  (match after.dropWhile (inIntervals caseIgnorable) with
    | c :: _ => !inIntervals casedLetters c
    | [] => true)

/-- Lower-case the code points of `rest`, which come after `before` (nearest first). -/
def lowerFrom : List Nat → List Nat → List Nat
  | _, [] => []
  | before, c :: rest =>
    (if c = 0x3A3 then [if isFinalSigma before rest then 0x3C2 else 0x3C3]
     else lowerCodePoint c) ++ lowerFrom (c :: before) rest

/-- `String.prototype.toLowerCase`: the Unicode default lower-casing of the code points of the
string. -/
def toLowerCase (s : JSString) : JSString :=
  codeUnits (lowerFrom [] (codePoints s))

/-- `String.prototype.toUpperCase`: the Unicode default upper-casing of the code points of the
string. -/
def toUpperCase (s : JSString) : JSString :=
  codeUnits ((codePoints s).map upperCodePoint).flatten

/-- A surrogate code unit. -/
def isSurrogate (u : Nat) : Bool := 0xD800 ≤ u && u ≤ 0xDFFF

/-- Is `u` one of the code points `first`, `first + step`, … up to `last`? -/
def inRow (first last step u : Nat) : Bool :=
  decide (first ≤ u) && decide (u ≤ last) && (u - first) % step == 0

/-- A sufficient test that the rows `(a, b, s)` and `(f, l, t)` share no code point: one ends
before the other starts, or both have step two and starts of different parity, or one is a
single code point outside the other. -/
def rowsApart (a b s f l t : Nat) : Bool :=
  decide (b < f) || decide (l < a) || (s == 2 && t == 2 && (a + f) % 2 == 1) ||
  (f == l && !inRow a b s f) || (a == b && !inRow f l t a)

/-- A check of the upper-case tables: the image of every row of the range table shares no code
point with a row or with the key of an expansion and holds no surrogate; no expansion is
empty, and the code points of an expansion are no surrogates, in no row and no key of an
expansion; no row and no key of an expansion holds a surrogate. -/
def upperTablesClosed : Bool :=
  (upperRanges.all fun (first, last, step, image) =>
    (upperRanges.all fun (f, l, t, _) => rowsApart image (image + (last - first)) step f l t) &&
    (upperExpansions.all fun (k, _) => !inRow image (image + (last - first)) step k) &&
    (decide (image + (last - first) < 0xD800) || decide (0xDFFF < image)) &&
    (decide (last < 0xD800) || decide (0xDFFF < first))) &&
  (upperExpansions.all fun (k, l) =>
    !isSurrogate k && !l.isEmpty &&
    l.all fun u =>
      !isSurrogate u && (upperRanges.all fun (f, l, t, _) => !inRow f l t u) &&
      upperExpansions.all fun (k, _) => k != u)

/-! ### Substrings -/

/-- `s.includes(t)`: does `t` occur in `s` as a contiguous run of code units? -/
def includes : JSString → JSString → Bool
  | [], t => t.isEmpty
  | c :: s, t => t.isPrefixOf (c :: s) || includes s t

/-- A JavaScript number, as far as comparisons and truthiness can observe it. A finite value is
carried exactly (every double is a rational); `val 0` is `+0`. -/
inductive JSNumber where
  | nan
  | posInf
  | negInf
  | negZero
  | val (q : ℚ)
  deriving DecidableEq

/-! ### Numbers -/

/-- `ToBoolean` of a number: `+0`, `-0` and `NaN` are falsy. -/
def JSNumber.truthy : JSNumber → Bool
  | .nan => false
  | .negZero => false
  | .val q => q != 0
  | _ => true

/-- The comparison `x < 0`. -/
def JSNumber.ltZero : JSNumber → Bool
  | .negInf => true
  | .val q => decide (q < 0)
  | _ => false

/-- The comparison `x >= 0`. -/
def JSNumber.geZero : JSNumber → Bool
  | .posInf => true
  | .negZero => true
  | .val q => decide (0 ≤ q)
  | _ => false

/-! ### Number arithmetic -/

/-- Round to the nearest integer, a tie going to the even neighbour. -/
def roundHalfEven (y : ℚ) : ℤ :=
  if y - ⌊y⌋ < 1 / 2 then ⌊y⌋
  else if 1 / 2 < y - ⌊y⌋ then ⌊y⌋ + 1
  else if ⌊y⌋ % 2 = 0 then ⌊y⌋
  else ⌊y⌋ + 1

/-- The Number value for a mathematical value: the nearest binary64 value, ties to even. In the
binade `2^e ≤ |q| < 2^(e+1)` the values are the multiples of `2^(e-52)`; below `2^-1022` they
are the multiples of `2^-1074`; a result of `2^1024` or more is an infinity. -/
def toDouble (q : ℚ) : JSNumber :=
  if q = 0 then .val 0
  else
    let e : ℤ := max (Int.log 2 |q|) (-1022)
    let quantum : ℚ := 2 ^ (e - 52)
    let r : ℚ := roundHalfEven (|q| / quantum) * quantum
    if r = 0 then (if q < 0 then .negZero else .val 0)
    else if 2 ^ 1024 ≤ r then (if q < 0 then .negInf else .posInf)
    else .val (if q < 0 then -r else r)

/-- `RoundMVResult`: the Number value of a mathematical value with magnitude `q ≥ 0` and the
given sign. A magnitude of zero gives the zero of that sign (the text `-0` is `-0`); every
other value is rounded to the nearest binary64 value. -/
def roundMV (negative : Bool) (q : ℚ) : JSNumber :=
  if q = 0 then (if negative then .negZero else .val 0)
  else toDouble (if negative then -q else q)

/-- The sign bit. -/
def JSNumber.signBit : JSNumber → Bool
  | .negInf => true
  | .negZero => true
  | .val q => decide (q < 0)
  | _ => false

def JSNumber.isInfinite : JSNumber → Bool
  | .posInf => true
  | .negInf => true
  | _ => false

def JSNumber.isZero : JSNumber → Bool
  | .negZero => true
  | .val q => decide (q = 0)
  | _ => false

/-- The mathematical value of a finite number (`0` for the others). -/
def JSNumber.toRat : JSNumber → ℚ
  | .val q => q
  | _ => 0

/-- `x + y` on Numbers (`Number::add`). -/
def JSNumber.add : JSNumber → JSNumber → JSNumber
  | .nan, _ => .nan
  | _, .nan => .nan
  | .posInf, .negInf => .nan
  | .negInf, .posInf => .nan
  | .posInf, _ => .posInf
  | _, .posInf => .posInf
  | .negInf, _ => .negInf
  | _, .negInf => .negInf
  | .negZero, .negZero => .negZero
  | .negZero, .val q => .val q
  | .val p, .negZero => .val p
  | .val p, .val q => toDouble (p + q)

/-- `x / y` on Numbers (`Number::divide`). -/
def JSNumber.div (x y : JSNumber) : JSNumber :=
  match x, y with
  | .nan, _ => .nan
  | _, .nan => .nan
  | _, _ =>
    let negative := x.signBit != y.signBit
    if x.isInfinite then
      if y.isInfinite then .nan else if negative then .negInf else .posInf
    else if y.isInfinite then (if negative then .negZero else .val 0)
    else if y.isZero then
      if x.isZero then .nan else if negative then .negInf else .posInf
    else if x.isZero then (if negative then .negZero else .val 0)
    else toDouble (x.toRat / y.toRat)

/-- `Math.round`: the nearest integer, a tie going up; values in `[-0.5, 0)` give `-0`. -/
def mathRound : JSNumber → JSNumber
  | .val q => if q < 0 ∧ -1 / 2 ≤ q then .negZero else .val ⌊q + 1 / 2⌋
  | x => x

def isDigit (c : Nat) : Bool := 48 ≤ c && c ≤ 57

/-- Value of one digit `0-9`, `a-f`, `A-F`. -/
def digitValue (c : Nat) : Option Nat :=
  if 48 ≤ c ∧ c ≤ 57 then some (c - 48)
  else if 97 ≤ c ∧ c ≤ 102 then some (c - 87)
  else if 65 ≤ c ∧ c ≤ 70 then some (c - 55)
  else none

/-- Value of a run of digits of the given radix, continuing from `acc`. -/
def digitsValue (radix : Nat) : JSString → Nat → Option Nat
  | [], acc => some acc
  | c :: cs, acc =>
    match digitValue c with
    | some d => if d < radix then digitsValue radix cs (acc * radix + d) else none
    | none => none

/-- A non-empty run of digits of the given radix. -/
def parseDigits (radix : Nat) (ds : JSString) : Option Nat :=
  if ds = [] then none else digitsValue radix ds 0

/-- `NonDecimalIntegerLiteral`: `0x…`, `0o…`, `0b…` (prefix letter in either case). -/
def parseNonDecimal : JSString → Option Nat
  | 48 :: p :: ds =>
    if p = 120 ∨ p = 88 then parseDigits 16 ds
    else if p = 111 ∨ p = 79 then parseDigits 8 ds
    else if p = 98 ∨ p = 66 then parseDigits 2 ds
    else none
  | _ => none

/-- `ExponentPart`, optional: `e` or `E`, an optional sign, digits. -/
def parseExponent : JSString → Option Int
  | [] => some 0
  | e :: rest =>
    if e = 101 ∨ e = 69 then
      match rest with
      | 43 :: ds => (parseDigits 10 ds).map Int.ofNat
      | 45 :: ds => (parseDigits 10 ds).map fun n => -Int.ofNat n
      | ds => (parseDigits 10 ds).map Int.ofNat
    else none

/-- An unsigned decimal literal: `Infinity`, or `mantissa × 10 ^ exponent`. -/
inductive UnsignedDecimal where
  | infinity
  | finite (mantissa : Nat) (exponent : Int)
  deriving DecidableEq

/-- `StrUnsignedDecimalLiteral`: `Infinity`, `digits . digits? exponent?`,
`. digits exponent?` or `digits exponent?`. -/
def parseUnsignedDecimal (t : JSString) : Option UnsignedDecimal :=
  if t = js "Infinity" then some .infinity
  else
    let intDigits := t.takeWhile isDigit
    let rest := t.dropWhile isDigit
    let fracDigits := match rest with
      | 46 :: r => r.takeWhile isDigit
      | _ => []
    let tail := match rest with
      | 46 :: r => r.dropWhile isDigit
      | _ => rest
    if intDigits = [] ∧ fracDigits = [] then none
    else
      match parseExponent tail, digitsValue 10 (intDigits ++ fracDigits) 0 with
      | some e, some m => some (.finite m (e - fracDigits.length))
      | _, _ => none

/-- A parsed `StringNumericLiteral`. -/
inductive StringNumericLiteral where
  | whiteSpace
  | nonDecimal (n : Nat)
  | decimal (negative : Bool) (u : UnsignedDecimal)
  deriving DecidableEq

/-- Parse a text as a `StringNumericLiteral`: optional white space around nothing, a
non-decimal integer literal, or an optionally signed decimal literal. -/
def parseStringNumericLiteral (s : JSString) : Option StringNumericLiteral :=
  let t := trim s
  if t = [] then some .whiteSpace
  else
    match parseNonDecimal t with
    | some n => some (.nonDecimal n)
    | none =>
      match t with
      | 43 :: u => (parseUnsignedDecimal u).map (.decimal false)
      | 45 :: u => (parseUnsignedDecimal u).map (.decimal true)
      | _ => (parseUnsignedDecimal t).map (.decimal false)

/-- `StringNumericValue`: white space alone is `+0`. -/
def StringNumericLiteral.value : StringNumericLiteral → JSNumber
  | .whiteSpace => .val 0
  | .nonDecimal n => roundMV false n
  | .decimal negative .infinity => if negative then .negInf else .posInf
  | .decimal negative (.finite m e) => roundMV negative (m * 10 ^ e)

/-- `StringToNumber`: the Number value of the text, `NaN` when it is not a
`StringNumericLiteral`. -/
def stringToNumber (s : JSString) : JSNumber :=
  match parseStringNumericLiteral s with
  | none => .nan
  | some l => l.value

/-! ### Regular expressions -/

/-- One element of a regular expression built without alternation or groups: a class of code
units, matched once or, with `+`, one or more times. -/
structure RegexAtom where
  cls : Nat → Bool
  plus : Bool

/-- Does the pattern match at the start of the text? -/
def matchHere : List RegexAtom → JSString → Bool
  | [], _ => true
  | _ :: _, [] => false
  | a :: rest, c :: cs =>
    a.cls c && (if a.plus then matchHere (a :: rest) cs || matchHere rest cs
                else matchHere rest cs)

/-- `RegExp.prototype.test` for a pattern without anchors or flags: is there a match starting
at some index of the text? -/
def regexTest (re : List RegexAtom) (s : JSString) : Bool :=
  s.tails.any (matchHere re)

/-- The pattern `/\S+@\S+\.\S+/`. -/
def emailPattern : List RegexAtom :=
  [⟨fun c => !isWhiteSpace c, true⟩, ⟨fun c => c == 64, false⟩,
   ⟨fun c => !isWhiteSpace c, true⟩, ⟨fun c => c == 46, false⟩,
   ⟨fun c => !isWhiteSpace c, true⟩]

/-! ### Data -/

/-- An employee document as the UI receives it from the API. `joiningDate` may be missing. -/
structure Employee where
  _id : JSString
  name : JSString
  email : JSString
  phone : JSString
  department : JSString
  position : JSString
  salary : JSNumber
  joiningDate : Option JSString
  status : JSString
  deriving DecidableEq

/-- What a form holds under `salary`: the text of the number input, or, in the edit form until
the field is edited, the number of the fetched record. -/
inductive SalaryValue where
  | str (s : JSString)
  | num (n : JSNumber)
  deriving DecidableEq

/-- The `form` state of the add and edit pages. -/
structure Form where
  name : JSString
  email : JSString
  phone : JSString
  department : JSString
  position : JSString
  salary : SalaryValue
  joiningDate : JSString
  status : JSString
  deriving DecidableEq

/-- `ToBoolean` of a string: only the empty string is falsy. -/
def truthy (s : JSString) : Bool := !s.isEmpty

/-- `ToBoolean` of the `salary` field. -/
def SalaryValue.truthy : SalaryValue → Bool
  | .str s => EmployeeApp.truthy s
  | .num n => n.truthy

/-- `Number(form.salary)`. -/
def Number : SalaryValue → JSNumber
  | .str s => stringToNumber s
  | .num n => n

/-- The object returned by `validate`: for each field, its message if the key was set. -/
structure FormErrors where
  name : Option String := none
  email : Option String := none
  phone : Option String := none
  department : Option String := none
  position : Option String := none
  salary : Option String := none
  joiningDate : Option String := none
  deriving DecidableEq

/-- `Object.keys(errors)`. -/
def FormErrors.keys (e : FormErrors) : List String :=
  (if e.name.isSome then ["name"] else []) ++
  (if e.email.isSome then ["email"] else []) ++
  (if e.phone.isSome then ["phone"] else []) ++
  (if e.department.isSome then ["department"] else []) ++
  (if e.position.isSome then ["position"] else []) ++
  (if e.salary.isSome then ["salary"] else []) ++
  (if e.joiningDate.isSome then ["joiningDate"] else [])

def DEPARTMENTS : List JSString :=
  [js "Engineering", js "Marketing", js "Sales", js "HR", js "Finance", js "Operations",
   js "Design", js "Other"]

/-- How the awaited API call settles: it resolves, or it rejects with an error whose
`response?.data?.message` may be missing. -/
inductive ApiResult where
  | resolved
  | rejected (message : Option String)
  deriving DecidableEq

/-- `s.split(sep)` for a separator of one code unit. -/
def split (sep : Nat) : JSString → List JSString
  | [] => [[]]
  | c :: cs =>
    if c = sep then [] :: split sep cs
    else
      match split sep cs with
      | [] => [[c]]
      | p :: ps => (c :: p) :: ps

/-- The "local-part@domain-with-a-dot" shape: somewhere in the text there is a non-empty run
of non-white-space units, then `@`, another such run, then `.`, and another such run. -/
def HasEmailShape (s : JSString) : Prop :=
  ∃ pre a b c post : JSString,
    s = pre ++ a ++ [64] ++ b ++ [46] ++ c ++ post ∧
    a ≠ [] ∧ b ≠ [] ∧ c ≠ [] ∧
    (∀ x ∈ a, isWhiteSpace x = false) ∧ (∀ x ∈ b, isWhiteSpace x = false) ∧
    (∀ x ∈ c, isWhiteSpace x = false)

/-- A text of the form `YYYY-MM-DD`: ten units, digits except for `-` at the fifth and eighth
place. -/
def isDatePortion (s : JSString) : Bool :=
  match s with
  | [y1, y2, y3, y4, h1, m1, m2, h2, d1, d2] =>
    isDigit y1 && isDigit y2 && isDigit y3 && isDigit y4 && h1 == 45 &&
    isDigit m1 && isDigit m2 && h2 == 45 && isDigit d1 && isDigit d2
  | _ => false

namespace AddEmployee

def initialForm : Form :=
  { name := [], email := [], phone := [], department := [], position := [],
    salary := .str [], joiningDate := [], status := js "Active" }

/-- The component state of `AddEmployee`. -/
structure State where
  form : Form := initialForm
  errors : FormErrors := {}
  loading : Bool := false
  serverError : String := ""
  deriving DecidableEq

/-- `validate` of `AddEmployee.jsx`, lines 19–31. -/
def validate (form : Form) : FormErrors :=
  { name := if !truthy (trim form.name) then some "Name is required" else none
    email :=
      if !truthy (trim form.email) then some "Email is required"
      else if !regexTest emailPattern form.email then some "Enter a valid email"
      else none
    phone := if !truthy (trim form.phone) then some "Phone is required" else none
    department := if !truthy form.department then some "Department is required" else none
    position := if !truthy (trim form.position) then some "Position is required" else none
    salary :=
      if !form.salary.truthy then some "Salary is required"
      else if (Number form.salary).ltZero then some "Salary must be positive"
      else none
    joiningDate :=
      if !truthy form.joiningDate then some "Joining date is required" else none }

/-- What one run of `handleSubmit` leaves behind: the component state while the request was
pending (if one was sent), the final component state, the payloads passed to `createEmployee`,
and the toast passed to `navigate` if it was called. -/
structure Outcome where
  inFlight : Option State
  state : State
  requests : List Form
  navigate : Option String
  deriving DecidableEq

/-- `handleSubmit` of `AddEmployee.jsx`, lines 39–56, run to completion; `createEmployee`
says how the request settles. -/
def handleSubmit (createEmployee : Form → ApiResult) (st : State) : Outcome :=
  let validErrors := validate st.form
  if validErrors.keys.length > 0 then
    { inFlight := none, state := { st with errors := validErrors }, requests := [],
      navigate := none }
  else
    let payload : Form := { st.form with salary := .num (Number st.form.salary) }
    match createEmployee payload with
    | .resolved =>
      { inFlight := some { st with loading := true, serverError := "" }
        state := { st with loading := false, serverError := "" }
        requests := [payload]
        navigate := some "Employee added successfully!" }
    | .rejected message =>
      { inFlight := some { st with loading := true, serverError := "" }
        state :=
          { st with
            loading := false
            serverError :=
              match message with
              | some m => if m ≠ "" then m else "Failed to add employee. Please try again."
              | none => "Failed to add employee. Please try again." }
        requests := [payload]
        navigate := none }

end AddEmployee

namespace EditEmployee

/-- The component state of `EditEmployee`. -/
structure State where
  form : Form := AddEmployee.initialForm
  errors : FormErrors := {}
  loading : Bool := false
  fetching : Bool := true
  serverError : String := ""
  deriving DecidableEq

/-- The form that `fetchEmployee` sets from the fetched record (`EditEmployee.jsx`,
lines 24–33). -/
def fetchedForm (emp : Employee) : Form :=
  { name := emp.name
    email := emp.email
    phone := emp.phone
    department := emp.department
    position := emp.position
    salary := .num emp.salary
    joiningDate :=
      match emp.joiningDate with
      | some d => if truthy d then (split 84 d).headD [] else []
      | none => []
    status := emp.status }

/-- `validate` of `EditEmployee.jsx`, lines 43–54. -/
def validate (form : Form) : FormErrors :=
  { name := if !truthy (trim form.name) then some "Name is required" else none
    email :=
      if !truthy (trim form.email) then some "Email is required"
      else if !regexTest emailPattern form.email then some "Enter a valid email"
      else none
    phone := if !truthy (trim form.phone) then some "Phone is required" else none
    department := if !truthy form.department then some "Department is required" else none
    position := if !truthy (trim form.position) then some "Position is required" else none
    salary := if !form.salary.truthy then some "Salary is required" else none
    joiningDate :=
      if !truthy form.joiningDate then some "Joining date is required" else none }

/-- What one run of `handleSubmit` leaves behind: the component state while the request was
pending (if one was sent), the final component state, the `(id, payload)` pairs passed to
`updateEmployee`, and the toast passed to `navigate` if it was called. -/
structure Outcome where
  inFlight : Option State
  state : State
  requests : List (JSString × Form)
  navigate : Option String
  deriving DecidableEq

/-- `handleSubmit` of `EditEmployee.jsx`, lines 62–79, run to completion; `updateEmployee`
says how the request settles. -/
def handleSubmit (id : JSString) (updateEmployee : JSString → Form → ApiResult) (st : State) :
    Outcome :=
  let validErrors := validate st.form
  if validErrors.keys.length > 0 then
    { inFlight := none, state := { st with errors := validErrors }, requests := [],
      navigate := none }
  else
    let payload : Form := { st.form with salary := .num (Number st.form.salary) }
    match updateEmployee id payload with
    | .resolved =>
      { inFlight := some { st with loading := true, serverError := "" }
        state := { st with loading := false, serverError := "" }
        requests := [(id, payload)]
        navigate := some "Employee updated successfully!" }
    | .rejected message =>
      { inFlight := some { st with loading := true, serverError := "" }
        state :=
          { st with
            loading := false
            serverError :=
              match message with
              | some m => if m ≠ "" then m else "Failed to update employee. Please try again."
              | none => "Failed to update employee. Please try again." }
        requests := [(id, payload)]
        navigate := none }

end EditEmployee

namespace EmployeeList

/-- The list shown by `EmployeeList`: the cached `employees` filtered by the search term and
the department filter (`EmployeeList.jsx`, lines 50–57). -/
def filteredEmployees (employees : List Employee) (searchTerm filterDept : JSString) :
    List Employee :=
  employees.filter fun emp =>
    let matchesSearch :=
      includes (toLowerCase emp.name) (toLowerCase searchTerm) ||
      includes (toLowerCase emp.email) (toLowerCase searchTerm) ||
      includes (toLowerCase emp.position) (toLowerCase searchTerm)
    let matchesDept := decide (filterDept = []) || decide (emp.department = filterDept)
    matchesSearch && matchesDept

/-- The `deleteModal` state: whether the confirmation is open (`show` in the source, a
reserved word here), and for which employee. -/
structure DeleteModal where
  shown : Bool := false
  id : Option JSString := none
  name : JSString := []
  deriving DecidableEq

/-- The `toast` state (`shown` is `show` in the source). The timer that hides the toast again
after three seconds is not modelled. -/
structure Toast where
  shown : Bool := false
  message : String := ""
  type : String := ""
  deriving DecidableEq

/-- The component state of `EmployeeList`. -/
structure State where
  employees : List Employee := []
  loading : Bool := true
  searchTerm : JSString := []
  filterDept : JSString := []
  deleteModal : DeleteModal := {}
  toast : Toast := {}
  deriving DecidableEq

/-- `showToast(message, type)`, lines 30–33. -/
def showToast (message type : String) (st : State) : State :=
  { st with toast := { shown := true, message := message, type := type } }

/-- `handleDeleteClick(id, name)`, lines 35–37. -/
def handleDeleteClick (id name : JSString) (st : State) : State :=
  { st with deleteModal := { shown := true, id := some id, name := name } }

/-- `handleDeleteConfirm`, lines 39–48, run to completion; `deleteEmployee` says how the
request for the modal's id settles. -/
def handleDeleteConfirm (deleteEmployee : Option JSString → ApiResult) (st : State) : State :=
  match deleteEmployee st.deleteModal.id with
  | .resolved =>
    showToast "Employee deleted successfully" "success"
      { st with
        employees := st.employees.filter fun e => decide (some e._id ≠ st.deleteModal.id)
        deleteModal := { shown := false, id := none, name := [] } }
  | .rejected _ => showToast "Failed to delete employee" "error" st

/-- `[...new Set(xs)]`: the distinct values of `xs`, each at its first position. -/
def setValues (xs : List JSString) : List JSString :=
  xs.foldl (fun acc x => if x ∈ acc then acc else acc ++ [x]) []

/-- The `departments` list, line 59. -/
def departments (employees : List Employee) : List JSString :=
  setValues (employees.map fun e => e.department)

/-- The "Active" statistic, line 126. -/
def activeCount (employees : List Employee) : Nat :=
  (employees.filter fun e => decide (e.status = js "Active")).length

/-- The text of the "Avg. Salary" card: the placeholder `—`, or `₹` followed by the locale
rendering (`toLocaleString`, not modelled) of a number. -/
inductive StatText where
  | placeholder
  | rupees (n : JSNumber)
  deriving DecidableEq

/-- The "Avg. Salary" statistic, lines 149–153. -/
def avgSalary (employees : List Employee) : StatText :=
  if (JSNumber.val employees.length).truthy then
    .rupees (mathRound
      ((employees.foldl (fun s e => JSNumber.add s e.salary) (.val 0)).div
        (.val employees.length)))
  else .placeholder

/-- The exact sum of the salaries of a list. -/
def salarySum (employees : List Employee) : ℚ :=
  (employees.map fun e => e.salary.toRat).sum

/-- The `colors` array of `getAvatarColor`, line 72. -/
def avatarColors : List String :=
  ["#6366f1", "#8b5cf6", "#ec4899", "#f59e0b", "#10b981", "#3b82f6", "#ef4444"]

/-- `getAvatarColor`, lines 71–75. `charCodeAt(0)` is the first code unit, and `NaN` for the
empty string; `colors[NaN]` is `undefined`, here `none`. -/
def getAvatarColor (name : JSString) : Option String :=
  match name.head? with
  | some code => avatarColors[code % avatarColors.length]?
  | none => none

/-- `getInitials`, lines 67–69: `n[0]` is `undefined` for an empty part, and `join('')` puts
nothing for it. -/
def getInitials (name : JSString) : JSString :=
  let firsts : List (Option Nat) := (split 32 name).map fun n => n.head?
  let joined : JSString := (firsts.map fun x => x.toList).flatten
  (toUpperCase joined).take 2

end EmployeeList

/-! ### The API: schema, collection and route handlers

`backend/models/Employee.js` and `backend/routes/employees.js`. The collection is a list of
documents in insertion order. What the database library does for the model (casting, setters,
defaults, validators, the unique index on `email`, casting of ids) is written out here as far
as the handlers depend on it. -/

/-- The body of a create or update request, restricted to the paths of the schema (the model
drops other keys); each path is absent or holds a value of the schema's type. -/
structure Payload where
  name : Option JSString := none
  email : Option JSString := none
  phone : Option JSString := none
  department : Option JSString := none
  position : Option JSString := none
  salary : Option JSNumber := none
  joiningDate : Option JSString := none
  status : Option JSString := none
  deriving DecidableEq

/-- A stored employee document; dates are milliseconds since the epoch. -/
structure Document where
  _id : JSString
  name : JSString
  email : JSString
  phone : JSString
  department : JSString
  position : JSString
  salary : JSNumber
  joiningDate : Int
  status : JSString
  createdAt : Int
  updatedAt : Int
  deriving DecidableEq

/-- The collection, in insertion order. -/
abbrev Collection := List Document

/-- The errors the model operations reject with. -/
inductive StoreError where
  /-- A `ValidationError` (or a cast failure of a field), with the failing paths. -/
  | validation (paths : List String)
  /-- The duplicate-key error of the unique index on `email`. -/
  | duplicateKey
  /-- The id is not an ObjectId. -/
  | castObjectId
  deriving DecidableEq

/-- `error.code`. -/
def StoreError.code : StoreError → Option Nat
  | .duplicateKey => some 11000
  | _ => none

/-- A `message` of a response: a literal of the route file, or `error.message` of a model
error (the library's text for it). -/
inductive Message where
  | text (s : String)
  | ofError (e : StoreError)
  deriving DecidableEq

/-- The `data` of a response. -/
inductive Data where
  | one (doc : Document)
  | many (docs : List Document)
  deriving DecidableEq

/-- A JSON response with its status code. -/
structure Response where
  status : Nat
  success : Bool
  count : Option Nat := none
  data : Option Data := none
  message : Option Message := none
  deriving DecidableEq

namespace EmployeeModel

/-- The `enum` of `department` (schema line 25). -/
def departmentEnum : List JSString :=
  [js "Engineering", js "Marketing", js "Sales", js "HR", js "Finance", js "Operations",
   js "Design", js "Other"]

/-- The `enum` of `status` (schema line 43). -/
def statusEnum : List JSString := [js "Active", js "Inactive", js "On Leave"]

/-- The setters of the schema: `trim` on `name`, `email`, `phone` and `position`, `lowercase`
on `email`. -/
def applySetters (p : Payload) : Payload :=
  { p with
    name := p.name.map trim
    email := p.email.map fun e => toLowerCase (trim e)
    phone := p.phone.map trim
    position := p.position.map trim }

/-- The defaults of the schema: `status` is `Active` when absent. -/
def applyDefaults (p : Payload) : Payload :=
  { p with status := some (p.status.getD (js "Active")) }

/-- The paths of a new document that fail validation: `required` (a string must be non-empty),
`enum`, `min: 0`, and a `joiningDate` that casts to a date. -/
def validateDocument (castDate : JSString → Option Int) (p : Payload) : List String :=
  (match p.name with
    | some v => if truthy v then [] else ["name"]
    | none => ["name"]) ++
  (match p.email with
    | some v => if truthy v then [] else ["email"]
    | none => ["email"]) ++
  (match p.phone with
    | some v => if truthy v then [] else ["phone"]
    | none => ["phone"]) ++
  (match p.department with
    | some v => if truthy v ∧ v ∈ departmentEnum then [] else ["department"]
    | none => ["department"]) ++
  (match p.position with
    | some v => if truthy v then [] else ["position"]
    | none => ["position"]) ++
  (match p.salary with
    | some v => if v.geZero then [] else ["salary"]
    | none => ["salary"]) ++
  (match p.joiningDate with
    | some v => if (castDate v).isSome then [] else ["joiningDate"]
    | none => ["joiningDate"]) ++
  (match p.status with
    | some v => if v ∈ statusEnum then [] else ["status"]
    | none => [])

/-- The paths of an update that fail the update validators (`runValidators: true`): the same
rules, run only on the paths the update sets. -/
def validateUpdate (castDate : JSString → Option Int) (p : Payload) : List String :=
  (match p.name with
    | some v => if truthy v then [] else ["name"]
    | none => []) ++
  (match p.email with
    | some v => if truthy v then [] else ["email"]
    | none => []) ++
  (match p.phone with
    | some v => if truthy v then [] else ["phone"]
    | none => []) ++
  (match p.department with
    | some v => if truthy v ∧ v ∈ departmentEnum then [] else ["department"]
    | none => []) ++
  (match p.position with
    | some v => if truthy v then [] else ["position"]
    | none => []) ++
  (match p.salary with
    | some v => if v.geZero then [] else ["salary"]
    | none => []) ++
  (match p.joiningDate with
    | some v => if (castDate v).isSome then [] else ["joiningDate"]
    | none => []) ++
  (match p.status with
    | some v => if v ∈ statusEnum then [] else ["status"]
    | none => [])

/-- Casting a request parameter to an ObjectId: twenty-four hexadecimal digits, compared
without regard to letter case. Other forms that some versions of the driver also accept (a
text of twelve bytes) are not modelled; no statement below depends on them. -/
def castObjectId (id : JSString) : Option JSString :=
  if id.length = 24 ∧ id.all (fun c => (digitValue c).isSome) = true then some (toLowerCase id)
  else none

/-- `Employee.find().sort({ createdAt: -1 })`. -/
def findSorted (store : Collection) : List Document :=
  store.insertionSort fun a b => b.createdAt ≤ a.createdAt

/-- `Employee.findById(id)`. -/
def findById (store : Collection) (id : JSString) : Except StoreError (Option Document) :=
  match castObjectId id with
  | none => .error .castObjectId
  | some oid => .ok (store.find? fun d => d._id == oid)

/-- `Employee.create(body)`: setters and defaults, validation, then the insert, which the
unique index on `email` may refuse. The id and the time come from the store and the clock. -/
def create (castDate : JSString → Option Int) (now : Int) (newId : JSString)
    (store : Collection) (body : Payload) : Except StoreError (Document × Collection) :=
  let p := applyDefaults (applySetters body)
  match p.name, p.email, p.phone, p.department, p.position, p.salary,
    p.joiningDate.bind castDate, p.status with
  | some name, some email, some phone, some department, some position, some salary,
    some joiningDate, some status =>
    if validateDocument castDate p ≠ [] then .error (.validation (validateDocument castDate p))
    else if store.any (fun d => d.email == email) then .error .duplicateKey
    else
      let doc : Document :=
        { _id := newId, name := name, email := email, phone := phone,
          department := department, position := position, salary := salary,
          joiningDate := joiningDate, status := status, createdAt := now, updatedAt := now }
      .ok (doc, store ++ [doc])
  | _, _, _, _, _, _, _, _ => .error (.validation (validateDocument castDate p))

/-- The document after an update sets the paths it supplies. -/
def applyUpdate (castDate : JSString → Option Int) (now : Int) (p : Payload)
    (doc : Document) : Document :=
  { doc with
    name := p.name.getD doc.name
    email := p.email.getD doc.email
    phone := p.phone.getD doc.phone
    department := p.department.getD doc.department
    position := p.position.getD doc.position
    salary := p.salary.getD doc.salary
    joiningDate := (p.joiningDate.bind castDate).getD doc.joiningDate
    status := p.status.getD doc.status
    updatedAt := now }

/-- `Employee.findByIdAndUpdate(id, body, { new: true, runValidators: true })`: setters, the
update validators, then the write to the matching document, which the unique index on `email`
may refuse; the result is the updated document, or `null` when none matches. -/
def findByIdAndUpdate (castDate : JSString → Option Int) (now : Int) (store : Collection)
    (id : JSString) (body : Payload) : Except StoreError (Option Document × Collection) :=
  match castObjectId id with
  | none => .error .castObjectId
  | some oid =>
    let p := applySetters body
    if validateUpdate castDate p ≠ [] then .error (.validation (validateUpdate castDate p))
    else
      match store.find? fun d => d._id == oid with
      | none => .ok (none, store)
      | some doc =>
        let updated := applyUpdate castDate now p doc
        if updated.email != doc.email && store.any (fun d => d.email == updated.email) then
          .error .duplicateKey
        else .ok (some updated, store.map fun d => if d._id == oid then updated else d)

/-- `Employee.findByIdAndDelete(id)`: the deleted document, or `null` when none matches. -/
def findByIdAndDelete (store : Collection) (id : JSString) :
    Except StoreError (Option Document × Collection) :=
  match castObjectId id with
  | none => .error .castObjectId
  | some oid =>
    match store.find? fun d => d._id == oid with
    | none => .ok (none, store)
    | some doc => .ok (some doc, store.filter fun d => d._id != oid)

end EmployeeModel

namespace Router

/-- The response `404 { success: false, message: 'Employee not found' }`. -/
def notFound : Response :=
  { status := 404, success := false, message := some (.text "Employee not found") }

/-- `router.get('/')`, lines 6–13. -/
def getAll (store : Collection) : Response :=
  { status := 200, success := true
    count := some (EmployeeModel.findSorted store).length
    data := some (.many (EmployeeModel.findSorted store)) }

/-- `router.get('/:id')`, lines 16–26. -/
def getById (store : Collection) (id : JSString) : Response :=
  match EmployeeModel.findById store id with
  | .ok none => notFound
  | .ok (some employee) => { status := 200, success := true, data := some (.one employee) }
  | .error e => { status := 500, success := false, message := some (.ofError e) }

/-- `router.post('/')`, lines 29–39: the response and the collection afterwards. -/
def post (castDate : JSString → Option Int) (now : Int) (newId : JSString)
    (store : Collection) (body : Payload) : Response × Collection :=
  match EmployeeModel.create castDate now newId store body with
  | .ok (employee, store') =>
    ({ status := 201, success := true, data := some (.one employee) }, store')
  | .error e =>
    if e.code = some 11000 then
      ({ status := 400, success := false, message := some (.text "Email already exists") },
        store)
    else ({ status := 400, success := false, message := some (.ofError e) }, store)

/-- `router.put('/:id')`, lines 42–55: the response and the collection afterwards. -/
def put (castDate : JSString → Option Int) (now : Int) (store : Collection) (id : JSString)
    (body : Payload) : Response × Collection :=
  match EmployeeModel.findByIdAndUpdate castDate now store id body with
  | .ok (none, store') => (notFound, store')
  | .ok (some employee, store') =>
    ({ status := 200, success := true, data := some (.one employee) }, store')
  | .error e => ({ status := 400, success := false, message := some (.ofError e) }, store)

/-- `router.delete('/:id')`, lines 58–68: the response and the collection afterwards. -/
def delete (store : Collection) (id : JSString) : Response × Collection :=
  match EmployeeModel.findByIdAndDelete store id with
  | .ok (none, store') => (notFound, store')
  | .ok (some _, store') =>
    ({ status := 200, success := true
       message := some (.text "Employee deleted successfully") }, store')
  | .error e => ({ status := 500, success := false, message := some (.ofError e) }, store)

end Router

/-! ### Sample data -/

/-- A form that passes every rule: the spec's sample payload. -/
def sampleForm : Form :=
  { name := js "Asha Rao", email := js "asha@x.com", phone := js "9999999999",
    department := js "Engineering", position := js "Engineer", salary := .str (js "50000"),
    joiningDate := js "2024-01-15", status := js "Active" }

/-- The sample form with the salary text `-5`. -/
def negativeSalaryForm : Form := { sampleForm with salary := .str (js "-5") }

/-- The sample form with the salary text `0`. -/
def zeroSalaryForm : Form := { sampleForm with salary := .str (js "0") }

/-- The sample form with a department outside the enumeration. -/
def legalDepartmentForm : Form := { sampleForm with department := js "Legal" }

/-- A stored employee whose salary is the number `0`. -/
def zeroSalaryEmployee : Employee :=
  { _id := js "65f0c0ffee0000000000abcd", name := js "Asha Rao", email := js "asha@x.com",
    phone := js "9999999999", department := js "Engineering", position := js "Engineer",
    salary := .val 0, joiningDate := some (js "2024-01-15T00:00:00.000Z"),
    status := js "Active" }

/-- Three cached employees for the search scenario of the spec. -/
def scenarioEmployees : List Employee :=
  [{ zeroSalaryEmployee with
      _id := js "e1", name := js "Rajesh Kumar", email := js "rk@x.com",
      department := js "Engineering" },
   { zeroSalaryEmployee with
      _id := js "e2", name := js "Meera Iyer", email := js "meera@x.com",
      position := js "Maharaja liaison", department := js "Sales" },
   { zeroSalaryEmployee with
      _id := js "e3", name := js "Asha Rao", email := js "asha@x.com",
      department := js "Engineering" }]

/-- A cached employee whose name is written in small letters, two of them accented. -/
def smallLettersEmployee : Employee :=
  { zeroSalaryEmployee with _id := js "j1", name := js "josé díaz" }

/-- A cached employee with the same name in capitals. -/
def capitalsEmployee : Employee :=
  { zeroSalaryEmployee with _id := js "j2", name := js "JOSÉ DÍAZ" }

/-- Three cached employees, two of whom have the same name up to letter case. -/
def accentedEmployees : List Employee :=
  [smallLettersEmployee, capitalsEmployee,
   { zeroSalaryEmployee with _id := js "j3", name := js "Rajesh Kumar" }]

/-- The sample form with the salary text `9007199254740993`, the integer `2^53 + 1`. -/
def largeSalaryForm : Form := { sampleForm with salary := .str (js "9007199254740993") }

/-- Three cached employees with salaries `2^51`, `2^51` and `2^51 + 1`. -/
def largeSalaryEmployees : List Employee :=
  [{ zeroSalaryEmployee with _id := js "e1", salary := .val 2251799813685248 },
   { zeroSalaryEmployee with _id := js "e2", salary := .val 2251799813685248 },
   { zeroSalaryEmployee with _id := js "e3", salary := .val 2251799813685249 }]

/-- Two cached employees with salaries `50000` and `60001`. -/
def twoSalaryEmployees : List Employee :=
  [{ zeroSalaryEmployee with _id := js "e1", salary := .val 50000 },
   { zeroSalaryEmployee with _id := js "e2", salary := .val 60001 }]

/-- A date cast that knows the one date text of the samples. -/
def sampleCastDate : JSString → Option Int :=
  fun s => if s = js "2024-01-15" then some 1705276800000 else none

/-- The create payload of the spec's scenario: mixed-case e-mail with a trailing blank, no
`status`. -/
def samplePayload : Payload :=
  { name := some (js "Asha Rao"), email := some (js "Asha@X.com "),
    phone := some (js "9999999999"), department := some (js "Engineering"),
    position := some (js "Engineer"), salary := some (.val 50000),
    joiningDate := some (js "2024-01-15") }

def sampleId : JSString := js "65f0c0ffee0000000000abcd"

/-- The document stored for `samplePayload` at time `1000` under `sampleId`. -/
def sampleDocument : Document :=
  { _id := sampleId, name := js "Asha Rao", email := js "asha@x.com",
    phone := js "9999999999", department := js "Engineering", position := js "Engineer",
    salary := .val 50000, joiningDate := 1705276800000, status := js "Active",
    createdAt := 1000, updatedAt := 1000 }

/-- A well-formed id that `sampleDocument` does not have. -/
def otherId : JSString := js "000000000000000000000001"

/-- The sample payload with salary `-1`. -/
def negativeSalaryPayload : Payload := { samplePayload with salary := some (.val (-1)) }

/-- A payload that supplies only a new name. -/
def nameOnlyPayload : Payload := { name := some (js "Asha R") }

/-- A second stored employee, with another id and e-mail. -/
def otherDocument : Document :=
  { sampleDocument with
    _id := otherId, name := js "Meera Iyer", email := js "meera@x.com", createdAt := 2000,
    updatedAt := 2000 }

/-- The sample payload with an e-mail that is not stored. -/
def newEmailPayload : Payload := { samplePayload with email := some (js "asha.rao@x.com") }

/-- The sample payload with an e-mail in capitals, one of them accented, and blanks around. -/
def accentedPayload : Payload := { samplePayload with email := some (js " JOSÉ@X.com ") }

/-- The document stored for `accentedPayload` at time `1000` under `sampleId`. -/
def accentedDocument : Document := { sampleDocument with email := js "josé@x.com" }

/-! ## Theorems -/

/-- `includes` decides the contiguous-sublist relation. -/
theorem includes_iff_isInfix (s t : JSString) : includes s t = true ↔ t <:+: s := by
  induction s with
  | nil => cases t <;> simp [includes]
  | cons c s ih =>
    simp only [includes, Bool.or_eq_true, ih, List.infix_cons_iff]
    rw [ List.isPrefixOf_iff_prefix]

theorem includes_nil (s : JSString) : includes s [] = true :=
  (includes_iff_isInfix s []).2 List.nil_infix

theorem toLowerCase_nil : toLowerCase [] = [] := rfl

/-! ### Trimming -/

/-- A string trims to the empty string exactly when it consists of white space only. -/
theorem trim_eq_nil_iff (s : JSString) : trim s = [] ↔ ∀ c ∈ s, isWhiteSpace c = true := by
  unfold trim
  rw [List.reverse_eq_nil_iff, List.dropWhile_eq_nil_iff]
  constructor
  · intro h
    by_cases hd : s.dropWhile isWhiteSpace = []
    · exact List.dropWhile_eq_nil_iff.1 hd
    · have h1 := List.head_dropWhile_not isWhiteSpace s hd
      have h2 := h _ (List.mem_reverse.2 (List.head_mem hd))
      simp [h2] at h1
  · intro h x hx
    exact h x ((List.dropWhile_sublist _).subset (List.mem_reverse.1 hx))

theorem truthy_eq_false_iff (s : JSString) : (!truthy s) = true ↔ s = [] := by
  cases s <;> simp [truthy]

/-! ### The regular-expression matcher -/

theorem matchHere_once (p : Nat → Bool) (rest : List RegexAtom) (s : JSString) :
    matchHere (⟨p, false⟩ :: rest) s = true ↔
      ∃ c t, s = c :: t ∧ p c = true ∧ matchHere rest t = true := by
  cases s with
  | nil => simp [matchHere]
  | cons c cs =>
    simp only [matchHere, Bool.false_eq_true, if_false, Bool.and_eq_true, List.cons.injEq]
    constructor
    · rintro ⟨hc, hm⟩
      exact ⟨c, cs, ⟨rfl, rfl⟩, hc, hm⟩
    · rintro ⟨c1, t, ⟨rfl, rfl⟩, hc, hm⟩
      exact ⟨hc, hm⟩

theorem matchHere_plus (p : Nat → Bool) (rest : List RegexAtom) (s : JSString) :
    matchHere (⟨p, true⟩ :: rest) s = true ↔
      ∃ a t, a ≠ [] ∧ (∀ x ∈ a, p x = true) ∧ s = a ++ t ∧ matchHere rest t = true := by
  induction s with
  | nil =>
    simp only [matchHere, Bool.false_eq_true, false_iff]
    rintro ⟨a, t, ha, -, hs, -⟩
    cases a with
    | nil => exact ha rfl
    | cons x a => simp at hs
  | cons c cs ih =>
    simp only [matchHere, if_true, Bool.and_eq_true, Bool.or_eq_true, ih]
    constructor
    · rintro ⟨hc, ⟨a, t, -, hall, hs, hm⟩ | hm⟩
      · refine ⟨c :: a, t, by simp, ?_, by simp [hs], hm⟩
        intro x hx
        rcases List.mem_cons.1 hx with rfl | hx
        · exact hc
        · exact hall x hx
      · exact ⟨[c], cs, by simp, by simpa using hc, by simp, hm⟩
    · rintro ⟨a, t, ha, hall, hs, hm⟩
      cases a with
      | nil => exact absurd rfl ha
      | cons x a =>
        simp only [List.cons_append, List.cons.injEq] at hs
        obtain ⟨rfl, rfl⟩ := hs
        refine ⟨hall c (List.mem_cons_self _ _), ?_⟩
        cases a with
        | nil => right; simpa using hm
        | cons y a =>
          left
          exact ⟨y :: a, t, by simp, fun z hz => hall z (List.mem_cons_of_mem _ hz), rfl, hm⟩

theorem regexTest_iff (re : List RegexAtom) (s : JSString) :
    regexTest re s = true ↔ ∃ pre t, s = pre ++ t ∧ matchHere re t = true := by
  simp only [regexTest, List.any_eq_true, List.mem_tails]
  constructor
  · rintro ⟨t, ⟨pre, rfl⟩, hm⟩
    exact ⟨pre, t, rfl, hm⟩
  · rintro ⟨pre, t, rfl, hm⟩
    exact ⟨t, ⟨pre, rfl⟩, hm⟩

/-- The test of `/\S+@\S+\.\S+/` succeeds exactly on the texts of the e-mail shape. -/
theorem regexTest_emailPattern_iff (s : JSString) :
    regexTest emailPattern s = true ↔ HasEmailShape s := by
  rw [regexTest_iff]
  simp only [emailPattern, matchHere_plus, matchHere_once, HasEmailShape]
  constructor
  · rintro ⟨pre, t, rfl, a, t1, ha, hall, rfl, c1, t2, rfl, hc1, b, t3, hb, hbll, rfl, c2, t4, rfl,
      hc2, c, post, hc, hcll, rfl, -⟩
    simp only [beq_iff_eq] at hc1 hc2
    subst hc1 hc2
    refine ⟨pre, a, b, c, post, by simp, ha, hb, hc, ?_, ?_, ?_⟩
    · intro x hx; simpa using hall x hx
    · intro x hx; simpa using hbll x hx
    · intro x hx; simpa using hcll x hx
  · rintro ⟨pre, a, b, c, post, rfl, ha, hb, hc, hall, hbll, hcll⟩
    refine ⟨pre, a ++ 64 :: (b ++ 46 :: (c ++ post)), by simp, a, _, ha, ?_, rfl, 64, _, rfl,
      by simp, b, _, hb, ?_, rfl, 46, _, rfl, by simp, c, post, hc, ?_, rfl, ?_⟩
    · intro x hx; simp [hall x hx]
    · intro x hx; simp [hbll x hx]
    · intro x hx; simp [hcll x hx]
    · simp [matchHere]

/-! ### Rounding to binary64 -/

theorem roundHalfEven_sub_le (y : ℚ) : |(roundHalfEven y : ℚ) - y| ≤ 1 / 2 := by
  have h1 := Int.floor_le y
  have h2 := Int.lt_floor_add_one y
  unfold roundHalfEven
  rw [abs_le]
  split_ifs with ha hb hc
  · constructor <;> linarith
  · push_cast; constructor <;> linarith
  · constructor <;> linarith
  · push_cast; constructor <;> linarith

theorem roundHalfEven_intCast (z : ℤ) : roundHalfEven (z : ℚ) = z := by
  unfold roundHalfEven
  simp

theorem log_two_eq (r : ℚ) (k : ℤ) (hr : 0 < r) (h1 : (2 : ℚ) ^ k ≤ r)
    (h2 : r < (2 : ℚ) ^ (k + 1)) : Int.log 2 r = k := by
  have a : k ≤ Int.log 2 r := (Int.zpow_le_iff_le_log (by norm_num) hr).1 (by exact_mod_cast h1)
  have b : Int.log 2 r < k + 1 :=
    (Int.lt_zpow_iff_log_lt (by norm_num) hr).1 (by exact_mod_cast h2)
  omega

/-- On a positive value whose binade lies above the subnormal range and whose rounding stays
finite, `toDouble` is the rounded multiple of the binade's quantum. -/
theorem toDouble_of_pos (q : ℚ) (hq : 0 < q) (he : -1022 ≤ Int.log 2 q)
    (hfin : (roundHalfEven (q / 2 ^ (Int.log 2 q - 52)) : ℚ) * 2 ^ (Int.log 2 q - 52)
      < 2 ^ 1024) :
    toDouble q
      = .val ((roundHalfEven (q / 2 ^ (Int.log 2 q - 52)) : ℚ) * 2 ^ (Int.log 2 q - 52)) := by
  unfold toDouble
  rw [if_neg hq.ne', abs_of_pos hq, max_eq_left he]
  simp only
  split_ifs with h0 hneg hbig hneg2 hneg3
  · exact absurd hq (not_lt.2 hneg.le)
  · rw [h0]
  · exact absurd hfin (not_lt.2 hbig)
  · exact absurd hfin (not_lt.2 hbig)
  · exact absurd hq (not_lt.2 hneg3.le)
  · rfl

/-- Integers below `2^53` are Number values. -/
theorem toDouble_natCast (n : ℕ) (h : n < 2 ^ 53) : toDouble (n : ℚ) = .val n := by
  rcases Nat.eq_zero_or_pos n with rfl | hpos
  · simp [toDouble]
  have hq : (0 : ℚ) < n := by exact_mod_cast hpos
  have hlog : Int.log 2 (n : ℚ) = (Nat.log 2 n : ℤ) := Int.log_natCast 2 n
  have hk : Nat.log 2 n ≤ 52 := by
    have := Nat.log_lt_of_lt_pow hpos.ne' h
    omega
  obtain ⟨t, ht⟩ : ∃ t : ℕ, Nat.log 2 n + t = 52 := ⟨52 - Nat.log 2 n, by omega⟩
  have hquant : (2 : ℚ) ^ (Int.log 2 (n : ℚ) - 52) = ((2 : ℚ) ^ t)⁻¹ := by
    rw [hlog, ← zpow_natCast, ← zpow_neg]
    congr 1
    omega
  have hy : (n : ℚ) / 2 ^ (Int.log 2 (n : ℚ) - 52) = ((n * 2 ^ t : ℕ) : ℤ) := by
    rw [hquant]
    push_cast
    rw [div_inv_eq_mul]
  have hr : (roundHalfEven ((n : ℚ) / 2 ^ (Int.log 2 (n : ℚ) - 52)) : ℚ)
      * 2 ^ (Int.log 2 (n : ℚ) - 52) = n := by
    rw [hy, roundHalfEven_intCast, hquant]
    push_cast
    have : (2 : ℚ) ^ t ≠ 0 := by positivity
    field_simp
  rw [toDouble_of_pos _ hq (by rw [hlog]; omega), hr]
  rw [hr]
  have : (n : ℚ) < 2 ^ 53 := by exact_mod_cast h
  exact this.trans (by norm_num)

/-- Rounding is symmetric: a negative value rounds to the negative of what its magnitude
rounds to. -/
theorem toDouble_neg_of_val (q r : ℚ) (hq : 0 < q) (hr : r ≠ 0) (h : toDouble q = .val r) :
    toDouble (-q) = .val (-r) := by
  unfold toDouble at h ⊢
  rw [if_neg hq.ne'] at h
  rw [if_neg (neg_ne_zero.2 hq.ne'), abs_neg]
  have hneg : -q < 0 := neg_lt_zero.2 hq
  have hnn : ¬ q < 0 := not_lt.2 hq.le
  simp only [hneg, hnn, if_true, if_false] at h ⊢
  split_ifs at h ⊢ with h0 hbig
  · rw [JSNumber.val.injEq] at h
    exact absurd h.symm hr
  · rw [JSNumber.val.injEq] at h
    rw [h]

/-! ### Evaluating `Number` on sample texts -/

theorem stringToNumber_minus_five : stringToNumber (js "-5") = .val (-5) := by
  have h : parseStringNumericLiteral (js "-5") = some (.decimal true (.finite 5 0)) := by decide
  have h5 := toDouble_neg_of_val 5 5 (by norm_num) (by norm_num)
    (by simpa using toDouble_natCast 5 (by norm_num))
  simp [stringToNumber, h, StringNumericLiteral.value, roundMV, h5]

theorem stringToNumber_zero : stringToNumber (js "0") = .val 0 := by
  have h : parseStringNumericLiteral (js "0") = some (.decimal false (.finite 0 0)) := by decide
  simp [stringToNumber, h, StringNumericLiteral.value, roundMV]

theorem stringToNumber_sample : stringToNumber (js "50000") = .val 50000 := by
  have h : parseStringNumericLiteral (js "50000") = some (.decimal false (.finite 50000 0)) := by
    decide
  have h5 : toDouble 50000 = .val 50000 := by simpa using toDouble_natCast 50000 (by norm_num)
  simp [stringToNumber, h, StringNumericLiteral.value, roundMV, h5]

/-- The integer `2^53 + 1` is no Number value: its text is read as `2^53`. -/
theorem stringToNumber_above_safe :
    stringToNumber (js "9007199254740993") = .val 9007199254740992 := by
  have h : parseStringNumericLiteral (js "9007199254740993")
      = some (.decimal false (.finite 9007199254740993 0)) := by decide
  have hlog : Int.log 2 (9007199254740993 : ℚ) = 53 :=
    log_two_eq _ 53 (by norm_num) (by norm_num) (by norm_num)
  have hfl : ⌊(9007199254740993 : ℚ) / 2⌋ = 4503599627370496 := by
    rw [Int.floor_eq_iff]
    constructor <;> norm_num
  have hround : roundHalfEven ((9007199254740993 : ℚ) / 2) = 4503599627370496 := by
    unfold roundHalfEven
    rw [hfl]
    norm_num
  have h5 : toDouble 9007199254740993 = .val 9007199254740992 := by
    rw [toDouble_of_pos _ (by norm_num) (by rw [hlog]; norm_num)]
    · rw [hlog]
      norm_num
      rw [hround]
      norm_num
    · rw [hlog]
      norm_num
      rw [hround]
      norm_num
  simp [stringToNumber, h, StringNumericLiteral.value, roundMV, h5]

theorem ltZero_eq_false_of_geZero (x : JSNumber) (h : x.geZero = true) : x.ltZero = false := by
  cases x <;> simp_all [JSNumber.geZero, JSNumber.ltZero]

/-! ### Form validation -/

/-- The part of a text after an occurrence of `@` lies inside the part from the first `@`. -/
theorem mem_dropWhile_of_mem_after (u v : JSString) (x : Nat) (hx : x ∈ v) :
    x ∈ (u ++ 64 :: v).dropWhile (fun c => c != 64) := by
  induction u with
  | nil => simp [List.dropWhile, hx]
  | cons y u ih =>
    by_cases hy : y = 64
    · subst hy
      simp [List.dropWhile, hx]
    · have hb : (y != 64) = true := by simpa using hy
      rw [List.cons_append, List.dropWhile_cons, if_pos hb]
      exact ih

theorem keys_length_pos_iff (e : FormErrors) : e.keys.length > 0 ↔ e ≠ {} := by
  obtain ⟨a, b, c, d, f, g, h⟩ := e
  cases a <;> cases b <;> cases c <;> cases d <;> cases f <;> cases g <;> cases h <;>
    simp [FormErrors.keys]

/-- C4: in both forms, `validate` sets an error under `name`, `phone` or `position` exactly
when that field is empty after trimming; nothing else in the form state matters. -/
theorem validate_text_fields (form : Form) :
    ((AddEmployee.validate form).name.isSome = true ↔ trim form.name = []) ∧
    ((AddEmployee.validate form).phone.isSome = true ↔ trim form.phone = []) ∧
    ((AddEmployee.validate form).position.isSome = true ↔ trim form.position = []) ∧
    ((EditEmployee.validate form).name.isSome = true ↔ trim form.name = []) ∧
    ((EditEmployee.validate form).phone.isSome = true ↔ trim form.phone = []) ∧
    ((EditEmployee.validate form).position.isSome = true ↔ trim form.position = []) := by
  refine ⟨?_, ?_, ?_, ?_, ?_, ?_⟩ <;>
    simp only [AddEmployee.validate, EditEmployee.validate, truthy_eq_false_iff] <;>
    split <;> simp_all

/-- C5: in both forms the e-mail error is "Email is required" exactly when the e-mail is
empty after trimming, "Enter a valid email" exactly when it is not empty after trimming and
lacks the shape (non-white-space run, `@`, non-white-space run, `.`, non-white-space run), and
absent exactly when the e-mail has that shape somewhere in it. An e-mail without `@`, or
without `.` from its first `@` on, gets an error. -/
theorem validate_email (form : Form) :
    (EditEmployee.validate form).email = (AddEmployee.validate form).email ∧
    ((AddEmployee.validate form).email = some "Email is required" ↔ trim form.email = []) ∧
    ((AddEmployee.validate form).email = some "Enter a valid email" ↔
      trim form.email ≠ [] ∧ ¬ HasEmailShape form.email) ∧
    ((AddEmployee.validate form).email = none ↔ HasEmailShape form.email) ∧
    (64 ∉ form.email → (AddEmployee.validate form).email ≠ none) ∧
    (46 ∉ form.email.dropWhile (fun c => c != 64) →
      (AddEmployee.validate form).email ≠ none) := by
  have hshape : HasEmailShape form.email → trim form.email ≠ [] := by
    rintro ⟨pre, a, b, c, post, hs, ha, -, -, hall, -, -⟩ htrim
    obtain ⟨x, hx⟩ := List.exists_mem_of_ne_nil a ha
    have := (trim_eq_nil_iff _).1 htrim x (by rw [hs]; simp [hx])
    simp [hall x hx] at this
  have hnone : (AddEmployee.validate form).email = none ↔ HasEmailShape form.email := by
    simp only [AddEmployee.validate, truthy_eq_false_iff]
    constructor
    · intro h
      split at h
      · cases h
      · split at h
        · cases h
        · rw [← regexTest_emailPattern_iff]
          simp_all
    · intro h
      rw [if_neg (hshape h), if_neg]
      simp [(regexTest_emailPattern_iff _).2 h]
  refine ⟨rfl, ?_, ?_, hnone, ?_, ?_⟩
  · simp only [AddEmployee.validate, truthy_eq_false_iff]
    split
    · simp_all
    · split <;> simp_all
  · simp only [AddEmployee.validate, truthy_eq_false_iff, ← regexTest_emailPattern_iff]
    split
    · simp_all
    · split <;> simp_all
  · intro h hn
    obtain ⟨pre, a, b, c, post, hs, -⟩ := hnone.1 hn
    exact h (by rw [hs]; simp)
  · intro h hn
    obtain ⟨pre, a, b, c, post, hs, -⟩ := hnone.1 hn
    apply h
    have : form.email = (pre ++ a) ++ 64 :: (b ++ 46 :: (c ++ post)) := by rw [hs]; simp
    rw [this]
    exact mem_dropWhile_of_mem_after _ _ _ (by simp)

theorem validate_email_witness :
    (64 ∉ js "asha.x.com" ∧
      (AddEmployee.validate { sampleForm with email := js "asha.x.com" }).email ≠ none) ∧
    (46 ∉ (js "asha.rao@x").dropWhile (fun c => c != 64) ∧
      (AddEmployee.validate { sampleForm with email := js "asha.rao@x" }).email ≠ none) :=
  ⟨⟨by decide, (validate_email { sampleForm with email := js "asha.x.com" }).2.2.2.2.1
      (by decide)⟩,
   ⟨by decide, (validate_email { sampleForm with email := js "asha.rao@x" }).2.2.2.2.2
      (by decide)⟩⟩

namespace AddEmployee

/-- C6: in the add form, where `salary` holds the text of the input, `validate` reports
"Salary is required" for the empty text, "Salary must be positive" for a non-empty text whose
Number value is below zero, and no salary error for a non-empty text whose Number value is at
least zero, the text `0` among them. -/
theorem validate_salary (form : Form) (s : JSString) (h : form.salary = .str s) :
    (s = [] → (validate form).salary = some "Salary is required") ∧
    (s ≠ [] → (stringToNumber s).ltZero = true →
      (validate form).salary = some "Salary must be positive") ∧
    (s ≠ [] → (stringToNumber s).geZero = true → (validate form).salary = none) ∧
    (s = js "0" → (validate form).salary = none) := by
  have key : ∀ t : JSString, t ≠ [] → (stringToNumber t).geZero = true →
      form.salary = .str t → (validate form).salary = none := by
    intro t ht hge hf
    cases t with
    | nil => exact absurd rfl ht
    | cons c t =>
      simp [validate, hf, SalaryValue.truthy, truthy, Number, ltZero_eq_false_of_geZero _ hge]
  refine ⟨?_, ?_, fun hs hge => key s hs hge h, ?_⟩
  · rintro rfl
    simp [validate, h, SalaryValue.truthy, truthy]
  · intro hs hlt
    cases s with
    | nil => exact absurd rfl hs
    | cons c t => simp [validate, h, SalaryValue.truthy, truthy, Number, hlt]
  · rintro rfl
    refine key _ (by decide) ?_ h
    rw [stringToNumber_zero]
    decide

theorem validate_salary_witness :
    (validate negativeSalaryForm).salary = some "Salary must be positive" ∧
    (validate zeroSalaryForm).salary = none :=
  ⟨(validate_salary negativeSalaryForm (js "-5") rfl).2.1 (by decide)
      (by rw [stringToNumber_minus_five]; decide),
   (validate_salary zeroSalaryForm (js "0") rfl).2.2.2 rfl⟩

end AddEmployee

/-- The two `validate` functions agree on every field but `salary`, and on `salary` too unless
the value is truthy with a Number value below zero. -/
theorem validate_edit_eq_add (form : Form) :
    EditEmployee.validate form
      = { AddEmployee.validate form with
          salary := if !form.salary.truthy then some "Salary is required" else none } ∧
    (¬ (form.salary.truthy = true ∧ (Number form.salary).ltZero = true) →
      EditEmployee.validate form = AddEmployee.validate form) := by
  refine ⟨rfl, fun h => ?_⟩
  simp only [EditEmployee.validate, AddEmployee.validate, FormErrors.mk.injEq, true_and,
    and_true]
  by_cases ht : form.salary.truthy = true
  · have hl : (Number form.salary).ltZero = false := by
      cases hlt : (Number form.salary).ltZero
      · rfl
      · exact absurd ⟨ht, hlt⟩ h
    simp [ht, hl]
  · simp [ht]

/-- C7: on the sample form with salary text `-5` the two forms disagree: the add form
reports "Salary must be positive", the edit form reports nothing at all, so its `handleSubmit`
sends the update with salary `-5`. -/
theorem validate_add_edit_disagree :
    (stringToNumber (js "-5")).ltZero = true ∧
    (AddEmployee.validate negativeSalaryForm).salary = some "Salary must be positive" ∧
    (EditEmployee.validate negativeSalaryForm).salary = none ∧
    EditEmployee.validate negativeSalaryForm = {} ∧
    AddEmployee.validate negativeSalaryForm ≠ EditEmployee.validate negativeSalaryForm := by
  have hlt : (stringToNumber (js "-5")).ltZero = true := by
    rw [stringToNumber_minus_five]; decide
  have hadd : (AddEmployee.validate negativeSalaryForm).salary
      = some "Salary must be positive" := by
    have hs : negativeSalaryForm.salary = .str (js "-5") := rfl
    have ht : (SalaryValue.str (js "-5")).truthy = true := by decide
    simp [AddEmployee.validate, hs, ht, Number, hlt]
  have hedit : EditEmployee.validate negativeSalaryForm = {} := by decide
  refine ⟨hlt, hadd, by rw [hedit], hedit, ?_⟩
  intro h
  rw [hedit] at h
  rw [h] at hadd
  cases hadd

namespace EditEmployee

/-- C8: for the stored employee whose salary is the number `0`, a valid salary, the edit form
as populated by `fetchEmployee` holds the number `0` under `salary`; `validate` reports
"Salary is required" for it and `handleSubmit` sends nothing. -/
theorem validate_fetched_zero_salary (id : JSString)
    (updateEmployee : JSString → Form → ApiResult) (st : State) :
    zeroSalaryEmployee.salary.geZero = true ∧
    (fetchedForm zeroSalaryEmployee).salary = .num (.val 0) ∧
    validate (fetchedForm zeroSalaryEmployee)
      = { salary := some "Salary is required" } ∧
    (handleSubmit id updateEmployee { st with form := fetchedForm zeroSalaryEmployee }).requests
      = [] := by
  have hv : validate (fetchedForm zeroSalaryEmployee)
      = { salary := some "Salary is required" } := by decide
  refine ⟨by decide, rfl, hv, ?_⟩
  simp only [handleSubmit, hv]
  rfl

end EditEmployee

/-- C9, as the claim states it, fails: with the department `Legal`, which is not in the
enumeration, neither form reports a department error. -/
theorem validate_department_not_member :
    js "Legal" ∉ DEPARTMENTS ∧ legalDepartmentForm.department = js "Legal" ∧
    (AddEmployee.validate legalDepartmentForm).department = none ∧
    (EditEmployee.validate legalDepartmentForm).department = none := by
  decide

/-- C9, amended: in both forms `validate` reports "Department is required" exactly when the
department is the empty string, and so reports no department error for a department of the
enumeration; membership in the enumeration is not checked. -/
theorem validate_department (form : Form) :
    ((AddEmployee.validate form).department
      = if form.department = [] then some "Department is required" else none) ∧
    ((EditEmployee.validate form).department
      = if form.department = [] then some "Department is required" else none) ∧
    (form.department ∈ DEPARTMENTS →
      (AddEmployee.validate form).department = none ∧
      (EditEmployee.validate form).department = none) := by
  have h1 : (AddEmployee.validate form).department
      = if form.department = [] then some "Department is required" else none := by
    simp only [AddEmployee.validate, truthy_eq_false_iff]
  have h2 : (EditEmployee.validate form).department
      = if form.department = [] then some "Department is required" else none := by
    simp only [EditEmployee.validate, truthy_eq_false_iff]
  refine ⟨h1, h2, fun hmem => ?_⟩
  have hne : form.department ≠ [] := by
    intro h0
    rw [h0] at hmem
    revert hmem
    decide
  rw [h1, h2, if_neg hne]
  exact ⟨rfl, rfl⟩

theorem validate_department_witness :
    sampleForm.department ∈ DEPARTMENTS ∧
    (AddEmployee.validate sampleForm).department = none ∧
    (EditEmployee.validate sampleForm).department = none :=
  ⟨by decide, (validate_department sampleForm).2.2 (by decide)⟩

/-- C10: in both forms `handleSubmit` sends a request exactly when `validate` returns the
empty mapping. When `validate` returns an error, nothing is sent, there is no navigation,
`errors` becomes that mapping and the form, the loading flag and the server error stay as
they were. When the request is sent, it is sent once and its payload is the form with
`salary` replaced by `Number(salary)`. -/
theorem handleSubmit_gate (createEmployee : Form → ApiResult) (id : JSString)
    (updateEmployee : JSString → Form → ApiResult)
    (sa : AddEmployee.State) (se : EditEmployee.State) :
    (((AddEmployee.handleSubmit createEmployee sa).requests ≠ [] ↔
        AddEmployee.validate sa.form = {}) ∧
      (AddEmployee.validate sa.form ≠ {} →
        AddEmployee.handleSubmit createEmployee sa
          = { inFlight := none
              state := { sa with errors := AddEmployee.validate sa.form }
              requests := []
              navigate := none }) ∧
      (AddEmployee.validate sa.form = {} →
        (AddEmployee.handleSubmit createEmployee sa).requests
          = [{ sa.form with salary := .num (Number sa.form.salary) }])) ∧
    (((EditEmployee.handleSubmit id updateEmployee se).requests ≠ [] ↔
        EditEmployee.validate se.form = {}) ∧
      (EditEmployee.validate se.form ≠ {} →
        EditEmployee.handleSubmit id updateEmployee se
          = { inFlight := none
              state := { se with errors := EditEmployee.validate se.form }
              requests := []
              navigate := none }) ∧
      (EditEmployee.validate se.form = {} →
        (EditEmployee.handleSubmit id updateEmployee se).requests
          = [(id, { se.form with salary := .num (Number se.form.salary) })])) := by
  have hadd_bad : AddEmployee.validate sa.form ≠ {} →
      AddEmployee.handleSubmit createEmployee sa
        = { inFlight := none
            state := { sa with errors := AddEmployee.validate sa.form }
            requests := []
            navigate := none } := by
    intro h
    simp only [AddEmployee.handleSubmit, if_pos ((keys_length_pos_iff _).2 h)]
  have hadd_ok : AddEmployee.validate sa.form = {} →
      (AddEmployee.handleSubmit createEmployee sa).requests
        = [{ sa.form with salary := .num (Number sa.form.salary) }] := by
    intro h
    have hk : ¬ (AddEmployee.validate sa.form).keys.length > 0 := by
      rw [keys_length_pos_iff]; exact fun hne => hne h
    simp only [AddEmployee.handleSubmit, if_neg hk]
    split <;> rfl
  have hedit_bad : EditEmployee.validate se.form ≠ {} →
      EditEmployee.handleSubmit id updateEmployee se
        = { inFlight := none
            state := { se with errors := EditEmployee.validate se.form }
            requests := []
            navigate := none } := by
    intro h
    simp only [EditEmployee.handleSubmit, if_pos ((keys_length_pos_iff _).2 h)]
  have hedit_ok : EditEmployee.validate se.form = {} →
      (EditEmployee.handleSubmit id updateEmployee se).requests
        = [(id, { se.form with salary := .num (Number se.form.salary) })] := by
    intro h
    have hk : ¬ (EditEmployee.validate se.form).keys.length > 0 := by
      rw [keys_length_pos_iff]; exact fun hne => hne h
    simp only [EditEmployee.handleSubmit, if_neg hk]
    split <;> rfl
  refine ⟨⟨⟨fun hreq => ?_, fun hv => ?_⟩, hadd_bad, hadd_ok⟩,
    ⟨⟨fun hreq => ?_, fun hv => ?_⟩, hedit_bad, hedit_ok⟩⟩
  · by_contra hne
    rw [hadd_bad hne] at hreq
    exact hreq rfl
  · rw [hadd_ok hv]; simp
  · by_contra hne
    rw [hedit_bad hne] at hreq
    exact hreq rfl
  · rw [hedit_ok hv]; simp

theorem validate_sampleForm : AddEmployee.validate sampleForm = {} := by
  have hn : (Number sampleForm.salary).ltZero = false := by
    have h2 : Number sampleForm.salary = .val 50000 := stringToNumber_sample
    rw [h2]
    simp [JSNumber.ltZero]
  have he : EditEmployee.validate sampleForm = {} := by decide
  rw [← (validate_edit_eq_add sampleForm).2 fun h => by simp [hn] at h]
  exact he

theorem validate_largeSalaryForm : AddEmployee.validate largeSalaryForm = {} := by
  have hn : (Number largeSalaryForm.salary).ltZero = false := by
    have h2 : Number largeSalaryForm.salary = .val 9007199254740992 :=
      stringToNumber_above_safe
    rw [h2]
    simp [JSNumber.ltZero]
  have he : EditEmployee.validate largeSalaryForm = {} := by decide
  rw [← (validate_edit_eq_add largeSalaryForm).2 fun h => by simp [hn] at h]
  exact he

theorem handleSubmit_gate_witness :
    (AddEmployee.validate AddEmployee.initialForm ≠ {} ∧
      (AddEmployee.handleSubmit (fun _ => .resolved) {}).requests = []) ∧
    (AddEmployee.validate sampleForm = {} ∧
      (AddEmployee.handleSubmit (fun _ => .resolved) { form := sampleForm }).requests
        = [{ sampleForm with salary := .num (.val 50000) }]) ∧
    (AddEmployee.validate largeSalaryForm = {} ∧
      (AddEmployee.handleSubmit (fun _ => .resolved) { form := largeSalaryForm }).requests
        = [{ sampleForm with salary := .num (.val 9007199254740992) }]) ∧
    (EditEmployee.validate AddEmployee.initialForm ≠ {} ∧
      (EditEmployee.handleSubmit [] (fun _ _ => .resolved) {}).requests = []) ∧
    (EditEmployee.validate sampleForm = {} ∧
      (EditEmployee.handleSubmit [] (fun _ _ => .resolved) { form := sampleForm }).requests
        = [([], { sampleForm with salary := .num (.val 50000) })]) ∧
    (EditEmployee.validate largeSalaryForm = {} ∧
      (EditEmployee.handleSubmit [] (fun _ _ => .resolved)
          { form := largeSalaryForm }).requests
        = [([], { sampleForm with salary := .num (.val 9007199254740992) })]) := by
  have hs : Number sampleForm.salary = .val 50000 := stringToNumber_sample
  have hl : Number largeSalaryForm.salary = .val 9007199254740992 :=
    stringToNumber_above_safe
  have hes : EditEmployee.validate sampleForm = {} := by decide
  have hel : EditEmployee.validate largeSalaryForm = {} := by decide
  refine ⟨⟨by decide, ?_⟩, ⟨validate_sampleForm, ?_⟩, ⟨validate_largeSalaryForm, ?_⟩,
    ⟨by decide, ?_⟩, ⟨hes, ?_⟩, ⟨hel, ?_⟩⟩
  · exact congrArg AddEmployee.Outcome.requests
      ((handleSubmit_gate (fun _ => .resolved) [] (fun _ _ => .resolved) {} {}).1.2.1
        (by decide))
  · have h := (handleSubmit_gate (fun _ => .resolved) [] (fun _ _ => .resolved)
      { form := sampleForm } {}).1.2.2 validate_sampleForm
    rw [h]
    simp only [hs]
  · have h := (handleSubmit_gate (fun _ => .resolved) [] (fun _ _ => .resolved)
      { form := largeSalaryForm } {}).1.2.2 validate_largeSalaryForm
    rw [h]
    simp only [hl]
    rfl
  · exact congrArg EditEmployee.Outcome.requests
      ((handleSubmit_gate (fun _ => .resolved) [] (fun _ _ => .resolved) {} {}).2.2.1
        (by decide))
  · have h := (handleSubmit_gate (fun _ => .resolved) [] (fun _ _ => .resolved) {}
      { form := sampleForm }).2.2.2 hes
    rw [h]
    simp only [hs]
  · have h := (handleSubmit_gate (fun _ => .resolved) [] (fun _ _ => .resolved) {}
      { form := largeSalaryForm }).2.2.2 hel
    rw [h]
    simp only [hl]
    rfl

namespace EmployeeList

/-- C1: an employee is in `filteredEmployees` exactly when it is in the cached list, the
lower-cased search term occurs in its lower-cased name, email or position, and the department
filter is empty or equals its department. -/
theorem filteredEmployees_mem_iff (employees : List Employee) (searchTerm filterDept : JSString)
    (emp : Employee) :
    emp ∈ filteredEmployees employees searchTerm filterDept ↔
      emp ∈ employees ∧
        ((toLowerCase searchTerm <:+: toLowerCase emp.name ∨
          toLowerCase searchTerm <:+: toLowerCase emp.email ∨
          toLowerCase searchTerm <:+: toLowerCase emp.position) ∧
         (filterDept = [] ∨ emp.department = filterDept)) := by
  simp [filteredEmployees, includes_iff_isInfix, or_assoc]

theorem filteredEmployees_mem_iff_witness :
    toLowerCase (js "JOSÉ") = js "josé" ∧ toLowerCase (js "ΟΔΟΣ") = js "οδος" ∧
    (filteredEmployees accentedEmployees (js "JOSÉ") []).map Employee._id
      = [js "j1", js "j2"] ∧
    smallLettersEmployee ∈ filteredEmployees accentedEmployees (js "JOSÉ") [] ∧
    capitalsEmployee ∈ filteredEmployees accentedEmployees (js "josé") (js "Engineering") ∧
    capitalsEmployee ∉ filteredEmployees accentedEmployees (js "josé") (js "engineering") ∧
    smallLettersEmployee ∉ filteredEmployees accentedEmployees (js "JOSE") [] :=
  ⟨by decide, by decide, by decide,
   (filteredEmployees_mem_iff accentedEmployees (js "JOSÉ") [] smallLettersEmployee).2
     ⟨by decide, Or.inl (by decide), Or.inl rfl⟩,
   (filteredEmployees_mem_iff accentedEmployees (js "josé") (js "Engineering")
     capitalsEmployee).2 ⟨by decide, Or.inl (by decide), Or.inr rfl⟩,
   fun h => absurd ((filteredEmployees_mem_iff accentedEmployees (js "josé")
     (js "engineering") capitalsEmployee).1 h).2.2 (by decide),
   fun h => absurd ((filteredEmployees_mem_iff accentedEmployees (js "JOSE") []
     smallLettersEmployee).1 h).2.1 (by decide)⟩

/-- C2: filtering by search term and department at once gives the same list, in the same
order, as filtering by the term alone and then by the department alone, or the other way
round. -/
theorem filteredEmployees_compose (employees : List Employee) (t d : JSString) :
    filteredEmployees employees t d
        = filteredEmployees (filteredEmployees employees t []) [] d ∧
    filteredEmployees employees t d
        = filteredEmployees (filteredEmployees employees [] d) t [] := by
  constructor
  · simp only [filteredEmployees, List.filter_filter]
    congr 1
    funext emp
    simp [toLowerCase_nil, includes_nil, Bool.and_comm]
  · simp only [filteredEmployees, List.filter_filter]
    congr 1
    funext emp
    simp [toLowerCase_nil, includes_nil]

/-- C3: with an empty search term and the "all departments" filter (the empty string) the
filtered list is the cached list itself. -/
theorem filteredEmployees_unfiltered (employees : List Employee) :
    filteredEmployees employees [] [] = employees := by
  simp [filteredEmployees, toLowerCase_nil, includes_nil]

/-- The search scenario of the spec: term `raj` with department `Engineering` keeps the one
engineer whose name contains `raj` in some letter case. -/
theorem filteredEmployees_scenario :
    (filteredEmployees scenarioEmployees (js "raj") (js "Engineering")).map Employee._id
      = [js "e1"] ∧
    (filteredEmployees scenarioEmployees (js "raj") []).map Employee._id
      = [js "e1", js "e2"] := by
  decide

end EmployeeList

/-! ### Rejected submissions -/

/-- C11: in both forms, when the form passes `validate` and the request is rejected,
`handleSubmit` ends with the form and the field errors as they were, `loading` false again
(it was true while the request was pending), no navigation, and a non-empty `serverError`:
the message of the response when it carries a non-empty one, the fixed fallback otherwise. -/
theorem handleSubmit_rejected (createEmployee : Form → ApiResult) (id : JSString)
    (updateEmployee : JSString → Form → ApiResult)
    (sa : AddEmployee.State) (se : EditEmployee.State) (message : Option String) :
    (AddEmployee.validate sa.form = {} →
      createEmployee { sa.form with salary := .num (Number sa.form.salary) }
        = .rejected message →
      (AddEmployee.handleSubmit createEmployee sa).state.form = sa.form ∧
      (AddEmployee.handleSubmit createEmployee sa).state.errors = sa.errors ∧
      (AddEmployee.handleSubmit createEmployee sa).state.loading = false ∧
      (AddEmployee.handleSubmit createEmployee sa).inFlight
        = some { sa with loading := true, serverError := "" } ∧
      (AddEmployee.handleSubmit createEmployee sa).navigate = none ∧
      (AddEmployee.handleSubmit createEmployee sa).state.serverError ≠ "" ∧
      (∀ m, message = some m → m ≠ "" →
        (AddEmployee.handleSubmit createEmployee sa).state.serverError = m) ∧
      (message = none ∨ message = some "" →
        (AddEmployee.handleSubmit createEmployee sa).state.serverError
          = "Failed to add employee. Please try again.")) ∧
    (EditEmployee.validate se.form = {} →
      updateEmployee id { se.form with salary := .num (Number se.form.salary) }
        = .rejected message →
      (EditEmployee.handleSubmit id updateEmployee se).state.form = se.form ∧
      (EditEmployee.handleSubmit id updateEmployee se).state.errors = se.errors ∧
      (EditEmployee.handleSubmit id updateEmployee se).state.loading = false ∧
      (EditEmployee.handleSubmit id updateEmployee se).inFlight
        = some { se with loading := true, serverError := "" } ∧
      (EditEmployee.handleSubmit id updateEmployee se).navigate = none ∧
      (EditEmployee.handleSubmit id updateEmployee se).state.serverError ≠ "" ∧
      (∀ m, message = some m → m ≠ "" →
        (EditEmployee.handleSubmit id updateEmployee se).state.serverError = m) ∧
      (message = none ∨ message = some "" →
        (EditEmployee.handleSubmit id updateEmployee se).state.serverError
          = "Failed to update employee. Please try again.")) := by
  constructor
  · intro hv
    have hk : ¬ (AddEmployee.validate sa.form).keys.length > 0 := by
      rw [keys_length_pos_iff]; exact fun hne => hne hv
    have hout : ∀ msg : Option String, createEmployee { sa.form with salary := .num (Number sa.form.salary) } = .rejected msg →
        AddEmployee.handleSubmit createEmployee sa
        = { inFlight := some { sa with loading := true, serverError := "" }
            state :=
              { sa with
                loading := false
                serverError :=
                  match msg with
                  | some m => if m ≠ "" then m else "Failed to add employee. Please try again."
                  | none => "Failed to add employee. Please try again." }
            requests := [{ sa.form with salary := .num (Number sa.form.salary) }]
            navigate := none } := by
      intro msg hmsg
      simp only [AddEmployee.handleSubmit, if_neg hk, hmsg]
    intro hr
    rw [hout message hr]
    refine ⟨rfl, rfl, rfl, rfl, rfl, ?_, ?_, ?_⟩
    · cases message with
      | none => simp
      | some m =>
        by_cases hm : m = ""
        · subst hm; simp
        · simp [hm]
    · intro m hm hne
      subst hm
      simp [hne]
    · rintro (rfl | rfl) <;> simp
  · intro hv
    have hk : ¬ (EditEmployee.validate se.form).keys.length > 0 := by
      rw [keys_length_pos_iff]; exact fun hne => hne hv
    have hout : ∀ msg : Option String, updateEmployee id { se.form with salary := .num (Number se.form.salary) } = .rejected msg →
        EditEmployee.handleSubmit id updateEmployee se
        = { inFlight := some { se with loading := true, serverError := "" }
            state :=
              { se with
                loading := false
                serverError :=
                  match msg with
                  | some m => if m ≠ "" then m else "Failed to update employee. Please try again."
                  | none => "Failed to update employee. Please try again." }
            requests := [(id, { se.form with salary := .num (Number se.form.salary) })]
            navigate := none } := by
      intro msg hmsg
      simp only [EditEmployee.handleSubmit, if_neg hk, hmsg]
    intro hr
    rw [hout message hr]
    refine ⟨rfl, rfl, rfl, rfl, rfl, ?_, ?_, ?_⟩
    · cases message with
      | none => simp
      | some m =>
        by_cases hm : m = ""
        · subst hm; simp
        · simp [hm]
    · intro m hm hne
      subst hm
      simp [hne]
    · rintro (rfl | rfl) <;> simp

theorem handleSubmit_rejected_witness :
    (AddEmployee.handleSubmit (fun _ => .rejected (some "Email already exists"))
        { form := sampleForm }).state.serverError = "Email already exists" ∧
    (EditEmployee.handleSubmit [] (fun _ _ => .rejected none)
        { form := sampleForm }).state.serverError
      = "Failed to update employee. Please try again." :=
  ⟨((handleSubmit_rejected (fun _ => .rejected (some "Email already exists")) []
        (fun _ _ => .rejected none) { form := sampleForm } { form := sampleForm }
        (some "Email already exists")).1 validate_sampleForm rfl).2.2.2.2.2.2.1
      "Email already exists" rfl (by decide),
   ((handleSubmit_rejected (fun _ => .rejected none) []
        (fun _ _ => .rejected none) { form := sampleForm } { form := sampleForm }
        none).2 (by decide) rfl).2.2.2.2.2.2.2 (Or.inl rfl)⟩

/-! ### Deleting from the cached list -/

namespace EmployeeList

/-- C12: with the modal holding the target id, a successful delete request leaves the cached
list without the entries whose `_id` is the target and with all others in their order, resets
the modal and shows the success toast; a rejected request leaves the cached list (and the
modal) as they were and shows the toast "Failed to delete employee" of type `error`. -/
theorem handleDeleteConfirm_effect (deleteEmployee : Option JSString → ApiResult) (st : State)
    (target : JSString) (hid : st.deleteModal.id = some target) :
    (deleteEmployee (some target) = .resolved →
      (handleDeleteConfirm deleteEmployee st).employees
        = st.employees.filter (fun e => decide (e._id ≠ target)) ∧
      (∀ e, e ∈ (handleDeleteConfirm deleteEmployee st).employees ↔
        e ∈ st.employees ∧ e._id ≠ target) ∧
      (handleDeleteConfirm deleteEmployee st).employees.Sublist st.employees ∧
      (handleDeleteConfirm deleteEmployee st).deleteModal
        = { shown := false, id := none, name := [] } ∧
      (handleDeleteConfirm deleteEmployee st).toast
        = { shown := true, message := "Employee deleted successfully", type := "success" }) ∧
    (∀ err, deleteEmployee (some target) = .rejected err →
      (handleDeleteConfirm deleteEmployee st).employees = st.employees ∧
      (handleDeleteConfirm deleteEmployee st).deleteModal = st.deleteModal ∧
      (handleDeleteConfirm deleteEmployee st).toast
        = { shown := true, message := "Failed to delete employee", type := "error" }) := by
  constructor
  · intro hok
    have hemp : (handleDeleteConfirm deleteEmployee st).employees
        = st.employees.filter (fun e => decide (e._id ≠ target)) := by
      simp only [handleDeleteConfirm, hid, hok, showToast]
      congr 1
      funext e
      simp
    refine ⟨hemp, ?_, ?_, ?_, ?_⟩
    · intro e
      rw [hemp]
      simp
    · rw [hemp]
      exact List.filter_sublist _
    · simp only [handleDeleteConfirm, hid, hok, showToast]
    · simp only [handleDeleteConfirm, hid, hok, showToast]
  · intro err herr
    have hout : handleDeleteConfirm deleteEmployee st
        = showToast "Failed to delete employee" "error" st := by
      simp only [handleDeleteConfirm, hid, herr]
    rw [hout]
    exact ⟨rfl, rfl, rfl⟩

theorem handleDeleteConfirm_effect_witness :
    ((handleDeleteConfirm (fun _ => .resolved)
        (handleDeleteClick (js "e2") (js "Meera Iyer")
          { employees := scenarioEmployees })).employees.map Employee._id
      = [js "e1", js "e3"]) ∧
    ((handleDeleteConfirm (fun _ => .rejected none)
        (handleDeleteClick (js "e2") (js "Meera Iyer")
          { employees := scenarioEmployees })).employees = scenarioEmployees) :=
  ⟨(congrArg (List.map Employee._id)
      ((handleDeleteConfirm_effect (fun _ => .resolved)
        (handleDeleteClick (js "e2") (js "Meera Iyer") { employees := scenarioEmployees })
        (js "e2") rfl).1 rfl).1).trans (by decide),
   ((handleDeleteConfirm_effect (fun _ => .rejected none)
      (handleDeleteClick (js "e2") (js "Meera Iyer") { employees := scenarioEmployees })
      (js "e2") rfl).2 none rfl).1⟩

/-! ### Derived statistics -/

theorem foldl_setValues_spec (xs acc : List JSString) (hacc : acc.Nodup) :
    (xs.foldl (fun acc x => if x ∈ acc then acc else acc ++ [x]) acc).Nodup ∧
    ∀ d, d ∈ xs.foldl (fun acc x => if x ∈ acc then acc else acc ++ [x]) acc ↔
      d ∈ acc ∨ d ∈ xs := by
  induction xs generalizing acc with
  | nil => simp [hacc]
  | cons x xs ih =>
    simp only [List.foldl_cons]
    by_cases hx : x ∈ acc
    · rw [if_pos hx]
      refine ⟨(ih acc hacc).1, fun d => ?_⟩
      rw [(ih acc hacc).2 d, List.mem_cons]
      constructor
      · rintro (h | h)
        · exact Or.inl h
        · exact Or.inr (Or.inr h)
      · rintro (h | rfl | h)
        · exact Or.inl h
        · exact Or.inl hx
        · exact Or.inr h
    · rw [if_neg hx]
      have hnd : (acc ++ [x]).Nodup := by
        rw [List.nodup_append]
        refine ⟨hacc, List.nodup_singleton x, ?_⟩
        intro a ha hb
        rw [List.mem_singleton] at hb
        subst hb
        exact hx ha
      refine ⟨(ih _ hnd).1, fun d => ?_⟩
      rw [(ih _ hnd).2 d, List.mem_append, List.mem_singleton, List.mem_cons]
      tauto

theorem setValues_nodup (xs : List JSString) : (setValues xs).Nodup :=
  (foldl_setValues_spec xs [] List.nodup_nil).1

theorem mem_setValues (xs : List JSString) (d : JSString) : d ∈ setValues xs ↔ d ∈ xs := by
  have h := (foldl_setValues_spec xs [] List.nodup_nil).2 d
  simpa [setValues] using h

/-- C14: `departments` has no repetition and holds exactly the department values of the cached
list, so its length is the number of distinct departments present and at most the number of
employees; the Active statistic counts the employees whose status is exactly `Active`, at most
the number of employees. -/
theorem departments_and_active (employees : List Employee) :
    (departments employees).Nodup ∧
    (∀ d, d ∈ departments employees ↔ ∃ e ∈ employees, e.department = d) ∧
    (departments employees).length
      = (employees.map fun e => e.department).toFinset.card ∧
    (departments employees).length ≤ employees.length ∧
    activeCount employees = employees.countP (fun e => decide (e.status = js "Active")) ∧
    activeCount employees ≤ employees.length := by
  have hcard : (departments employees).length
      = (employees.map fun e => e.department).toFinset.card := by
    unfold departments
    rw [← List.toFinset_card_of_nodup (setValues_nodup _)]
    congr 1
    ext d
    simp only [List.mem_toFinset]
    exact mem_setValues _ d
  refine ⟨setValues_nodup _, fun d => ?_, hcard, ?_, ?_, ?_⟩
  · simp [departments, mem_setValues]
  · rw [hcard]
    exact (List.toFinset_card_le _).trans (by simp)
  · simp [activeCount, List.countP_eq_length_filter]
  · exact (List.length_filter_le _ _)

end EmployeeList

/-! ### Populating the edit form -/

theorem headD_split (sep : Nat) (s : JSString) :
    (split sep s).headD [] = s.takeWhile (fun c => c != sep) := by
  induction s with
  | nil => rfl
  | cons c cs ih =>
    by_cases hc : c = sep
    · simp [split, hc]
    · have hb : (c != sep) = true := by simpa using hc
      rw [List.takeWhile_cons, if_pos hb, ← ih]
      simp only [split, if_neg hc]
      cases split sep cs <;> rfl

theorem takeWhile_append_cons (p : Nat → Bool) (a t : JSString) (b : Nat)
    (ha : ∀ x ∈ a, p x = true) (hb : p b = false) : (a ++ b :: t).takeWhile p = a := by
  induction a with
  | nil => simp [List.takeWhile, hb]
  | cons x a ih =>
    rw [List.cons_append, List.takeWhile_cons, if_pos (ha x (List.mem_cons_self _ _)),
      ih fun y hy => ha y (List.mem_cons_of_mem _ hy)]

theorem ne_T_of_isDatePortion (date : JSString) (h : isDatePortion date = true) :
    ∀ x ∈ date, (x != 84) = true := by
  match date, h with
  | [y1, y2, y3, y4, h1, m1, m2, h2, d1, d2], h =>
    simp only [isDatePortion, isDigit, Bool.and_eq_true, decide_eq_true_eq, beq_iff_eq] at h
    intro x hx
    simp only [List.mem_cons, List.mem_singleton, List.not_mem_nil, or_false] at hx
    simp only [bne_iff_ne, ne_eq]
    omega

namespace EditEmployee

/-- C20: in the form set by `fetchEmployee`, `joiningDate` is the text of the record's
`joiningDate` before its first `T`: for a `YYYY-MM-DD` text followed by `T` and a time it is
exactly the `YYYY-MM-DD` part; a missing `joiningDate` gives the empty string; every other
form field is the record's field as it is (`salary` as the number it is). -/
theorem fetchedForm_fields (emp : Employee) :
    (∀ date time : JSString, isDatePortion date = true →
      emp.joiningDate = some (date ++ 84 :: time) → (fetchedForm emp).joiningDate = date) ∧
    (∀ d : JSString, emp.joiningDate = some d →
      (fetchedForm emp).joiningDate = d.takeWhile (fun c => c != 84)) ∧
    (emp.joiningDate = none → (fetchedForm emp).joiningDate = []) ∧
    (fetchedForm emp).name = emp.name ∧ (fetchedForm emp).email = emp.email ∧
    (fetchedForm emp).phone = emp.phone ∧ (fetchedForm emp).department = emp.department ∧
    (fetchedForm emp).position = emp.position ∧
    (fetchedForm emp).salary = .num emp.salary ∧ (fetchedForm emp).status = emp.status := by
  have hgen : ∀ d : JSString, emp.joiningDate = some d →
      (fetchedForm emp).joiningDate = d.takeWhile (fun c => c != 84) := by
    intro d hd
    simp only [fetchedForm, hd]
    cases d with
    | nil => rfl
    | cons c cs =>
      rw [← headD_split]
      simp [truthy]
  refine ⟨?_, hgen, ?_, rfl, rfl, rfl, rfl, rfl, rfl, rfl⟩
  · intro date time hdate hj
    rw [hgen _ hj]
    exact takeWhile_append_cons _ date time 84 (ne_T_of_isDatePortion date hdate) (by decide)
  · intro hnone
    simp only [fetchedForm, hnone]

theorem fetchedForm_fields_witness :
    (fetchedForm zeroSalaryEmployee).joiningDate = js "2024-01-15" ∧
    (fetchedForm { zeroSalaryEmployee with joiningDate := none }).joiningDate = [] :=
  ⟨(fetchedForm_fields zeroSalaryEmployee).1 (js "2024-01-15") (js "00:00:00.000Z")
      (by decide) (by decide),
   (fetchedForm_fields { zeroSalaryEmployee with joiningDate := none }).2.2.1 rfl⟩

end EditEmployee

/-! ### Number arithmetic and the average salary -/

/-- Dividing a positive integer below `2^52` by a positive integer below `2^32` gives a Number
value on the same side of every half-integer as the exact quotient. -/
theorem toDouble_div_bounds (s n : ℕ) (hs : 0 < s) (hn : 0 < n) (hs52 : s < 2 ^ 52)
    (hn32 : n < 2 ^ 32) :
    ∃ r : ℚ, toDouble ((s : ℚ) / n) = .val r ∧ 0 ≤ r ∧
      (⌊(s : ℚ) / n + 1 / 2⌋ : ℚ) - 1 / 2 ≤ r ∧ r < (⌊(s : ℚ) / n + 1 / 2⌋ : ℚ) + 1 / 2 := by
  have hsq : (0 : ℚ) < s := by exact_mod_cast hs
  have hnq : (0 : ℚ) < n := by exact_mod_cast hn
  have hs52q : (s : ℚ) < 2 ^ 52 := by exact_mod_cast hs52
  have hn32q : (n : ℚ) < 2 ^ 32 := by exact_mod_cast hn32
  have hn1 : (1 : ℚ) ≤ n := by exact_mod_cast hn
  have hs1 : (1 : ℚ) ≤ s := by exact_mod_cast hs
  set x : ℚ := (s : ℚ) / n with hx
  have hxpos : 0 < x := div_pos hsq hnq
  set k : ℤ := ⌊x + 1 / 2⌋ with hkdef
  have hk1 : (k : ℚ) ≤ x + 1 / 2 := Int.floor_le _
  have hk2 : x + 1 / 2 < k + 1 := Int.lt_floor_add_one _
  -- the binade of the quotient
  have hxlt : x < 2 ^ 52 := by
    have : x ≤ s := div_le_self hsq.le hn1
    linarith
  have hxge : (2 : ℚ) ^ (-32 : ℤ) ≤ x := by
    rw [hx, le_div_iff₀ hnq]
    have : (2 : ℚ) ^ (-32 : ℤ) * n ≤ 1 := by
      rw [zpow_neg, inv_mul_le_iff₀ (by positivity)]
      norm_num
      linarith
    linarith
  have he_hi : Int.log 2 x < 52 :=
    (Int.lt_zpow_iff_log_lt (by norm_num) hxpos).1 (by exact_mod_cast hxlt)
  have he_lo : -32 ≤ Int.log 2 x :=
    (Int.zpow_le_iff_le_log (by norm_num) hxpos).1 (by exact_mod_cast hxge)
  have hpow_le : (2 : ℚ) ^ Int.log 2 x ≤ x := by
    have := Int.zpow_log_le_self (b := 2) (by norm_num) hxpos
    exact_mod_cast this
  obtain ⟨t, ht⟩ : ∃ t : ℕ, Int.log 2 x + (t : ℤ) = 51 := ⟨(51 - Int.log 2 x).toNat, by omega⟩
  have hQ : (2 : ℚ) ^ (Int.log 2 x - 52) = (2 * (2 : ℚ) ^ t)⁻¹ := by
    have : Int.log 2 x - 52 = -((t : ℤ) + 1) := by omega
    rw [this, zpow_neg, zpow_add_one₀ (by norm_num), zpow_natCast, mul_comm]
  have hTpos : (0 : ℚ) < 2 ^ t := by positivity
  -- n * quantum < 1
  have hnQ : (n : ℚ) < 2 * 2 ^ t := by
    have h52 : (2 : ℚ) ^ Int.log 2 x = 2 ^ (52 : ℤ) * (2 * (2 : ℚ) ^ t)⁻¹ := by
      rw [← hQ, ← zpow_add₀ (by norm_num)]
      congr 1
      omega
    rw [h52, hx, le_div_iff₀ hnq] at hpow_le
    have h3 : (2 : ℚ) ^ (52 : ℤ) * n ≤ s * (2 * 2 ^ t) := by
      have := mul_le_mul_of_nonneg_right hpow_le (show (0 : ℚ) ≤ 2 * 2 ^ t by positivity)
      have e : (2 : ℚ) ^ (52 : ℤ) * (2 * 2 ^ t)⁻¹ * n * (2 * 2 ^ t) = 2 ^ (52 : ℤ) * n := by
        field_simp
      linarith
    have h4 : (s : ℚ) * (2 * 2 ^ t) < 2 ^ (52 : ℤ) * (2 * 2 ^ t) := by
      apply mul_lt_mul_of_pos_right _ (by positivity)
      exact_mod_cast hs52q
    have h5 : (2 : ℚ) ^ (52 : ℤ) * n < 2 ^ (52 : ℤ) * (2 * 2 ^ t) := lt_of_le_of_lt h3 h4
    exact lt_of_mul_lt_mul_left h5 (by positivity)
  set y : ℚ := x / 2 ^ (Int.log 2 x - 52) with hy
  have hyeq : y = x * (2 * 2 ^ t) := by rw [hy, hQ, div_inv_eq_mul]
  have hrhe := abs_le.1 (roundHalfEven_sub_le y)
  -- (2k+1) n - 2 s ≥ 1
  have hgap : 2 * (s : ℚ) + 1 ≤ (2 * k + 1) * n := by
    have h1 : (2 * (s : ℤ)) < (2 * k + 1) * n := by
      have : 2 * (s : ℚ) < (2 * k + 1) * n := by
        have : x < k + 1 / 2 := by linarith
        rw [hx, div_lt_iff₀ hnq] at this
        linarith
      exact_mod_cast this
    have h2 : 2 * (s : ℤ) + 1 ≤ (2 * k + 1) * n := by omega
    exact_mod_cast h2
  have hylt : y + 1 / 2 < ((2 * k + 1) * 2 ^ t : ℚ) := by
    rw [hyeq]
    have hxn : x * n = s := by rw [hx]; field_simp
    have h1 : x * (2 * 2 ^ t) * n + 2 ^ t ≤ (2 * k + 1) * 2 ^ t * n := by
      have : x * (2 * 2 ^ t) * n = 2 * s * 2 ^ t := by rw [← hxn]; ring
      rw [this]
      have := mul_le_mul_of_nonneg_right hgap hTpos.le
      linarith
    have h2 : (1 / 2 : ℚ) * n < 2 ^ t := by linarith
    have h3 : (x * (2 * 2 ^ t) + 1 / 2) * n < (2 * k + 1) * 2 ^ t * n := by
      have : (x * (2 * 2 ^ t) + 1 / 2) * n = x * (2 * 2 ^ t) * n + 1 / 2 * n := by ring
      linarith
    exact lt_of_mul_lt_mul_right h3 hnq.le
  have hyge : ((2 * k - 1) * 2 ^ t : ℚ) ≤ y := by
    rw [hyeq]
    have : (k : ℚ) - 1 / 2 ≤ x := by linarith
    have := mul_le_mul_of_nonneg_right this (show (0 : ℚ) ≤ 2 * 2 ^ t by positivity)
    linarith
  have hm_lo : (2 * k - 1) * 2 ^ t ≤ roundHalfEven y := by
    have : (((2 * k - 1) * 2 ^ t : ℤ) : ℚ) - 1 < (roundHalfEven y : ℚ) := by
      push_cast
      linarith [hrhe.1]
    have : (2 * k - 1) * 2 ^ t - 1 < roundHalfEven y := by exact_mod_cast this
    omega
  have hm_lo_q : ((2 * k - 1) * 2 ^ t : ℚ) ≤ (roundHalfEven y : ℚ) := by exact_mod_cast hm_lo
  have hm_hi : (roundHalfEven y : ℚ) < (2 * k + 1) * 2 ^ t := by linarith [hrhe.2]
  have hm_nonneg : (0 : ℚ) ≤ roundHalfEven y := by
    have hy0 : 0 < y := by rw [hyeq]; positivity
    have : ((-1 : ℤ) : ℚ) < (roundHalfEven y : ℚ) := by push_cast; linarith [hrhe.1]
    have : (-1 : ℤ) < roundHalfEven y := by exact_mod_cast this
    have : (0 : ℤ) ≤ roundHalfEven y := by omega
    exact_mod_cast this
  have hQpos : (0 : ℚ) < (2 * 2 ^ t)⁻¹ := by positivity
  have hr_lo : (k : ℚ) - 1 / 2 ≤ (roundHalfEven y : ℚ) * (2 * 2 ^ t)⁻¹ := by
    have := mul_le_mul_of_nonneg_right hm_lo_q hQpos.le
    have e : ((2 * k - 1) * 2 ^ t : ℚ) * (2 * 2 ^ t)⁻¹ = k - 1 / 2 := by
      field_simp
      ring
    linarith
  have hr_hi : (roundHalfEven y : ℚ) * (2 * 2 ^ t)⁻¹ < k + 1 / 2 := by
    have := mul_lt_mul_of_pos_right hm_hi hQpos
    have e : ((2 * k + 1) * 2 ^ t : ℚ) * (2 * 2 ^ t)⁻¹ = k + 1 / 2 := by
      field_simp
      ring
    linarith
  refine ⟨(roundHalfEven y : ℚ) * (2 * 2 ^ t)⁻¹, ?_, mul_nonneg hm_nonneg hQpos.le, hr_lo,
    hr_hi⟩
  rw [toDouble_of_pos x hxpos (by omega), ← hy, hQ]
  rw [← hy, hQ]
  have : (k : ℚ) < 2 ^ 52 + 1 := by linarith
  have h1024 : (2 : ℚ) ^ 52 + 1 + 1 / 2 < 2 ^ 1024 := by norm_num
  linarith

theorem roundHalfEven_eq_of_abs_sub_lt (y : ℚ) (m : ℤ) (h : |y - m| < 1 / 2) :
    roundHalfEven y = m := by
  have h1 := abs_le.1 (roundHalfEven_sub_le y)
  have h2 := abs_lt.1 h
  have a : ((m - 1 : ℤ) : ℚ) < (roundHalfEven y : ℚ) := by push_cast; linarith [h1.1, h2.1]
  have b : (roundHalfEven y : ℚ) < ((m + 1 : ℤ) : ℚ) := by push_cast; linarith [h1.2, h2.2]
  have a' : m - 1 < roundHalfEven y := by exact_mod_cast a
  have b' : roundHalfEven y < m + 1 := by exact_mod_cast b
  omega

namespace EmployeeList

theorem salarySum_natCast (employees : List Employee)
    (hnat : ∀ e ∈ employees, ∃ n : ℕ, e.salary = .val n) :
    ∃ m : ℕ, salarySum employees = m := by
  induction employees with
  | nil => exact ⟨0, by simp [salarySum]⟩
  | cons e es ih =>
    obtain ⟨m, hm⟩ := ih fun x hx => hnat x (List.mem_cons_of_mem _ hx)
    obtain ⟨n, hn⟩ := hnat e (List.mem_cons_self _ _)
    refine ⟨n + m, ?_⟩
    simp only [salarySum, List.map_cons, List.sum_cons] at hm ⊢
    rw [hm, hn]
    simp [JSNumber.toRat]

/-- Adding up integer salaries is exact as long as the total stays below `2^53`. -/
theorem foldl_add_salaries (employees : List Employee) (acc : ℕ)
    (hnat : ∀ e ∈ employees, ∃ n : ℕ, e.salary = .val n)
    (hsum : (acc : ℚ) + salarySum employees < 2 ^ 53) :
    employees.foldl (fun s e => JSNumber.add s e.salary) (.val acc)
      = .val (acc + salarySum employees) := by
  induction employees generalizing acc with
  | nil => simp [salarySum]
  | cons e es ih =>
    obtain ⟨m, hm⟩ := salarySum_natCast es fun x hx => hnat x (List.mem_cons_of_mem _ hx)
    obtain ⟨n, hn⟩ := hnat e (List.mem_cons_self _ _)
    have hcons : salarySum (e :: es) = n + salarySum es := by
      simp [salarySum, hn, JSNumber.toRat]
    rw [hcons] at hsum ⊢
    have hlt : acc + n < 2 ^ 53 := by
      have : ((acc + n : ℕ) : ℚ) < 2 ^ 53 := by
        push_cast
        have : (0 : ℚ) ≤ salarySum es := by rw [hm]; positivity
        linarith
      exact_mod_cast this
    have hstep : JSNumber.add (.val acc) e.salary = .val ((acc + n : ℕ) : ℚ) := by
      rw [hn]
      show toDouble ((acc : ℚ) + n) = _
      rw [← Nat.cast_add, toDouble_natCast _ hlt]
    rw [List.foldl_cons, hstep, ih (acc + n) (fun x hx => hnat x (List.mem_cons_of_mem _ hx))
      (by push_cast; linarith)]
    push_cast
    rw [add_assoc]

/-- C13, amended: the empty list shows the placeholder and a non-empty list shows a number. For
a non-empty list of fewer than `2^32` employees whose salaries are non-negative integers with
a total below `2^52`, the number shown is the sum divided by the length, rounded to the
nearest integer with halves going up, which is within one half of the exact mean. -/
theorem avgSalary_spec (employees : List Employee) :
    (employees = [] → avgSalary employees = .placeholder) ∧
    (employees ≠ [] → ∃ n, avgSalary employees = .rupees n) ∧
    (employees ≠ [] → employees.length < 2 ^ 32 →
      (∀ e ∈ employees, ∃ n : ℕ, e.salary = .val n) → salarySum employees < 2 ^ 52 →
      avgSalary employees
        = .rupees (.val ⌊salarySum employees / employees.length + 1 / 2⌋) ∧
      |(⌊salarySum employees / employees.length + 1 / 2⌋ : ℚ)
        - salarySum employees / employees.length| ≤ 1 / 2) := by
  have htruthy : employees ≠ [] → (JSNumber.val employees.length).truthy = true := by
    intro hne
    have : employees.length ≠ 0 := fun h => hne (List.length_eq_zero.1 h)
    simp [JSNumber.truthy, this]
  refine ⟨?_, ?_, ?_⟩
  · rintro rfl
    simp [avgSalary, JSNumber.truthy]
  · intro hne
    exact ⟨_, by rw [avgSalary, if_pos (htruthy hne)]⟩
  · intro hne hlen hnat hsum
    have hnpos : 0 < employees.length := List.length_pos.2 hne
    have hnq : (0 : ℚ) < employees.length := by exact_mod_cast hnpos
    obtain ⟨s, hs⟩ := salarySum_natCast employees hnat
    have hfloor1 := Int.floor_le (salarySum employees / employees.length + 1 / 2)
    have hfloor2 := Int.lt_floor_add_one (salarySum employees / employees.length + 1 / 2)
    refine ⟨?_, ?_⟩
    swap
    · rw [abs_le]
      constructor <;> linarith
    have hfold : employees.foldl (fun s e => JSNumber.add s e.salary) (.val 0)
        = .val (s : ℚ) := by
      have := foldl_add_salaries employees 0 hnat (by push_cast; linarith)
      simpa [hs] using this
    rw [avgSalary, if_pos (htruthy hne), hfold, hs]
    congr 1
    have hs52 : s < 2 ^ 52 := by
      have : (s : ℚ) < 2 ^ 52 := by rw [← hs]; exact hsum
      exact_mod_cast this
    rcases Nat.eq_zero_or_pos s with rfl | hspos
    · have : JSNumber.div (.val ((0 : ℕ) : ℚ)) (.val (employees.length : ℚ)) = .val 0 := by
        simp [JSNumber.div, JSNumber.signBit, JSNumber.isInfinite, JSNumber.isZero, hnq.ne',
          not_lt.2 hnq.le]
      rw [this]
      simp [mathRound]
    · obtain ⟨r, hr, hr0, hrlo, hrhi⟩ :=
        toDouble_div_bounds s employees.length hspos hnpos hs52 hlen
      have hsq : (0 : ℚ) < s := by exact_mod_cast hspos
      have hdiv : JSNumber.div (.val (s : ℚ)) (.val (employees.length : ℚ)) = .val r := by
        simp [JSNumber.div, JSNumber.signBit, JSNumber.isInfinite, JSNumber.isZero, hnq.ne',
          hsq.ne', not_lt.2 hnq.le, not_lt.2 hsq.le, JSNumber.toRat, hr]
      rw [hdiv]
      simp only [mathRound]
      rw [if_neg (fun h => absurd h.1 (not_lt.2 hr0))]
      have hk : ⌊r + 1 / 2⌋ = ⌊(s : ℚ) / employees.length + 1 / 2⌋ := by
        rw [Int.floor_eq_iff]
        constructor <;> linarith
      rw [hk]

/-- C13, as the claim states it, fails for large salaries: for the salaries `2^51`, `2^51` and
`2^51 + 1` the exact mean is `2^51 + 1/3`, which rounds to `2^51`, but the Number quotient is
`2^51 + 1/2` and the card shows `2^51 + 1`, more than one half away from the mean. -/
theorem avgSalary_large_salaries :
    avgSalary largeSalaryEmployees = .rupees (.val 2251799813685249) ∧
    salarySum largeSalaryEmployees / largeSalaryEmployees.length
      = 2251799813685248 + 1 / 3 ∧
    ⌊salarySum largeSalaryEmployees / largeSalaryEmployees.length + 1 / 2⌋
      = 2251799813685248 ∧
    1 / 2 < |(2251799813685249 : ℚ)
      - salarySum largeSalaryEmployees / largeSalaryEmployees.length| := by
  have hsum : salarySum largeSalaryEmployees = 6755399441055745 := by
    simp [salarySum, largeSalaryEmployees, JSNumber.toRat]
    norm_num
  have hlen : largeSalaryEmployees.length = 3 := rfl
  have hmean : salarySum largeSalaryEmployees / largeSalaryEmployees.length
      = 2251799813685248 + 1 / 3 := by
    rw [hsum, hlen]; norm_num
  have hnat : ∀ e ∈ largeSalaryEmployees, ∃ n : ℕ, e.salary = .val n := by
    intro e he
    simp only [largeSalaryEmployees, List.mem_cons, List.mem_singleton, List.not_mem_nil,
      or_false] at he
    rcases he with rfl | rfl | rfl
    · exact ⟨2251799813685248, by simp⟩
    · exact ⟨2251799813685248, by simp⟩
    · exact ⟨2251799813685249, by simp⟩
  have hfold : largeSalaryEmployees.foldl (fun s e => JSNumber.add s e.salary) (.val 0)
      = .val 6755399441055745 := by
    have := foldl_add_salaries largeSalaryEmployees 0 hnat (by rw [hsum]; norm_num)
    simpa [hsum] using this
  have hlog : Int.log 2 ((6755399441055745 : ℚ) / 3) = 51 :=
    log_two_eq _ 51 (by norm_num) (by norm_num) (by norm_num)
  have hrhe : roundHalfEven ((6755399441055745 : ℚ) / 3 / 2 ^ ((51 : ℤ) - 52))
      = 4503599627370497 :=
    roundHalfEven_eq_of_abs_sub_lt _ _ (by
      rw [abs_lt]
      constructor <;> norm_num)
  have hdouble : toDouble ((6755399441055745 : ℚ) / 3) = .val (4503599627370497 / 2) := by
    rw [toDouble_of_pos _ (by norm_num) (by rw [hlog]; norm_num)]
    · rw [hlog, hrhe]
      norm_num
    · rw [hlog, hrhe]
      norm_num
  have hdiv : JSNumber.div (.val 6755399441055745) (.val ((3 : ℕ) : ℚ))
      = .val (4503599627370497 / 2) := by
    simp [JSNumber.div, JSNumber.signBit, JSNumber.isInfinite, JSNumber.isZero, JSNumber.toRat,
      hdouble]
  refine ⟨?_, hmean, ?_, ?_⟩
  · have ht : (JSNumber.val largeSalaryEmployees.length).truthy = true := by
      simp [JSNumber.truthy, hlen]
    rw [avgSalary, if_pos ht, hfold, hlen, hdiv]
    congr 1
    simp only [mathRound]
    rw [if_neg (by norm_num)]
    have hk : ⌊(4503599627370497 : ℚ) / 2 + 1 / 2⌋ = 2251799813685249 := by
      rw [Int.floor_eq_iff]
      constructor <;> norm_num
    rw [hk]
    norm_num
  · rw [hmean, Int.floor_eq_iff]
    constructor <;> norm_num
  · rw [hmean, lt_abs]
    left
    norm_num

theorem avgSalary_spec_witness :
    avgSalary twoSalaryEmployees = .rupees (.val 55001) ∧ avgSalary [] = .placeholder := by
  have hsum : salarySum twoSalaryEmployees = 110001 := by
    simp [salarySum, twoSalaryEmployees, JSNumber.toRat]
    norm_num
  have hlen : twoSalaryEmployees.length = 2 := rfl
  have h := (avgSalary_spec twoSalaryEmployees).2.2 (by decide) (by decide)
    (fun e he => by
      simp only [twoSalaryEmployees, List.mem_cons, List.mem_singleton, List.not_mem_nil,
        or_false] at he
      rcases he with rfl | rfl
      · exact ⟨50000, by simp⟩
      · exact ⟨60001, by simp⟩)
    (by rw [hsum]; norm_num)
  refine ⟨?_, (avgSalary_spec []).1 rfl⟩
  have hk : ⌊salarySum twoSalaryEmployees / twoSalaryEmployees.length + 1 / 2⌋ = 55001 := by
    rw [hsum, hlen, Int.floor_eq_iff]
    constructor <;> norm_num
  rw [h.1, hk]
  norm_num

end EmployeeList

open EmployeeModel Router

/-! ### The API handlers -/

theorem orderedInsert_of_forall_not (r : Document → Document → Prop) [DecidableRel r]
    (a : Document) (l : List Document) (h : ∀ b ∈ l, ¬ r a b) :
    l.orderedInsert r a = l ++ [a] := by
  induction l with
  | nil => rfl
  | cons b l ih =>
    rw [List.orderedInsert, if_neg (h b (List.mem_cons_self _ _)),
      ih fun c hc => h c (List.mem_cons_of_mem _ hc)]
    rfl

theorem findSorted_of_increasing (store : Collection)
    (h : store.Pairwise fun a b => a.createdAt < b.createdAt) :
    findSorted store = store.reverse := by
  induction store with
  | nil => rfl
  | cons a l ih =>
    rw [List.pairwise_cons] at h
    have ih' := ih h.2
    unfold findSorted at ih' ⊢
    rw [List.insertionSort, ih', List.reverse_cons]
    apply orderedInsert_of_forall_not
    intro b hb
    exact not_le.2 (h.1 b (List.mem_reverse.1 hb))

namespace Router

/-- C19: for every collection, so after any sequence of creates, the list handler answers
with status 200 and `success: true`; its `data` holds every stored employee exactly once, in
order of descending `createdAt`, and `count` is the length of `data`. When the creation times
strictly increase along the insertion order, `data` is the collection newest first. -/
theorem getAll_sorted (store : Collection) :
    (getAll store).status = 200 ∧ (getAll store).success = true ∧
    (getAll store).message = none ∧
    (∃ docs, (getAll store).data = some (.many docs) ∧
      (getAll store).count = some docs.length ∧ docs.Perm store ∧
      docs.Sorted fun a b => b.createdAt ≤ a.createdAt) ∧
    (store.Pairwise (fun a b => a.createdAt < b.createdAt) →
      (getAll store).data = some (.many store.reverse)) := by
  haveI : IsTotal Document (fun a b => b.createdAt ≤ a.createdAt) :=
    ⟨fun a b => le_total _ _⟩
  haveI : IsTrans Document (fun a b => b.createdAt ≤ a.createdAt) :=
    ⟨fun a b c hab hbc => le_trans hbc hab⟩
  refine ⟨rfl, rfl, rfl, ⟨findSorted store, rfl, rfl, ?_, ?_⟩, ?_⟩
  · exact List.perm_insertionSort _ _
  · exact List.sorted_insertionSort _ _
  · intro h
    simp only [getAll, findSorted_of_increasing store h]

theorem getAll_sorted_witness :
    (getAll [sampleDocument, { sampleDocument with _id := otherId, createdAt := 2000 }]).data
      = some (.many [{ sampleDocument with _id := otherId, createdAt := 2000 },
          sampleDocument]) :=
  (getAll_sorted [sampleDocument, { sampleDocument with _id := otherId, createdAt := 2000 }]
    ).2.2.2.2 (by decide)

end Router

theorem any_email_eq_false_iff (store : Collection) (email : JSString) :
    store.any (fun d => d.email == email) = false ↔ ∀ d ∈ store, d.email ≠ email := by
  simp [List.any_eq_false]

/-- A payload passes document validation exactly when every required path is present and
meets its rule, and `status`, if present, is in its enumeration. -/
theorem validateDocument_eq_nil_iff (castDate : JSString → Option Int) (p : Payload) :
    validateDocument castDate p = [] ↔
      (∃ v, p.name = some v ∧ v ≠ []) ∧ (∃ v, p.email = some v ∧ v ≠ []) ∧
      (∃ v, p.phone = some v ∧ v ≠ []) ∧
      (∃ v, p.department = some v ∧ v ∈ departmentEnum) ∧
      (∃ v, p.position = some v ∧ v ≠ []) ∧
      (∃ v, p.salary = some v ∧ v.geZero = true) ∧
      (∃ v t, p.joiningDate = some v ∧ castDate v = some t) ∧
      (∀ v, p.status = some v → v ∈ statusEnum) := by
  have hdep : ∀ v : JSString, v ∈ departmentEnum → v ≠ [] := by
    intro v hv h0
    rw [h0] at hv
    revert hv
    decide
  obtain ⟨name, email, phone, department, position, salary, joiningDate, status⟩ := p
  simp only [validateDocument, List.append_eq_nil]
  constructor
  · rintro ⟨⟨⟨⟨⟨⟨⟨h1, h2⟩, h3⟩, h4⟩, h5⟩, h6⟩, h7⟩, h8⟩
    refine ⟨?_, ?_, ?_, ?_, ?_, ?_, ?_, ?_⟩
    · cases name with
      | none => simp at h1
      | some v => exact ⟨v, rfl, by cases v <;> simp_all [truthy]⟩
    · cases email with
      | none => simp at h2
      | some v => exact ⟨v, rfl, by cases v <;> simp_all [truthy]⟩
    · cases phone with
      | none => simp at h3
      | some v => exact ⟨v, rfl, by cases v <;> simp_all [truthy]⟩
    · cases department with
      | none => simp at h4
      | some v =>
        refine ⟨v, rfl, ?_⟩
        by_contra hne
        simp [hne] at h4
    · cases position with
      | none => simp at h5
      | some v => exact ⟨v, rfl, by cases v <;> simp_all [truthy]⟩
    · cases salary with
      | none => simp at h6
      | some v =>
        refine ⟨v, rfl, ?_⟩
        by_contra hne
        simp [hne] at h6
    · cases joiningDate with
      | none => simp at h7
      | some v =>
        cases hc : castDate v with
        | none => simp [hc] at h7
        | some t => exact ⟨v, t, rfl, hc⟩
    · intro v hv
      cases status with
      | none => cases hv
      | some w =>
        cases hv
        by_contra hne
        simp [hne] at h8
  · rintro ⟨⟨v1, h1, n1⟩, ⟨v2, h2, n2⟩, ⟨v3, h3, n3⟩, ⟨v4, h4, n4⟩, ⟨v5, h5, n5⟩, ⟨v6, h6, n6⟩,
      ⟨v7, t, h7, n7⟩, h8⟩
    subst h1 h2 h3 h4 h5 h6 h7
    have t1 : truthy v1 = true := by cases v1 <;> simp_all [truthy]
    have t2 : truthy v2 = true := by cases v2 <;> simp_all [truthy]
    have t3 : truthy v3 = true := by cases v3 <;> simp_all [truthy]
    have t4 : truthy v4 = true := by
      have := hdep v4 n4
      cases v4 <;> simp_all [truthy]
    have t5 : truthy v5 = true := by cases v5 <;> simp_all [truthy]
    refine ⟨⟨⟨⟨⟨⟨⟨?_, ?_⟩, ?_⟩, ?_⟩, ?_⟩, ?_⟩, ?_⟩, ?_⟩
    · simp [t1]
    · simp [t2]
    · simp [t3]
    · simp [t4, n4]
    · simp [t5]
    · simp [n6]
    · simp [n7]
    · cases status with
      | none => rfl
      | some w => simp [h8 w rfl]

/-- `create` written out: a validation error when a path fails, else the duplicate-key error
when the normalised e-mail is already stored, else the new document appended. -/
theorem create_eq (castDate : JSString → Option Int) (now : Int) (newId : JSString)
    (store : Collection) (body : Payload) :
    (validateDocument castDate (applyDefaults (applySetters body)) ≠ [] →
      create castDate now newId store body
        = .error (.validation (validateDocument castDate (applyDefaults (applySetters body))))) ∧
    (validateDocument castDate (applyDefaults (applySetters body)) = [] →
      ∃ name email phone department position salary joiningDate t doc,
        body.name = some name ∧ body.email = some email ∧ body.phone = some phone ∧
        body.department = some department ∧ body.position = some position ∧
        body.salary = some salary ∧ body.joiningDate = some joiningDate ∧
        castDate joiningDate = some t ∧
        doc = { _id := newId, name := trim name, email := toLowerCase (trim email),
                phone := trim phone, department := department, position := trim position,
                salary := salary, joiningDate := t,
                status := body.status.getD (js "Active"), createdAt := now,
                updatedAt := now } ∧
        create castDate now newId store body
          = if store.any (fun d => d.email == toLowerCase (trim email)) then
              .error .duplicateKey
            else .ok (doc, store ++ [doc])) := by
  constructor
  · intro hne
    unfold create
    simp only
    split
    · rw [if_pos hne]
    · rfl
  · intro hnil
    have h := (validateDocument_eq_nil_iff castDate _).1 hnil
    obtain ⟨⟨v1, h1, -⟩, ⟨v2, h2, -⟩, ⟨v3, h3, -⟩, ⟨v4, h4, -⟩, ⟨v5, h5, -⟩, ⟨v6, h6, -⟩,
      ⟨v7, t, h7, ht⟩, -⟩ := h
    obtain ⟨name, email, phone, department, position, salary, joiningDate, status⟩ := body
    simp only [applyDefaults, applySetters, Option.map_eq_some'] at h1 h2 h3 h4 h5 h6 h7
    obtain ⟨name, rfl, rfl⟩ := h1
    obtain ⟨email, rfl, rfl⟩ := h2
    obtain ⟨phone, rfl, rfl⟩ := h3
    obtain ⟨position, rfl, rfl⟩ := h5
    subst h4 h6 h7
    refine ⟨name, email, phone, v4, position, v6, v7, t, _, rfl, rfl, rfl, rfl, rfl, rfl, rfl,
      ht, rfl, ?_⟩
    have hnil' := hnil
    simp only [applyDefaults, applySetters, Option.map_some'] at hnil'
    unfold create
    simp only [applyDefaults, applySetters, Option.map_some', Option.some_bind, ht, hnil',
      ne_eq, not_true_eq_false, if_false]

theorem find?_append_new (store : Collection) (doc : Document) (id : JSString)
    (hid : doc._id = id) (hfresh : ∀ d ∈ store, d._id ≠ id) :
    (store ++ [doc]).find? (fun d => d._id == id) = some doc := by
  have hnone : store.find? (fun d => d._id == id) = none := by
    rw [List.find?_eq_none]
    intro d hd
    simpa using hfresh d hd
  rw [List.find?_append, hnone]
  simp [hid]

namespace Router

/-- C18: `post` answers 201 exactly for a payload that passes validation and whose normalised
e-mail is not stored yet. The document it then returns and appends to the collection has the
new id, `name`, `phone` and `position` trimmed, `email` trimmed and lower-cased, `department`
and `salary` as sent, the cast `joiningDate`, and `status` as sent or `Active` when absent;
when the new id is an ObjectId not in use, fetching by it returns that document. -/
theorem post_created (castDate : JSString → Option Int) (now : Int) (newId : JSString)
    (store : Collection) (body : Payload) :
    ((post castDate now newId store body).1.status = 201 ↔
      validateDocument castDate (applyDefaults (applySetters body)) = [] ∧
      ∀ d ∈ store, some d.email ≠ body.email.map fun e => toLowerCase (trim e)) ∧
    ((post castDate now newId store body).1.status = 201 →
      ∃ doc : Document,
        post castDate now newId store body
          = ({ status := 201, success := true, data := some (.one doc) }, store ++ [doc]) ∧
        doc._id = newId ∧ doc.createdAt = now ∧ doc.updatedAt = now ∧
        body.name.map trim = some doc.name ∧
        (body.email.map fun e => toLowerCase (trim e)) = some doc.email ∧
        body.phone.map trim = some doc.phone ∧
        body.position.map trim = some doc.position ∧
        body.department = some doc.department ∧
        body.salary = some doc.salary ∧
        body.joiningDate.bind castDate = some doc.joiningDate ∧
        doc.status = body.status.getD (js "Active") ∧
        (body.status = none → doc.status = js "Active") ∧
        (castObjectId newId = some newId → (∀ d ∈ store, d._id ≠ newId) →
          getById (store ++ [doc]) newId
            = { status := 200, success := true, data := some (.one doc) })) := by
  by_cases hnil : validateDocument castDate (applyDefaults (applySetters body)) = []
  · obtain ⟨name, email, phone, department, position, salary, joiningDate, t, doc, h1, h2, h3,
      h4, h5, h6, h7, ht, hdoc, hcreate⟩ := (create_eq castDate now newId store body).2 hnil
    by_cases hany : store.any (fun d => d.email == toLowerCase (trim email)) = true
    · have hpost : post castDate now newId store body
          = ({ status := 400, success := false,
               message := some (.text "Email already exists") }, store) := by
        simp only [post, hcreate, if_pos hany, StoreError.code, if_true]
      rw [hpost]
      refine ⟨⟨fun h => absurd h (by simp), fun h => ?_⟩, fun h => absurd h (by simp)⟩
      exfalso
      rw [List.any_eq_true] at hany
      obtain ⟨d, hd, hde⟩ := hany
      exact h.2 d hd (by rw [h2]; simpa using hde)
    · have hpost : post castDate now newId store body
          = ({ status := 201, success := true, data := some (.one doc) }, store ++ [doc]) := by
        simp only [post, hcreate, if_neg hany]
      rw [hpost]
      refine ⟨⟨fun _ => ⟨hnil, ?_⟩, fun _ => rfl⟩, fun _ => ⟨doc, rfl, ?_⟩⟩
      · intro d hd heq
        apply hany
        rw [List.any_eq_true]
        refine ⟨d, hd, ?_⟩
        rw [h2] at heq
        simpa using heq
      · have hid : doc._id = newId := by rw [hdoc]
        refine ⟨hid, by rw [hdoc], by rw [hdoc], by rw [h1, hdoc]; rfl, by rw [h2, hdoc]; rfl,
          by rw [h3, hdoc]; rfl, by rw [h5, hdoc]; rfl, by rw [h4, hdoc], by rw [h6, hdoc],
          by rw [h7, hdoc]; exact ht, by rw [hdoc], ?_, ?_⟩
        · intro hs
          rw [hdoc, hs]
          rfl
        · intro hcast hfresh
          simp only [getById, findById, hcast]
          rw [find?_append_new store doc newId hid hfresh]
  · have hpost : post castDate now newId store body
        = ({ status := 400, success := false,
             message := some (.ofError (.validation
               (validateDocument castDate (applyDefaults (applySetters body))))) },
           store) := by
      simp only [post, (create_eq castDate now newId store body).1 hnil, StoreError.code]
      rfl
    rw [hpost]
    exact ⟨⟨fun h => absurd h (by simp), fun h => absurd h.1 hnil⟩,
      fun h => absurd h (by simp)⟩

theorem post_created_witness :
    post sampleCastDate 1000 sampleId [] samplePayload
      = ({ status := 201, success := true, data := some (.one sampleDocument) },
         [sampleDocument]) ∧
    getById [sampleDocument] sampleId
      = { status := 200, success := true, data := some (.one sampleDocument) } ∧
    sampleDocument.email = js "asha@x.com" ∧ sampleDocument.status = js "Active" ∧
    post sampleCastDate 1000 sampleId [] accentedPayload
      = ({ status := 201, success := true, data := some (.one accentedDocument) },
         [accentedDocument]) ∧
    accentedPayload.email = some (js " JOSÉ@X.com ") ∧
    accentedDocument.email = js "josé@x.com" := by
  have hpost : post sampleCastDate 1000 sampleId [] samplePayload
      = ({ status := 201, success := true, data := some (.one sampleDocument) },
         [sampleDocument]) := by decide
  have hstatus : (post sampleCastDate 1000 sampleId [] samplePayload).1.status = 201 := by
    rw [hpost]
  obtain ⟨doc, hdoc, -, -, -, -, -, -, -, -, -, -, -, -, hget⟩ :=
    (post_created sampleCastDate 1000 sampleId [] samplePayload).2 hstatus
  have hd : doc = sampleDocument := by
    rw [hpost] at hdoc
    have := congrArg (fun r => r.2) hdoc
    simpa using this.symm
  subst hd
  have hvalid : validateDocument sampleCastDate (applyDefaults (applySetters accentedPayload))
      = [] := by decide
  have hstatus' : (post sampleCastDate 1000 sampleId [] accentedPayload).1.status = 201 :=
    (post_created sampleCastDate 1000 sampleId [] accentedPayload).1.2
      ⟨hvalid, fun d hd => absurd hd (List.not_mem_nil d)⟩
  obtain ⟨doc', hdoc', hid, hc, hu, hname, hemail, hphone, hposition, hdep, hsal, hdate,
    hstat, -, -⟩ := (post_created sampleCastDate 1000 sampleId [] accentedPayload).2 hstatus'
  have hd' : doc' = accentedDocument := by
    obtain ⟨i, n, e, ph, dp, po, sa, jd, st, ca, ua⟩ := doc'
    simp only at hid hc hu hstat
    subst hid hc hu hstat
    have h1 : some (js "Asha Rao") = some n := hname
    have h2 : some (js "josé@x.com") = some e := by
      rw [← hemail]
      decide
    have h3 : some (js "9999999999") = some ph := hphone
    have h4 : some (js "Engineer") = some po := hposition
    have h5 : some (js "Engineering") = some dp := hdep
    have h6 : some (JSNumber.val 50000) = some sa := hsal
    have h7 : some (1705276800000 : Int) = some jd := by
      rw [← hdate]
      decide
    cases h1
    cases h2
    cases h3
    cases h4
    cases h5
    cases h6
    cases h7
    rfl
  rw [hd'] at hdoc'
  exact ⟨hpost, hget (by decide) (by simp), rfl, rfl, hdoc', rfl, rfl⟩

/-- C18, as the claim states it, fails for a valid payload whose e-mail is already stored: with
the sample record stored, the sample payload passes validation and is answered with 400 and
"Email already exists"; nothing is created. -/
theorem post_valid_payload_not_created :
    validateDocument sampleCastDate (applyDefaults (applySetters samplePayload)) = [] ∧
    post sampleCastDate 2000 otherId [sampleDocument] samplePayload
      = ({ status := 400, success := false,
           message := some (.text "Email already exists") }, [sampleDocument]) := by
  decide

end Router

/-- `put` written out, case by case. -/
theorem put_eq (castDate : JSString → Option Int) (now : Int) (store : Collection)
    (id : JSString) (body : Payload) :
    (castObjectId id = none →
      put castDate now store id body
        = ({ status := 400, success := false, message := some (.ofError .castObjectId) },
           store)) ∧
    (∀ oid, castObjectId id = some oid →
      (validateUpdate castDate (applySetters body) ≠ [] →
        put castDate now store id body
          = ({ status := 400, success := false,
               message := some (.ofError
                 (.validation (validateUpdate castDate (applySetters body)))) }, store)) ∧
      (validateUpdate castDate (applySetters body) = [] →
        (store.find? (fun d => d._id == oid) = none →
          put castDate now store id body = (notFound, store)) ∧
        (∀ doc, store.find? (fun d => d._id == oid) = some doc →
          put castDate now store id body
            = if ((applyUpdate castDate now (applySetters body) doc).email != doc.email &&
                  store.any (fun d =>
                    d.email == (applyUpdate castDate now (applySetters body) doc).email))
                  = true then
                ({ status := 400, success := false,
                   message := some (.ofError .duplicateKey) }, store)
              else
                ({ status := 200, success := true,
                   data := some (.one (applyUpdate castDate now (applySetters body) doc)) },
                 store.map fun d =>
                   if d._id == oid then applyUpdate castDate now (applySetters body) doc
                   else d)))) := by
  refine ⟨fun hc => ?_, fun oid hc => ⟨fun hv => ?_, fun hv => ⟨fun hf => ?_, fun doc hf => ?_⟩⟩⟩
  · simp only [put, findByIdAndUpdate, hc]
  · simp only [put, findByIdAndUpdate, hc, if_pos hv]
  · simp only [put, findByIdAndUpdate, hc, hv, ne_eq, not_true_eq_false, if_false, hf]
  · simp only [put, findByIdAndUpdate, hc, hv, ne_eq, not_true_eq_false, if_false, hf]
    split_ifs <;> rfl

/-- A payload that passes document validation passes the update validators. -/
theorem validateUpdate_eq_nil_of_validateDocument (castDate : JSString → Option Int)
    (p : Payload) (h : validateDocument castDate (applyDefaults p) = []) :
    validateUpdate castDate p = [] := by
  obtain ⟨name, email, phone, department, position, salary, joiningDate, status⟩ := p
  simp only [validateDocument, applyDefaults, List.append_eq_nil] at h
  obtain ⟨⟨⟨⟨⟨⟨⟨h1, h2⟩, h3⟩, h4⟩, h5⟩, h6⟩, h7⟩, h8⟩ := h
  simp only [validateUpdate, List.append_eq_nil]
  refine ⟨⟨⟨⟨⟨⟨⟨?_, ?_⟩, ?_⟩, ?_⟩, ?_⟩, ?_⟩, ?_⟩, ?_⟩
  · cases name <;> simp_all
  · cases email <;> simp_all
  · cases phone <;> simp_all
  · cases department <;> simp_all
  · cases position <;> simp_all
  · cases salary <;> simp_all
  · cases joiningDate <;> simp_all
  · cases status with
    | none => rfl
    | some v => simpa using h8

/-- `post` written out, case by case. -/
theorem post_eq (castDate : JSString → Option Int) (now : Int) (newId : JSString)
    (store : Collection) (body : Payload) :
    (validateDocument castDate (applyDefaults (applySetters body)) ≠ [] →
      post castDate now newId store body
        = ({ status := 400, success := false,
             message := some (.ofError (.validation
               (validateDocument castDate (applyDefaults (applySetters body))))) },
           store)) ∧
    (validateDocument castDate (applyDefaults (applySetters body)) = [] →
      ∃ (email : JSString) (doc : Document), body.email = some email ∧
        doc.email = toLowerCase (trim email) ∧
        (store.any (fun d => d.email == toLowerCase (trim email)) = true →
          post castDate now newId store body
            = ({ status := 400, success := false,
                 message := some (.text "Email already exists") }, store)) ∧
        (store.any (fun d => d.email == toLowerCase (trim email)) = false →
          post castDate now newId store body
            = ({ status := 201, success := true, data := some (.one doc) },
               store ++ [doc]))) := by
  constructor
  · intro hne
    simp only [post, (create_eq castDate now newId store body).1 hne, StoreError.code]
    rfl
  · intro hnil
    obtain ⟨name, email, phone, department, position, salary, joiningDate, t, doc, -, h2, -,
      -, -, -, -, -, hdoc, hcreate⟩ := (create_eq castDate now newId store body).2 hnil
    refine ⟨email, doc, h2, by rw [hdoc], fun hany => ?_, fun hany => ?_⟩
    · simp only [post, hcreate, if_pos hany, StoreError.code, if_true]
    · simp only [post, hcreate, hany, Bool.false_eq_true, if_false]

namespace Router

/-- C15, as the claim states it, fails on the message: with `asha@x.com` stored, a create
payload with the e-mail `Asha@X.com ` and the salary `-1` is rejected with status 400 and the
collection unchanged, but the message is that of the validation error on `salary`, not
"Email already exists". -/
theorem post_duplicate_invalid_payload :
    negativeSalaryPayload.email = some (js "Asha@X.com ") ∧
    sampleDocument.email = toLowerCase (trim (js "Asha@X.com ")) ∧
    post sampleCastDate 2000 otherId [sampleDocument] negativeSalaryPayload
      = ({ status := 400, success := false,
           message := some (.ofError (.validation ["salary"])) }, [sampleDocument]) := by
  decide

/-- C15, amended: when the payload's e-mail, trimmed and lower-cased, is the e-mail of a stored
record, `post` answers 400 with `success: false` and leaves the collection as it is; the
message is "Email already exists" when the payload passes validation, and the validation
error's message, with the failing paths, when it does not. `put` on a different stored record, in a collection whose e-mails are
distinct, answers 400 and leaves the collection as it is. A payload that was just created is
rejected with "Email already exists" when it is sent again, and stays stored once. -/
theorem duplicate_email_rejected (castDate : JSString → Option Int) (now : Int)
    (newId : JSString) (store : Collection) (body : Payload) (e : JSString)
    (existing : Document) (hbody : body.email = some e) (hmem : existing ∈ store)
    (hdup : existing.email = toLowerCase (trim e)) :
    ((post castDate now newId store body).1.status = 400 ∧
      (post castDate now newId store body).1.success = false ∧
      (post castDate now newId store body).2 = store) ∧
    (validateDocument castDate (applyDefaults (applySetters body)) = [] →
      (post castDate now newId store body).1
        = { status := 400, success := false,
            message := some (.text "Email already exists") }) ∧
    (validateDocument castDate (applyDefaults (applySetters body)) ≠ [] →
      (post castDate now newId store body).1
        = { status := 400, success := false,
            message := some (.ofError (.validation
              (validateDocument castDate (applyDefaults (applySetters body))))) }) ∧
    (∀ (id oid : JSString) (target : Document),
      (store.map fun d => d.email).Nodup → castObjectId id = some oid →
      store.find? (fun d => d._id == oid) = some target → target ≠ existing →
      (put castDate now store id body).1.status = 400 ∧
      (put castDate now store id body).1.success = false ∧
      (put castDate now store id body).2 = store) ∧
    (∀ (store₀ : Collection) (now₀ now₁ : Int) (id₀ id₁ : JSString),
      (post castDate now₀ id₀ store₀ body).1.status = 201 →
      post castDate now₁ id₁ (post castDate now₀ id₀ store₀ body).2 body
        = ({ status := 400, success := false,
             message := some (.text "Email already exists") },
           (post castDate now₀ id₀ store₀ body).2) ∧
      ((post castDate now₀ id₀ store₀ body).2.filter
        fun d => d.email == toLowerCase (trim e)).length = 1) := by
  have hany : store.any (fun d => d.email == toLowerCase (trim e)) = true := by
    rw [List.any_eq_true]
    exact ⟨existing, hmem, by simp [hdup]⟩
  have hpost : ∀ (n : Int) (i : JSString),
      (validateDocument castDate (applyDefaults (applySetters body)) = [] →
        post castDate n i store body
          = ({ status := 400, success := false,
               message := some (.text "Email already exists") }, store)) ∧
      (validateDocument castDate (applyDefaults (applySetters body)) ≠ [] →
        post castDate n i store body
          = ({ status := 400, success := false,
               message := some (.ofError (.validation
                 (validateDocument castDate (applyDefaults (applySetters body))))) },
             store)) := by
    intro n i
    constructor
    · intro hnil
      obtain ⟨name, email, phone, department, position, salary, joiningDate, t, doc, -, h2, -,
        -, -, -, -, -, -, hcreate⟩ := (create_eq castDate n i store body).2 hnil
      rw [hbody] at h2
      cases h2
      simp only [post, hcreate, if_pos hany, StoreError.code, if_true]
    · intro hne
      simp only [post, (create_eq castDate n i store body).1 hne, StoreError.code]
      rfl
  have hstatus : ∀ (n : Int) (i : JSString),
      (post castDate n i store body).1.status = 400 ∧
      (post castDate n i store body).1.success = false ∧
      (post castDate n i store body).2 = store := by
    intro n i
    by_cases hnil : validateDocument castDate (applyDefaults (applySetters body)) = []
    · rw [(hpost n i).1 hnil]
      exact ⟨rfl, rfl, rfl⟩
    · rw [(hpost n i).2 hnil]
      exact ⟨rfl, rfl, rfl⟩
  refine ⟨hstatus now newId, fun hnil => by rw [(hpost now newId).1 hnil],
    fun hne => by rw [(hpost now newId).2 hne], ?_, ?_⟩
  swap
  · intro store₀ now₀ now₁ id₀ id₁ h201
    by_cases hnil : validateDocument castDate (applyDefaults (applySetters body)) = []
    swap
    · rw [(post_eq castDate now₀ id₀ store₀ body).1 hnil] at h201
      simp at h201
    obtain ⟨email, doc, he, hdoc, hyes, hno⟩ := (post_eq castDate now₀ id₀ store₀ body).2 hnil
    rw [hbody] at he
    cases he
    cases hany₀ : store₀.any (fun d => d.email == toLowerCase (trim e))
    swap
    · rw [hyes hany₀] at h201
      simp at h201
    rw [hno hany₀]
    obtain ⟨email', doc', he', -, hyes', -⟩ :=
      (post_eq castDate now₁ id₁ (store₀ ++ [doc]) body).2 hnil
    rw [hbody] at he'
    cases he'
    refine ⟨hyes' (by simp [hdoc]), ?_⟩
    have hnone : store₀.filter (fun d => d.email == toLowerCase (trim e)) = [] := by
      rw [List.filter_eq_nil_iff]
      intro d hd
      have := List.any_eq_false.1 hany₀ d hd
      simpa using this
    simp [List.filter_append, hnone, hdoc]
  intro id oid target hnodup hcast hfind hne
  have htarget : target ∈ store := List.mem_of_find?_eq_some hfind
  have hemail : target.email ≠ existing.email := by
    intro heq
    exact hne (List.inj_on_of_nodup_map hnodup htarget hmem heq)
  by_cases hv : validateUpdate castDate (applySetters body) = []
  · have hput := ((put_eq castDate now store id body).2 oid hcast).2 hv |>.2 target hfind
    have hup : (applyUpdate castDate now (applySetters body) target).email
        = toLowerCase (trim e) := by
      simp [applyUpdate, applySetters, hbody]
    have hcond : ((applyUpdate castDate now (applySetters body) target).email != target.email
        && store.any (fun d =>
          d.email == (applyUpdate castDate now (applySetters body) target).email)) = true := by
      rw [hup, hany, Bool.and_true]
      simpa [hdup] using fun h : existing.email = target.email => hemail h.symm
    rw [hput, if_pos hcond]
    exact ⟨rfl, rfl, rfl⟩
  · rw [((put_eq castDate now store id body).2 oid hcast).1 hv]
    exact ⟨rfl, rfl, rfl⟩

theorem duplicate_email_rejected_witness :
    post sampleCastDate 1000 sampleId [] samplePayload
      = ({ status := 201, success := true, data := some (.one sampleDocument) },
         [sampleDocument]) ∧
    post sampleCastDate 2000 otherId [sampleDocument] samplePayload
      = ({ status := 400, success := false,
           message := some (.text "Email already exists") }, [sampleDocument]) ∧
    post sampleCastDate 2000 otherId [accentedDocument] accentedPayload
      = ({ status := 400, success := false,
           message := some (.text "Email already exists") }, [accentedDocument]) ∧
    post sampleCastDate 2000 otherId [sampleDocument] negativeSalaryPayload
      = ({ status := 400, success := false,
           message := some (.ofError (.validation ["salary"])) }, [sampleDocument]) ∧
    ((put sampleCastDate 3000 [sampleDocument, otherDocument] otherId samplePayload).1.status
        = 400 ∧
      (put sampleCastDate 3000 [sampleDocument, otherDocument] otherId samplePayload).2
        = [sampleDocument, otherDocument]) := by
  have h := (duplicate_email_rejected sampleCastDate 2000 otherId [sampleDocument]
    samplePayload (js "Asha@X.com ") sampleDocument rfl (by simp) (by decide))
  have ha := (duplicate_email_rejected sampleCastDate 2000 otherId [accentedDocument]
    accentedPayload (js " JOSÉ@X.com ") accentedDocument rfl (by simp) (by decide))
  have hn := (duplicate_email_rejected sampleCastDate 2000 otherId [sampleDocument]
    negativeSalaryPayload (js "Asha@X.com ") sampleDocument rfl (by simp) (by decide))
  have hnv : validateDocument sampleCastDate (applyDefaults (applySetters negativeSalaryPayload))
      = ["salary"] := by decide
  have h' := (duplicate_email_rejected sampleCastDate 3000 otherId
    [sampleDocument, otherDocument] samplePayload (js "Asha@X.com ") sampleDocument rfl
    (by simp) (by decide)).2.2.2.1 otherId otherId otherDocument (by decide) (by decide)
    (by decide) (by decide)
  refine ⟨by decide, Prod.ext (h.2.1 (by decide)) h.1.2.2,
    Prod.ext (ha.2.1 (by decide)) ha.1.2.2, Prod.ext ?_ hn.1.2.2, h'.1, h'.2.2⟩
  have := hn.2.2.1 (by rw [hnv]; simp)
  rw [hnv] at this
  exact this

end Router

theorem find?_id_eq_none_iff (store : Collection) (oid : JSString) :
    store.find? (fun d => d._id == oid) = none ↔ ∀ d ∈ store, d._id ≠ oid := by
  rw [List.find?_eq_none]
  simp

/-- `delete` written out, case by case. -/
theorem delete_eq (store : Collection) (id : JSString) :
    (castObjectId id = none →
      Router.delete store id
        = ({ status := 500, success := false, message := some (.ofError .castObjectId) },
           store)) ∧
    (∀ oid, castObjectId id = some oid →
      (store.find? (fun d => d._id == oid) = none →
        Router.delete store id = (notFound, store)) ∧
      (∀ doc, store.find? (fun d => d._id == oid) = some doc →
        Router.delete store id
          = ({ status := 200, success := true,
               message := some (.text "Employee deleted successfully") },
             store.filter fun d => d._id != oid))) := by
  refine ⟨fun hc => ?_, fun oid hc => ⟨fun hf => ?_, fun doc hf => ?_⟩⟩
  · simp only [Router.delete, findByIdAndDelete, hc]
  · simp only [Router.delete, findByIdAndDelete, hc, hf]
  · simp only [Router.delete, findByIdAndDelete, hc, hf]

namespace Router

/-- C16, as the claim states it, fails for ids that are not ObjectIds and for updates that fail
validation: for the id `abc`, which matches no record, get-one and delete answer 500 and update
answers 400; for a well-formed id that matches no record, an update with salary `-1` answers
400. The collection is unchanged each time. -/
theorem not_found_exceptions :
    getById [sampleDocument] (js "abc")
      = { status := 500, success := false, message := some (.ofError .castObjectId) } ∧
    Router.delete [sampleDocument] (js "abc")
      = ({ status := 500, success := false, message := some (.ofError .castObjectId) },
         [sampleDocument]) ∧
    put sampleCastDate 2000 [sampleDocument] (js "abc") samplePayload
      = ({ status := 400, success := false, message := some (.ofError .castObjectId) },
         [sampleDocument]) ∧
    castObjectId otherId = some otherId ∧ sampleDocument._id ≠ otherId ∧
    put sampleCastDate 2000 [sampleDocument] otherId negativeSalaryPayload
      = ({ status := 400, success := false,
           message := some (.ofError (.validation ["salary"])) }, [sampleDocument]) := by
  decide

/-- C16, amended: for an id that is an ObjectId and matches no record, get-one and delete
answer `404 { success: false, message: 'Employee not found' }`, and so does update when the
fields it supplies pass validation; for every id that matches no record, ObjectId or not, the
collection is left as it is by delete and update. A second delete of an ObjectId answers
not-found. -/
theorem not_found_responses (castDate : JSString → Option Int) (now : Int)
    (store : Collection) (id : JSString) (body : Payload) :
    (∀ oid, castObjectId id = some oid → (∀ d ∈ store, d._id ≠ oid) →
      getById store id = notFound ∧
      Router.delete store id = (notFound, store) ∧
      (validateUpdate castDate (applySetters body) = [] →
        put castDate now store id body = (notFound, store)) ∧
      (put castDate now store id body).2 = store) ∧
    (castObjectId id = none →
      (Router.delete store id).2 = store ∧ (put castDate now store id body).2 = store) ∧
    (∀ oid, castObjectId id = some oid →
      (Router.delete (Router.delete store id).2 id) = (notFound, (Router.delete store id).2)) ∧
    notFound
      = { status := 404, success := false, message := some (.text "Employee not found") } := by
  refine ⟨fun oid hc hmiss => ?_, fun hc => ?_, fun oid hc => ?_, rfl⟩
  · have hf := (find?_id_eq_none_iff store oid).2 hmiss
    refine ⟨?_, ((delete_eq store id).2 oid hc).1 hf, fun hv => ?_, ?_⟩
    · simp only [getById, findById, hc, hf]
    · exact (((put_eq castDate now store id body).2 oid hc).2 hv).1 hf
    · by_cases hv : validateUpdate castDate (applySetters body) = []
      · rw [(((put_eq castDate now store id body).2 oid hc).2 hv).1 hf]
      · rw [((put_eq castDate now store id body).2 oid hc).1 hv]
  · rw [(delete_eq store id).1 hc, (put_eq castDate now store id body).1 hc]
    exact ⟨rfl, rfl⟩
  · have hgone : ∀ s : Collection, (∀ d ∈ s, d._id ≠ oid) →
        Router.delete s id = (notFound, s) := fun s hs =>
      ((delete_eq s id).2 oid hc).1 ((find?_id_eq_none_iff s oid).2 hs)
    cases hf : store.find? (fun d => d._id == oid) with
    | none =>
      rw [((delete_eq store id).2 oid hc).1 hf]
      exact hgone store ((find?_id_eq_none_iff store oid).1 hf)
    | some doc =>
      rw [((delete_eq store id).2 oid hc).2 doc hf]
      apply hgone
      intro d hd
      simpa using (List.mem_filter.1 hd).2

theorem not_found_responses_witness :
    getById [sampleDocument] otherId = notFound ∧
    Router.delete [sampleDocument] otherId = (notFound, [sampleDocument]) ∧
    put sampleCastDate 2000 [sampleDocument] otherId samplePayload
      = (notFound, [sampleDocument]) ∧
    Router.delete (Router.delete [sampleDocument] sampleId).2 sampleId
      = (notFound, (Router.delete [sampleDocument] sampleId).2) := by
  have h := not_found_responses sampleCastDate 2000 [sampleDocument] otherId samplePayload
  have h1 := h.1 otherId (by decide) (by decide)
  have h2 := (not_found_responses sampleCastDate 2000 [sampleDocument] sampleId
    samplePayload).2.2.1 sampleId (by decide)
  exact ⟨h1.1, h1.2.1, h1.2.2.1 (by decide), h2⟩

/-- C17, as the claim states it, fails for payloads that omit required fields: a payload that
supplies only `name` is rejected by create (the other required paths fail validation) but
accepted by update, which changes the name and keeps the other stored values. -/
theorem put_accepts_partial_payload :
    post sampleCastDate 2000 otherId [] nameOnlyPayload
      = ({ status := 400, success := false,
           message := some (.ofError (.validation
             ["email", "phone", "department", "position", "salary", "joiningDate"])) }, []) ∧
    put sampleCastDate 2000 [sampleDocument] sampleId nameOnlyPayload
      = ({ status := 200, success := true,
           data := some (.one { sampleDocument with name := js "Asha R", updatedAt := 2000 }) },
         [{ sampleDocument with name := js "Asha R", updatedAt := 2000 }]) := by
  decide

/-- C17, amended: for an id that matches a stored record, an update in which a supplied field
fails its rule (empty after trimming where required, a salary that is not `>= 0`, a
department or status outside its enumeration, a date that does not cast) is answered with 400
and the collection is left as it is. The update is answered with 200 exactly when the supplied
fields pass their rules and the e-mail of the updated record is the record's own or is not
stored; the answer then holds the record after setting the supplied fields, which replaces the
stored one. So it is for every payload that passes the validation of create and whose
normalised e-mail is the record's own or is not stored, and for every payload that create
accepts on the same collection. Fields the payload omits are not validated and keep their
stored values. -/
theorem put_validation (castDate : JSString → Option Int) (now : Int) (store : Collection)
    (id oid : JSString) (body : Payload) (doc : Document)
    (hcast : castObjectId id = some oid)
    (hfind : store.find? (fun d => d._id == oid) = some doc) :
    (validateUpdate castDate (applySetters body) ≠ [] →
      put castDate now store id body
        = ({ status := 400, success := false,
             message := some (.ofError
               (.validation (validateUpdate castDate (applySetters body)))) }, store)) ∧
    ((∃ v, body.name = some v ∧ trim v = []) ∨ (∃ v, body.email = some v ∧ trim v = []) ∨
      (∃ v, body.phone = some v ∧ trim v = []) ∨ (∃ v, body.position = some v ∧ trim v = []) ∨
      (∃ v, body.salary = some v ∧ v.geZero = false) ∨
      (∃ v, body.department = some v ∧ v ∉ departmentEnum) ∨
      (∃ v, body.status = some v ∧ v ∉ statusEnum) ∨
      (∃ v, body.joiningDate = some v ∧ castDate v = none) →
      (put castDate now store id body).1.status = 400 ∧
      (put castDate now store id body).2 = store) ∧
    ((put castDate now store id body).1.status = 200 ↔
      validateUpdate castDate (applySetters body) = [] ∧
      ((applyUpdate castDate now (applySetters body) doc).email = doc.email ∨
        ∀ d ∈ store, d.email ≠ (applyUpdate castDate now (applySetters body) doc).email)) ∧
    ((put castDate now store id body).1.status = 200 →
      put castDate now store id body
        = ({ status := 200, success := true,
             data := some (.one (applyUpdate castDate now (applySetters body) doc)) },
           store.map fun d =>
             if d._id == oid then applyUpdate castDate now (applySetters body) doc else d)) ∧
    (validateDocument castDate (applyDefaults (applySetters body)) = [] →
      ((body.email.map fun e => toLowerCase (trim e)) = some doc.email ∨
        ∀ d ∈ store, some d.email ≠ body.email.map fun e => toLowerCase (trim e)) →
      put castDate now store id body
        = ({ status := 200, success := true,
             data := some (.one (applyUpdate castDate now (applySetters body) doc)) },
           store.map fun d =>
             if d._id == oid then applyUpdate castDate now (applySetters body) doc else d)) ∧
    (∀ (now' : Int) (newId : JSString),
      (post castDate now' newId store body).1.status = 201 →
      put castDate now store id body
        = ({ status := 200, success := true,
             data := some (.one (applyUpdate castDate now (applySetters body) doc)) },
           store.map fun d =>
             if d._id == oid then applyUpdate castDate now (applySetters body) doc else d)) ∧
    (body.name = none → (applyUpdate castDate now (applySetters body) doc).name = doc.name) ∧
    (∀ v, body.name = some v →
      (applyUpdate castDate now (applySetters body) doc).name = trim v) := by
  have hbad := ((put_eq castDate now store id body).2 oid hcast).1
  have hcond : ((applyUpdate castDate now (applySetters body) doc).email != doc.email &&
      store.any (fun d =>
        d.email == (applyUpdate castDate now (applySetters body) doc).email)) = true ↔
      ¬ ((applyUpdate castDate now (applySetters body) doc).email = doc.email ∨
        ∀ d ∈ store, d.email ≠ (applyUpdate castDate now (applySetters body) doc).email) := by
    simp only [Bool.and_eq_true, bne_iff_ne, ne_eq, List.any_eq_true, beq_iff_eq, not_or,
      not_forall, not_not, exists_prop]
  have hok : validateUpdate castDate (applySetters body) = [] →
      ((applyUpdate castDate now (applySetters body) doc).email = doc.email ∨
        ∀ d ∈ store, d.email ≠ (applyUpdate castDate now (applySetters body) doc).email) →
      put castDate now store id body
        = ({ status := 200, success := true,
             data := some (.one (applyUpdate castDate now (applySetters body) doc)) },
           store.map fun d =>
             if d._id == oid then applyUpdate castDate now (applySetters body) doc
             else d) := by
    intro hv hmail
    rw [(((put_eq castDate now store id body).2 oid hcast).2 hv).2 doc hfind,
      if_neg fun h => hcond.1 h hmail]
  have hdup : validateUpdate castDate (applySetters body) = [] →
      ¬ ((applyUpdate castDate now (applySetters body) doc).email = doc.email ∨
        ∀ d ∈ store, d.email ≠ (applyUpdate castDate now (applySetters body) doc).email) →
      put castDate now store id body
        = ({ status := 400, success := false, message := some (.ofError .duplicateKey) },
           store) := by
    intro hv hmail
    rw [(((put_eq castDate now store id body).2 oid hcast).2 hv).2 doc hfind,
      if_pos (hcond.2 hmail)]
  have hiff : (put castDate now store id body).1.status = 200 ↔
      validateUpdate castDate (applySetters body) = [] ∧
      ((applyUpdate castDate now (applySetters body) doc).email = doc.email ∨
        ∀ d ∈ store,
          d.email ≠ (applyUpdate castDate now (applySetters body) doc).email) := by
    by_cases hv : validateUpdate castDate (applySetters body) = []
    · by_cases hmail : (applyUpdate castDate now (applySetters body) doc).email = doc.email ∨
          ∀ d ∈ store, d.email ≠ (applyUpdate castDate now (applySetters body) doc).email
      · rw [hok hv hmail]
        exact ⟨fun _ => ⟨hv, hmail⟩, fun _ => rfl⟩
      · rw [hdup hv hmail]
        exact ⟨fun h => absurd h (by simp), fun h => absurd h.2 hmail⟩
    · rw [hbad hv]
      exact ⟨fun h => absurd h (by simp), fun h => absurd h.1 hv⟩
  have hemail : (applyUpdate castDate now (applySetters body) doc).email
      = (body.email.map fun e => toLowerCase (trim e)).getD doc.email := by
    simp [applyUpdate, applySetters]
  have hmail_of : ((body.email.map fun e => toLowerCase (trim e)) = some doc.email ∨
      ∀ d ∈ store, some d.email ≠ body.email.map fun e => toLowerCase (trim e)) →
      ((applyUpdate castDate now (applySetters body) doc).email = doc.email ∨
        ∀ d ∈ store,
          d.email ≠ (applyUpdate castDate now (applySetters body) doc).email) := by
    rw [hemail]
    rintro (h | h)
    · left
      rw [h]
      rfl
    · cases he : body.email.map fun e => toLowerCase (trim e) with
      | none => exact Or.inl rfl
      | some e =>
        right
        intro d hd heq
        apply h d hd
        rw [he]
        exact congrArg some heq
  refine ⟨hbad, fun hcases => ?_, hiff, fun h200 => hok (hiff.1 h200).1 (hiff.1 h200).2,
    fun hnil hmail => hok (validateUpdate_eq_nil_of_validateDocument castDate _ hnil)
      (hmail_of hmail),
    fun now' newId h201 => ?_, fun hn => ?_, fun v hv => ?_⟩
  · have hne : validateUpdate castDate (applySetters body) ≠ [] := by
      obtain ⟨name, email, phone, department, position, salary, joiningDate, status⟩ := body
      simp only [validateUpdate, applySetters, ne_eq, List.append_eq_nil, not_and_or]
      rcases hcases with ⟨v, h, hv⟩ | ⟨v, h, hv⟩ | ⟨v, h, hv⟩ | ⟨v, h, hv⟩ | ⟨v, h, hv⟩ |
        ⟨v, h, hv⟩ | ⟨v, h, hv⟩ | ⟨v, h, hv⟩ <;> simp only at h <;> subst h
      · simp [hv, truthy]
      · simp [hv, truthy, toLowerCase_nil]
      · simp [hv, truthy]
      · simp [hv, truthy]
      · simp [hv]
      · simp [hv]
      · simp [hv]
      · simp [hv]
    rw [hbad hne]
    exact ⟨rfl, rfl⟩
  · by_cases hnil : validateDocument castDate (applyDefaults (applySetters body)) = []
    swap
    · rw [(post_eq castDate now' newId store body).1 hnil] at h201
      simp at h201
    obtain ⟨email, doc', he, -, hyes, -⟩ := (post_eq castDate now' newId store body).2 hnil
    cases hany : store.any (fun d => d.email == toLowerCase (trim email))
    swap
    · rw [hyes hany] at h201
      simp at h201
    refine hok (validateUpdate_eq_nil_of_validateDocument castDate _ hnil) (hmail_of ?_)
    right
    intro d hd heq
    rw [he] at heq
    have := List.any_eq_false.1 hany d hd
    simp only [beq_iff_eq] at this
    exact this (Option.some.inj heq)
  · simp [applyUpdate, applySetters, hn]
  · simp [applyUpdate, applySetters, hv]

theorem put_validation_witness :
    ((put sampleCastDate 2000 [sampleDocument] sampleId
        { samplePayload with department := some (js "Legal") }).1.status = 400 ∧
      (put sampleCastDate 2000 [sampleDocument] sampleId
        { samplePayload with department := some (js "Legal") }).2 = [sampleDocument]) ∧
    ((post sampleCastDate 2000 otherId [sampleDocument, otherDocument] samplePayload).1.status
        = 400 ∧
      put sampleCastDate 2000 [sampleDocument, otherDocument] sampleId samplePayload
        = ({ status := 200, success := true,
             data := some (.one { sampleDocument with updatedAt := 2000 }) },
           [{ sampleDocument with updatedAt := 2000 }, otherDocument])) ∧
    put sampleCastDate 2000 [sampleDocument, otherDocument] sampleId
        { samplePayload with salary := some (.val 60000), status := some (js "On Leave") }
      = ({ status := 200, success := true,
           data := some (.one { sampleDocument with
             salary := .val 60000, status := js "On Leave", updatedAt := 2000 }) },
         [{ sampleDocument with
             salary := .val 60000, status := js "On Leave", updatedAt := 2000 },
          otherDocument]) ∧
    (post sampleCastDate 2000 otherId [sampleDocument] newEmailPayload).1.status = 201 ∧
    put sampleCastDate 2000 [sampleDocument] sampleId newEmailPayload
      = ({ status := 200, success := true,
           data := some (.one
             { sampleDocument with email := js "asha.rao@x.com", updatedAt := 2000 }) },
         [{ sampleDocument with email := js "asha.rao@x.com", updatedAt := 2000 }]) := by
  have h := (put_validation sampleCastDate 2000 [sampleDocument] sampleId sampleId
    { samplePayload with department := some (js "Legal") } sampleDocument (by decide)
    (by decide)).2.1
    (Or.inr (Or.inr (Or.inr (Or.inr (Or.inr (Or.inl ⟨js "Legal", rfl, by decide⟩))))))
  have hown := (put_validation sampleCastDate 2000 [sampleDocument, otherDocument] sampleId
    sampleId samplePayload sampleDocument (by decide) (by decide)).2.2.2.2.1 (by decide)
    (Or.inl (by decide))
  have hraise := (put_validation sampleCastDate 2000 [sampleDocument, otherDocument] sampleId
    sampleId { samplePayload with salary := some (.val 60000), status := some (js "On Leave") }
    sampleDocument (by decide) (by decide)).2.2.2.2.1 (by decide) (Or.inl (by decide))
  have h201 : (post sampleCastDate 2000 otherId [sampleDocument] newEmailPayload).1.status
      = 201 := by decide
  have h2 := (put_validation sampleCastDate 2000 [sampleDocument] sampleId sampleId
    newEmailPayload sampleDocument (by decide) (by decide)).2.2.2.2.2.1 2000 otherId h201
  exact ⟨h, ⟨by decide, hown.trans (by decide)⟩, hraise.trans (by decide), h201,
    h2.trans (by decide)⟩

end Router

/-! ### Upper-casing twice -/

theorem upperTablesClosed_true : upperTablesClosed = true := by decide!

theorem rowsApart_sound (a b s f l t u : Nat) (h : rowsApart a b s f l t = true)
    (h1 : inRow a b s u = true) (h2 : inRow f l t u = true) : False := by
  simp only [inRow, Bool.and_eq_true, decide_eq_true_eq, beq_iff_eq] at h1 h2
  obtain ⟨⟨ha, hb⟩, hs⟩ := h1
  obtain ⟨⟨hf, hl⟩, ht⟩ := h2
  simp only [rowsApart, Bool.or_eq_true, Bool.and_eq_true, decide_eq_true_eq, beq_iff_eq,
    Bool.not_eq_true'] at h
  rcases h with (((h | h) | h) | h) | h
  · omega
  · omega
  · obtain ⟨⟨rfl, rfl⟩, hp⟩ := h
    omega
  · obtain ⟨hfl, hn⟩ := h
    have hu : u = f := by omega
    subst hu
    simp [inRow, ha, hb, hs] at hn
  · obtain ⟨hab, hn⟩ := h
    have hu : u = a := by omega
    subst hu
    simp [inRow, hf, hl, ht] at hn

theorem lookupRange_some (rows : List (Nat × Nat × Nat × Nat)) (c u : Nat)
    (h : lookupRange rows c = some u) :
    ∃ first last step image, (first, last, step, image) ∈ rows ∧
      inRow first last step c = true ∧ u = image + (c - first) := by
  induction rows with
  | nil => simp [lookupRange] at h
  | cons row rows ih =>
    obtain ⟨first, last, step, image⟩ := row
    simp only [lookupRange] at h
    split_ifs at h with h1 h2
    · cases h
      exact ⟨first, last, step, image, List.mem_cons_self _ _, by
        simp [inRow, h2.1, h2.2, Nat.le_of_not_lt h1], rfl⟩
    · obtain ⟨f, l, s, i, hm, hr, hu⟩ := ih h
      exact ⟨f, l, s, i, List.mem_cons_of_mem _ hm, hr, hu⟩

theorem lookupRange_none (rows : List (Nat × Nat × Nat × Nat)) (u : Nat)
    (h : ∀ row ∈ rows, inRow row.1 row.2.1 row.2.2.1 u = false) :
    lookupRange rows u = none := by
  induction rows with
  | nil => rfl
  | cons row rows ih =>
    obtain ⟨first, last, step, image⟩ := row
    have h0 := h (first, last, step, image) (List.mem_cons_self _ _)
    simp only [lookupRange]
    split_ifs with h1 h2
    · rfl
    · exfalso
      simp [inRow, h2.1, h2.2, Nat.le_of_not_lt h1] at h0
    · exact ih fun row hrow => h row (List.mem_cons_of_mem _ hrow)

theorem lookup_none (l : List (Nat × List Nat)) (u : Nat) (h : ∀ p ∈ l, (p.1 != u) = true) :
    l.lookup u = none := by
  induction l with
  | nil => rfl
  | cons p l ih =>
    obtain ⟨k, v⟩ := p
    have h0 := h (k, v) (List.mem_cons_self _ _)
    have hne : (u == k) = false := by
      simp only [bne_iff_ne, ne_eq] at h0
      simpa using fun e : u = k => h0 e.symm
    rw [List.lookup_cons, hne]
    exact ih fun p hp => h p (List.mem_cons_of_mem _ hp)

theorem mem_of_lookup_some (l : List (Nat × List Nat)) (c : Nat) (v : List Nat)
    (h : l.lookup c = some v) : (c, v) ∈ l := by
  induction l with
  | nil => simp at h
  | cons p l ih =>
    obtain ⟨k, w⟩ := p
    rw [List.lookup_cons] at h
    cases hk : (c == k) with
    | true =>
      rw [hk] at h
      cases h
      have : c = k := by simpa using hk
      subst this
      exact List.mem_cons_self _ _
    | false =>
      rw [hk] at h
      exact List.mem_cons_of_mem _ (ih h)

/-- A code point in no row and under no key of the upper-case tables is left as it is. -/
theorem upperCodePoint_of_not_source (u : Nat)
    (h1 : ∀ p ∈ upperExpansions, (p.1 != u) = true)
    (h2 : ∀ row ∈ upperRanges, inRow row.1 row.2.1 row.2.2.1 u = false) :
    upperCodePoint u = [u] := by
  simp only [upperCodePoint, lookup_none _ u h1, lookupRange_none _ u h2]

/-- A surrogate is left as it is by upper-casing. -/
theorem upperCodePoint_surrogate (u : Nat) (hu : isSurrogate u = true) :
    upperCodePoint u = [u] := by
  have hc := upperTablesClosed_true
  simp only [upperTablesClosed, Bool.and_eq_true, List.all_eq_true] at hc
  simp only [isSurrogate, Bool.and_eq_true, decide_eq_true_eq] at hu
  apply upperCodePoint_of_not_source
  · intro p hp
    obtain ⟨k, l⟩ := p
    have := (hc.2 (k, l) hp).1.1
    simp only [isSurrogate, Bool.not_eq_true', Bool.and_eq_false_iff, decide_eq_false_iff_not]
      at this
    simp only [bne_iff_ne, ne_eq]
    omega
  · intro row hrow
    obtain ⟨first, last, step, image⟩ := row
    have := (hc.1 (first, last, step, image) hrow).2
    simp only [Bool.or_eq_true, decide_eq_true_eq] at this
    simp only [inRow, Bool.and_eq_false_iff, decide_eq_false_iff_not]
    omega

/-- Upper-casing leaves a code point as it is, or puts code points that it leaves as they are
and that are no surrogates. -/
theorem upperCodePoint_closed (c : Nat) :
    upperCodePoint c = [c] ∨
      (upperCodePoint c ≠ [] ∧
        ∀ u ∈ upperCodePoint c, upperCodePoint u = [u] ∧ isSurrogate u = false) := by
  have hc := upperTablesClosed_true
  simp only [upperTablesClosed, Bool.and_eq_true, List.all_eq_true] at hc
  obtain ⟨hrows, hexp⟩ := hc
  cases hl : upperExpansions.lookup c with
  | some v =>
    right
    have hmem := mem_of_lookup_some _ _ _ hl
    have hv := hexp (c, v) hmem
    have hup : upperCodePoint c = v := by simp only [upperCodePoint, hl]
    rw [hup]
    refine ⟨?_, fun u hu => ?_⟩
    · intro h0
      rw [h0] at hv
      simp at hv
    · have hu' := hv.2 u hu
      simp only [Bool.and_eq_true, List.all_eq_true, Bool.not_eq_true'] at hu'
      refine ⟨upperCodePoint_of_not_source u (fun p hp => hu'.2 p hp) (fun row hrow => ?_),
        hu'.1.1⟩
      exact hu'.1.2 row hrow
  | none =>
    cases hr : lookupRange upperRanges c with
    | none =>
      left
      simp only [upperCodePoint, hl, hr]
    | some u =>
      right
      have hup : upperCodePoint c = [u] := by simp only [upperCodePoint, hl, hr]
      obtain ⟨first, last, step, image, hmem, hrow, hu⟩ := lookupRange_some _ _ _ hr
      have hI := hrows (first, last, step, image) hmem
      simp only [Bool.and_eq_true, List.all_eq_true, Bool.or_eq_true, decide_eq_true_eq,
        Bool.not_eq_true'] at hI
      obtain ⟨⟨⟨hI1, hI2⟩, hI3⟩, -⟩ := hI
      have hin : inRow image (image + (last - first)) step u = true := by
        simp only [inRow, Bool.and_eq_true, decide_eq_true_eq, beq_iff_eq] at hrow ⊢
        subst hu
        refine ⟨⟨by omega, by omega⟩, ?_⟩
        rw [Nat.add_sub_cancel_left]
        exact hrow.2
      rw [hup]
      refine ⟨by simp, fun w hw => ?_⟩
      rw [List.mem_singleton] at hw
      subst hw
      refine ⟨upperCodePoint_of_not_source w (fun p hp => ?_) (fun row hr' => ?_), ?_⟩
      · obtain ⟨k, l⟩ := p
        have := hI2 (k, l) hp
        simp only [bne_iff_ne, ne_eq]
        intro hk
        have hk2 : k = w := hk
        subst hk2
        rw [hin] at this
        cases this
      · obtain ⟨f, l, t, i⟩ := row
        cases hrw : inRow f l t w with
        | false => rfl
        | true => exact (rowsApart_sound _ _ _ _ _ _ w (hI1 (f, l, t, i) hr') hin hrw).elim
      · simp only [inRow, Bool.and_eq_true, decide_eq_true_eq] at hin
        simp only [isSurrogate, Bool.and_eq_false_iff, decide_eq_false_iff_not]
        omega

theorem codePoints_head (b : Nat) (t : JSString) :
    (codePoints (b :: t)).head? = some b ∨
      ∃ v, 0x10000 ≤ v ∧ (codePoints (b :: t)).head? = some v := by
  cases t with
  | nil => exact Or.inl rfl
  | cons c t =>
    by_cases hc : (isHighSurrogate b && isLowSurrogate c) = true
    · right
      exact ⟨0x10000 + (b - 0xD800) * 0x400 + (c - 0xDC00), by omega,
        by simp only [codePoints, hc, if_true, List.head?_cons]⟩
    · left
      simp only [codePoints, hc, List.head?_cons]
      rfl

/-- Decoding never leaves a high surrogate right before a low surrogate at the head. -/
theorem codePoints_no_pair (s : JSString) (h l : Nat) (t : List Nat)
    (hs : codePoints s = h :: l :: t) :
    ¬ (isHighSurrogate h = true ∧ isLowSurrogate l = true) := by
  match s, hs with
  | [a], hs => simp [codePoints] at hs
  | a :: b :: r, hs =>
    by_cases hc : (isHighSurrogate a && isLowSurrogate b) = true
    · simp only [codePoints, hc, if_true, List.cons.injEq] at hs
      intro hh
      have := hh.1
      simp only [isHighSurrogate, Bool.and_eq_true, decide_eq_true_eq] at this
      omega
    · have hc' : (isHighSurrogate a && isLowSurrogate b) = false := by simpa using hc
      simp only [codePoints, hc', Bool.false_eq_true, if_false, List.cons.injEq] at hs
      obtain ⟨ha, hrest⟩ := hs
      rcases codePoints_head b r with hb | ⟨v, hv, hb⟩
      · rw [hrest, List.head?_cons, Option.some.injEq] at hb
        subst ha hb
        simpa [Bool.and_eq_true] using hc
      · rw [hrest, List.head?_cons, Option.some.injEq] at hb
        subst hb
        intro hh
        have := hh.2
        simp only [isLowSurrogate, Bool.and_eq_true, decide_eq_true_eq] at this
        omega

theorem isSurrogate_of_high (u : Nat) (h : isHighSurrogate u = true) : isSurrogate u = true := by
  simp only [isHighSurrogate, isSurrogate, Bool.and_eq_true, decide_eq_true_eq] at h ⊢
  omega

theorem isSurrogate_of_low (u : Nat) (h : isLowSurrogate u = true) : isSurrogate u = true := by
  simp only [isLowSurrogate, isSurrogate, Bool.and_eq_true, decide_eq_true_eq] at h ⊢
  omega

/-- Every code point that upper-casing puts is left as it is by upper-casing. -/
theorem upper_flatten_fixed (cps : List Nat) (u : Nat)
    (hu : u ∈ (cps.map upperCodePoint).flatten) : upperCodePoint u = [u] := by
  simp only [List.mem_flatten, List.mem_map] at hu
  obtain ⟨l, ⟨c, -, rfl⟩, hul⟩ := hu
  rcases upperCodePoint_closed c with h | h
  · rw [h, List.mem_singleton] at hul
    subst hul
    exact h
  · exact (h.2 u hul).1

/-- Upper-casing code point by code point never brings a high surrogate right before a low
surrogate at the head when the input had none there. -/
theorem upper_flatten_no_pair (cps : List Nat)
    (hA : ∀ h l t, cps = h :: l :: t →
      ¬ (isHighSurrogate h = true ∧ isLowSurrogate l = true))
    (h l : Nat) (t : List Nat) (hs : (cps.map upperCodePoint).flatten = h :: l :: t) :
    ¬ (isHighSurrogate h = true ∧ isLowSurrogate l = true) := by
  cases cps with
  | nil => simp at hs
  | cons c cs =>
    rw [List.map_cons, List.flatten_cons] at hs
    rcases upperCodePoint_closed c with hc | ⟨hne, hc⟩
    · rw [hc] at hs
      cases cs with
      | nil => simp at hs
      | cons d ds =>
        rw [List.map_cons, List.flatten_cons] at hs
        rcases upperCodePoint_closed d with hd | ⟨hne, hd⟩
        · rw [hd] at hs
          have h1 : c = h := by simpa using congrArg List.head? hs
          have h2 : d = l := by simpa using congrArg (fun x => x.tail.head?) hs
          subst h1 h2
          exact hA c d ds rfl
        · cases hud : upperCodePoint d with
          | nil => exact absurd hud hne
          | cons u us =>
            rw [hud] at hs hd
            have h2 : u = l := by simpa using congrArg (fun x => x.tail.head?) hs
            subst h2
            intro hh
            have := (hd u (List.mem_cons_self _ _)).2
            rw [isSurrogate_of_low u hh.2] at this
            cases this
    · cases huc : upperCodePoint c with
      | nil => exact absurd huc hne
      | cons u us =>
        rw [huc] at hs hc
        have h1 : u = h := by simpa using congrArg List.head? hs
        subst h1
        intro hh
        have := (hc u (List.mem_cons_self _ _)).2
        rw [isSurrogate_of_high u hh.1] at this
        cases this

theorem codeUnits_cons_astral (c : Nat) (cs : List Nat) (h : 0x10000 ≤ c ∧ c < 0x110000) :
    codeUnits (c :: cs) =
      (0xD800 + (c - 0x10000) / 0x400) :: (0xDC00 + (c - 0x10000) % 0x400) :: codeUnits cs := by
  simp only [codeUnits, h, and_self, if_true, List.cons_append, List.nil_append]

theorem codeUnits_cons_plain (c : Nat) (cs : List Nat) (h : ¬ (0x10000 ≤ c ∧ c < 0x110000)) :
    codeUnits (c :: cs) = c :: codeUnits cs := by
  simp only [codeUnits, h, if_false, List.singleton_append]

/-- Two plain code units that are no surrogate pair are left as they are by `toUpperCase`
when upper-casing leaves each of them as it is. -/
theorem toUpperCase_two (a b : Nat) (ha : upperCodePoint a = [a]) (hb : upperCodePoint b = [b])
    (hpair : ¬ (isHighSurrogate a = true ∧ isLowSurrogate b = true))
    (hpa : ¬ (0x10000 ≤ a ∧ a < 0x110000)) (hpb : ¬ (0x10000 ≤ b ∧ b < 0x110000)) :
    toUpperCase [a, b] = [a, b] := by
  have hc : (isHighSurrogate a && isLowSurrogate b) = false := by
    simpa [Bool.and_eq_true] using hpair
  simp only [toUpperCase, codePoints, hc, Bool.false_eq_true, if_false, List.map_cons, List.map_nil, ha, hb,
    List.flatten_cons, List.flatten_nil, List.singleton_append, List.append_nil]
  rw [codeUnits_cons_plain a _ hpa, codeUnits_cons_plain b _ hpb]
  rfl

theorem toUpperCase_one (a : Nat) (ha : upperCodePoint a = [a])
    (hpa : ¬ (0x10000 ≤ a ∧ a < 0x110000)) : toUpperCase [a] = [a] := by
  simp only [toUpperCase, codePoints, List.map_cons, List.map_nil, ha,
    List.flatten_cons, List.flatten_nil, List.append_nil]
  rw [codeUnits_cons_plain a _ hpa]
  rfl

theorem toUpperCase_astral (c : Nat) (hc : upperCodePoint c = [c])
    (h : 0x10000 ≤ c ∧ c < 0x110000) :
    toUpperCase [0xD800 + (c - 0x10000) / 0x400, 0xDC00 + (c - 0x10000) % 0x400] =
      [0xD800 + (c - 0x10000) / 0x400, 0xDC00 + (c - 0x10000) % 0x400] := by
  have hp : (isHighSurrogate (0xD800 + (c - 0x10000) / 0x400) &&
      isLowSurrogate (0xDC00 + (c - 0x10000) % 0x400)) = true := by
    simp only [isHighSurrogate, isLowSurrogate, Bool.and_eq_true, decide_eq_true_eq]
    omega
  have hv : 0x10000 + (0xD800 + (c - 0x10000) / 0x400 - 0xD800) * 0x400 +
      (0xDC00 + (c - 0x10000) % 0x400 - 0xDC00) = c := by omega
  simp only [toUpperCase, codePoints, hp, if_true, hv, List.map_cons, List.map_nil, hc,
    List.flatten_cons, List.flatten_nil, List.append_nil]
  rw [codeUnits_cons_astral c _ h]
  rfl

/-- The first two code units of an upper-cased string are left as they are by `toUpperCase`. -/
theorem toUpperCase_take_two (s : JSString) :
    toUpperCase ((toUpperCase s).take 2) = (toUpperCase s).take 2 := by
  have hfix := upper_flatten_fixed (codePoints s)
  have hpair := upper_flatten_no_pair (codePoints s) (codePoints_no_pair s)
  unfold toUpperCase at hfix hpair ⊢
  generalize ((codePoints s).map upperCodePoint).flatten = out at hfix hpair
  match out, hfix, hpair with
  | [], _, _ => rfl
  | c :: rest, hfix, hpair =>
    have hc := hfix c (List.mem_cons_self _ _)
    by_cases hca : 0x10000 ≤ c ∧ c < 0x110000
    · rw [codeUnits_cons_astral c rest hca]
      exact toUpperCase_astral c hc hca
    · rw [codeUnits_cons_plain c rest hca]
      match rest, hfix, hpair with
      | [], _, _ => exact toUpperCase_one c hc hca
      | d :: ds, hfix, hpair =>
        have hd := hfix d (List.mem_cons_of_mem _ (List.mem_cons_self _ _))
        by_cases hda : 0x10000 ≤ d ∧ d < 0x110000
        · rw [codeUnits_cons_astral d ds hda]
          refine toUpperCase_two c _ hc (upperCodePoint_surrogate _ ?_) ?_ hca (by omega)
          · simp only [isSurrogate, Bool.and_eq_true, decide_eq_true_eq]
            omega
          · intro hh
            have := hh.2
            simp only [isLowSurrogate, Bool.and_eq_true, decide_eq_true_eq] at this
            omega
        · rw [codeUnits_cons_plain d ds hda]
          exact toUpperCase_two c d hc hd (hpair c d ds rfl) hca hda

/-! ### Avatars -/

namespace EmployeeList

/-- C21: for a non-empty name the index `charCodeAt(0) % 7` is below seven and
`getAvatarColor` returns one of the seven palette colours (for the empty name it returns
`undefined`); `getInitials` returns at most two code units, and `toUpperCase` leaves them as
they are, whatever letters the name is written in. -/
theorem avatar_and_initials (name : JSString) :
    (name ≠ [] →
      ∃ code, name.head? = some code ∧ code % avatarColors.length < avatarColors.length ∧
        ∃ color ∈ avatarColors, getAvatarColor name = some color) ∧
    getAvatarColor [] = none ∧ avatarColors.length = 7 ∧
    (getInitials name).length ≤ 2 ∧
    toUpperCase (getInitials name) = getInitials name := by
  refine ⟨fun hne => ?_, rfl, rfl, ?_, ?_⟩
  · cases name with
    | nil => exact absurd rfl hne
    | cons c rest =>
      have hlt : c % avatarColors.length < avatarColors.length :=
        Nat.mod_lt _ (by decide)
      refine ⟨c, rfl, hlt, avatarColors[c % avatarColors.length], List.getElem_mem _, ?_⟩
      simp only [getAvatarColor, List.head?_cons]
      exact List.getElem?_eq_getElem hlt
  · simp only [getInitials, List.length_take]
    exact Nat.min_le_left _ _
  · simp only [getInitials]
    exact toUpperCase_take_two _

theorem avatar_and_initials_witness :
    (∃ color ∈ avatarColors, getAvatarColor (js "Asha Rao") = some color) ∧
    getAvatarColor (js "Asha Rao") = some "#ec4899" ∧
    getAvatarColor (js "яна мир") = some "#10b981" ∧
    getInitials (js "Asha Rao") = js "AR" ∧
    getInitials (js "asha   rao") = js "AR" ∧
    getInitials (js "яна мир") = js "ЯМ" ∧
    toUpperCase (js "ЯМ") = js "ЯМ" ∧
    getInitials (js "ßen") = js "SS" ∧
    getInitials (js "ǰ") = [0x4A, 0x30C] ∧
    toUpperCase [0x4A, 0x30C] = [0x4A, 0x30C] := by
  have hc := (avatar_and_initials (js "Asha Rao")).1 (by decide)
  obtain ⟨_, _, _, hcolor⟩ := hc
  have h1 : getInitials (js "яна мир") = js "ЯМ" := by decide
  have h2 : getInitials (js "ǰ") = [0x4A, 0x30C] := by decide
  have hu1 := (avatar_and_initials (js "яна мир")).2.2.2.2
  have hu2 := (avatar_and_initials (js "ǰ")).2.2.2.2
  rw [h1] at hu1
  rw [h2] at hu2
  exact ⟨hcolor, by decide, by decide, by decide, by decide, h1, hu1, by decide, h2, hu2⟩

end EmployeeList

end EmployeeApp
